import Mathlib

/-
  Verification of the WebArcade minesweeper engines (square-grid sapper.js and
  shape-grid sappershapes.js), the hex/triangle grid geometry library, and the
  Sudoku engine, against their natural-language specification.

  Conventions of the shallow embedding:
  - JS 2-D arrays and coordinate-keyed maps become total functions
    Int -> Int -> a together with explicit bounds guards exactly where the
    source has them; cells outside the guarded range are never consulted.
  - Math.random() draws become explicit streams passed as arguments; a draw
    of floor(random * n) is modelled as (stream value) % n, a surjection onto
    the same range.
  - JS while loops and recursion become fuel-indexed recursion; the fuel
    bounds are large enough to cover every run the source can perform.
  - JS Number arithmetic on these small integers is exact, so Int/Nat model it
    directly.
-/

/-- Pointwise update of a two-argument function at a single coordinate. -/
def upd2 {α : Type} (f : Int → Int → α) (x y : Int) (v : α) : Int → Int → α :=
  fun a b => if a = x ∧ b = y then v else f a b

/-- In-bounds test shared by the square engine and both grid classes:
0 <= x < width and 0 <= y < height. -/
def inBoundsWH (w h : Nat) (x y : Int) : Bool :=
  decide (0 ≤ x) && decide (x < (w : Int)) && decide (0 ≤ y) && decide (y < (h : Int))

/-- All board cells in the iteration order of the JS double loops
(y outer, x inner). -/
def cellsRowMajor (w h : Nat) : List (Int × Int) :=
  (List.range h).flatMap (fun y => (List.range w).map (fun (x : Nat) => ((x : Int), (y : Int))))

/-- The 8 Moore-neighborhood offsets in the JS loop order
(dy outer from -1 to 1, dx inner from -1 to 1, skipping (0,0)). -/
def mooreOffsets : List (Int × Int) :=
  [(-1, -1), (0, -1), (1, -1), (-1, 0), (1, 0), (-1, 1), (0, 1), (1, 1)]

/-- Moore neighbors of a coordinate (not bounds-filtered; the callers guard). -/
def mooreNbrs (x y : Int) : List (Int × Int) :=
  mooreOffsets.map (fun d => (x + d.1, y + d.2))

/-- Model of drawing a random cell: x = floor(random*w), y = floor(random*h),
realised from a stream element by reduction mod the dimensions. -/
def drawCell (w h : Nat) (p : Nat × Nat) : Int × Int :=
  (((p.1 % w : Nat) : Int), ((p.2 % h : Nat) : Int))

namespace Sapper

/-- State of the square-grid SapperGame engine (sapper.js).
grid holds -1 for a mine and the adjacent-mine count otherwise. -/
structure Game where
  width : Nat
  height : Nat
  totalMines : Nat
  noGuess : Bool
  maxAttempts : Nat
  grid : Int → Int → Int
  revealed : Int → Int → Bool
  flagged : Int → Int → Bool
  mineLocations : List (Int × Int)
  gameOver : Bool
  won : Bool
  minesPlaced : Bool

/-- SapperGame constructor followed by initGrid: an all-zero, nothing
revealed, nothing flagged board with no mines placed. -/
def mkGame (width height totalMines : Nat) (noGuess : Bool) (maxAttempts : Nat) : Game :=
  { width := width, height := height, totalMines := totalMines, noGuess := noGuess
    maxAttempts := maxAttempts
    grid := fun _ _ => 0, revealed := fun _ _ => false, flagged := fun _ _ => false
    mineLocations := [], gameOver := false, won := false, minesPlaced := false }

/-- SapperGame.initGrid: reset every cell and all game flags. -/
def initGrid (s : Game) : Game :=
  { s with grid := fun _ _ => 0, revealed := fun _ _ => false, flagged := fun _ _ => false
           mineLocations := [], gameOver := false, won := false, minesPlaced := false }

/-- SapperGame private inBounds test. -/
def inB (s : Game) (x y : Int) : Bool :=
  inBoundsWH s.width s.height x y

/-- SapperGame countAdjacentMines: in-bounds Moore neighbors holding -1. -/
def countAdjacentMines (w h : Nat) (g : Int → Int → Int) (x y : Int) : Nat :=
  (mooreNbrs x y).countP (fun p => inBoundsWH w h p.1 p.2 && g p.1 p.2 == -1)

/-- SapperGame countAdjacentFlags: in-bounds Moore neighbors that are flagged. -/
def countAdjacentFlags (s : Game) (x y : Int) : Nat :=
  (mooreNbrs x y).countP (fun p => inB s p.1 p.2 && s.flagged p.1 p.2)

/-- SapperGame calculateNumbers: every in-bounds non-mine cell gets its
adjacent-mine count; mines and out-of-range entries are left as they are.
The in-place JS update is equivalent because the mine predicate (= -1) is
unaffected by writing non-negative counts. -/
def calcNumbers (w h : Nat) (g : Int → Int → Int) : Int → Int → Int :=
  fun x y =>
    if inBoundsWH w h x y then
      if g x y = -1 then g x y else (countAdjacentMines w h g x y : Int)
    else g x y

/-- Result record of revealCell and chordReveal. -/
structure RevealRes where
  hit : Bool
  revealed : List (Int × Int)
  won : Bool
  lost : Bool
  deriving Repr, DecidableEq

/-- The empty reveal result returned by every no-op branch. -/
def emptyRes : RevealRes := ⟨false, [], false, false⟩

/-- SapperGame revealCellRecursive. Returns the updated state, the list of
newly revealed cells in JS push order, and whether the top cell was a mine
(the JS flood fill discards the recursive hit flags; a zero cell has no mine
neighbors so they are always false there). Fuel bounds the recursion depth,
which the source bounds by the number of unrevealed cells. -/
def revealRec : Nat → Game → Int → Int → Game × List (Int × Int) × Bool
  | 0, s, _, _ => (s, [], false)
  | Nat.succ fuel, s, x, y =>
    if inB s x y = false then (s, [], false)
    else if s.revealed x y || s.flagged x y then (s, [], false)
    else
      let s1 : Game := { s with revealed := upd2 s.revealed x y true }
      if s.grid x y = -1 then (s1, [(x, y)], true)
      else if s.grid x y = 0 then
        let r := (mooreNbrs x y).foldl
          (fun (acc : Game × List (Int × Int)) p =>
            let q := revealRec fuel acc.1 p.1 p.2
            (q.1, acc.2 ++ q.2.1))
          (s1, [(x, y)])
        (r.1, r.2, false)
      else (s1, [(x, y)], false)

/-- Fuel that covers the deepest possible reveal cascade (one new cell is
revealed at each recursion level). -/
def revealFuel (s : Game) : Nat := s.width * s.height + 1

/-- SapperGame checkWin: every cell is revealed or a mine. -/
def checkWin (s : Game) : Bool :=
  (cellsRowMajor s.width s.height).all (fun p => s.revealed p.1 p.2 || s.grid p.1 p.2 == -1)

/-- SapperGame.revealCell. -/
def revealCell (s : Game) (x y : Int) : Game × RevealRes :=
  if s.gameOver then (s, emptyRes)
  else
    let r := revealRec (revealFuel s) s x y
    if r.2.2 then
      ({ r.1 with gameOver := true, won := false }, ⟨true, r.2.1, false, true⟩)
    else
      let w := checkWin r.1
      if w then ({ r.1 with gameOver := true, won := true }, ⟨false, r.2.1, true, false⟩)
      else (r.1, ⟨false, r.2.1, false, false⟩)

/-- Result record of toggleFlag. -/
structure FlagRes where
  flagged : Bool
  flagCount : Nat
  deriving Repr, DecidableEq

/-- SapperGame.getFlagCount. -/
def getFlagCount (s : Game) : Nat :=
  (cellsRowMajor s.width s.height).countP (fun p => s.flagged p.1 p.2)

/-- SapperGame.toggleFlag. -/
def toggleFlag (s : Game) (x y : Int) : Game × FlagRes :=
  if s.gameOver then (s, ⟨false, getFlagCount s⟩)
  else if inB s x y = false then (s, ⟨false, getFlagCount s⟩)
  else if s.revealed x y then (s, ⟨false, getFlagCount s⟩)
  else
    let nf := !(s.flagged x y)
    let s1 : Game := { s with flagged := upd2 s.flagged x y nf }
    (s1, ⟨nf, getFlagCount s1⟩)

/-- SapperGame.chordReveal: reveal every in-bounds unflagged Moore neighbor
through revealCell once the flag count matches the cell number. -/
def chordReveal (s : Game) (x y : Int) : Game × RevealRes :=
  if s.gameOver then (s, emptyRes)
  else if inB s x y = false then (s, emptyRes)
  else if !(s.revealed x y) || s.grid x y ≤ 0 then (s, emptyRes)
  else if ¬((countAdjacentFlags s x y : Int) = s.grid x y) then (s, emptyRes)
  else
    let r := (mooreNbrs x y).foldl
      (fun (acc : Game × List (Int × Int) × Bool) p =>
        if inB acc.1 p.1 p.2 = false then acc
        else if acc.1.flagged p.1 p.2 then acc
        else
          let q := revealCell acc.1 p.1 p.2
          (q.1, acc.2.1 ++ q.2.revealed, acc.2.2 || q.2.hit))
      (s, [], false)
    (r.1, ⟨r.2.2, r.2.1, r.1.won, r.2.2⟩)

/-- SapperGame getCell: null when out of bounds. -/
def getCell (s : Game) (x y : Int) : Option Int :=
  if inB s x y then some (s.grid x y) else none

/-- SapperGame isRevealed: false when out of bounds. -/
def isRevealed (s : Game) (x y : Int) : Bool :=
  if inB s x y then s.revealed x y else false

/-- SapperGame isFlagged: false when out of bounds. -/
def isFlagged (s : Game) (x y : Int) : Bool :=
  if inB s x y then s.flagged x y else false

/-- SapperGame isMine: false when out of bounds. -/
def isMine (s : Game) (x y : Int) : Bool :=
  if inB s x y then s.grid x y == -1 else false

/-- Exclusion-zone test of the random placement loops: Chebyshev distance
at most 1 from the first click (the clicked cell and its Moore zone). -/
def inExclusionZone (ex ey x y : Int) : Bool :=
  decide ((x - ex).natAbs ≤ 1) && decide ((y - ey).natAbs ≤ 1)

/-- The rejection-sampling placement loop of placeMinesRandomly: consume
random proposals, skipping the exclusion zone and existing mines, until the
requested number of mines is placed or the proposal stream is exhausted
(the JS stream is unbounded, so it always reaches the requested number). -/
def placeLoop (ex ey : Int) :
    (Int → Int → Int) → List (Int × Int) → Nat → List (Int × Int) →
    (Int → Int → Int) × List (Int × Int)
  | g, ml, _, [] => (g, ml)
  | g, ml, need, p :: rest =>
    if need = 0 then (g, ml)
    else if inExclusionZone ex ey p.1 p.2 then placeLoop ex ey g ml need rest
    else if g p.1 p.2 = -1 then placeLoop ex ey g ml need rest
    else placeLoop ex ey (upd2 g p.1 p.2 (-1)) (ml ++ [p]) (need - 1) rest

/-- The mine cap of the square engine: min(totalMines, width*height - 9).
The JS value may be negative, in which case the loop places no mines; Nat
truncated subtraction yields the same zero count. -/
def mineCap (s : Game) : Nat := min s.totalMines (s.width * s.height - 9)

/-- SapperGame placeMinesRandomly. -/
def placeMinesRandomly (s : Game) (rng : List (Nat × Nat)) (ex ey : Int) : Game :=
  let r := placeLoop ex ey s.grid s.mineLocations (mineCap s)
    (rng.map (drawCell s.width s.height))
  { s with grid := calcNumbers s.width s.height r.1, mineLocations := r.2 }

/-- Solver simulation state of simulateSolve: which cells the simulated
player has revealed, and which it knows to be mines. -/
structure SimSt where
  rev : Int → Int → Bool
  km : Int → Int → Bool

/-- The simReveal closure of simulateSolve: flood-fill reveal that skips
known mines and silently refuses to reveal actual mines. -/
def simReveal (w h : Nat) (g : Int → Int → Int) : Nat → SimSt → Int → Int → SimSt
  | 0, st, _, _ => st
  | Nat.succ fuel, st, x, y =>
    if inBoundsWH w h x y = false then st
    else if st.rev x y || st.km x y then st
    else if g x y = -1 then st
    else
      let st1 : SimSt := { st with rev := upd2 st.rev x y true }
      if g x y = 0 then
        (mooreNbrs x y).foldl (fun acc p => simReveal w h g fuel acc p.1 p.2) st1
      else st1

/-- Neighbor statistics of one revealed numbered cell: its hidden
(unrevealed, not known-mine) in-bounds neighbors in scan order, and its
known-mine neighbor count. -/
def neighborStats (w h : Nat) (st : SimSt) (x y : Int) : List (Int × Int) × Nat :=
  (mooreNbrs x y).foldl
    (fun (acc : List (Int × Int) × Nat) p =>
      if inBoundsWH w h p.1 p.2 = false then acc
      else if st.km p.1 p.2 then (acc.1, acc.2 + 1)
      else if st.rev p.1 p.2 then acc
      else (acc.1 ++ [p], acc.2))
    ([], 0)

/-- Rule A of the solver: mark every hidden neighbor as a known mine,
reporting progress for each newly marked cell. -/
def ruleA (st : SimSt) (prog : Bool) (hidden : List (Int × Int)) : SimSt × Bool :=
  hidden.foldl
    (fun (acc : SimSt × Bool) c =>
      if acc.1.km c.1 c.2 then acc
      else ({ acc.1 with km := upd2 acc.1.km c.1 c.2 true }, true))
    (st, prog)

/-- Rule B of the solver: reveal every hidden neighbor (cascading through
simReveal), reporting progress. -/
def ruleB (w h : Nat) (g : Int → Int → Int) (fuel : Nat)
    (st : SimSt) (prog : Bool) (hidden : List (Int × Int)) : SimSt × Bool :=
  hidden.foldl (fun (acc : SimSt × Bool) c => (simReveal w h g fuel acc.1 c.1 c.2, true))
    (st, prog)

/-- One cell of the constraint-propagation pass of simulateSolve. -/
def cellPass (w h : Nat) (g : Int → Int → Int) (fuel : Nat)
    (acc : SimSt × Bool) (p : Int × Int) : SimSt × Bool :=
  let st := acc.1
  if st.rev p.1 p.2 = false then acc
  else if g p.1 p.2 ≤ 0 then acc
  else
    let stats := neighborStats w h st p.1 p.2
    let number := g p.1 p.2
    let r1 :=
      if 0 < stats.1.length ∧ (stats.1.length : Int) = number - (stats.2 : Int) then
        ruleA st acc.2 stats.1
      else acc
    if (stats.2 : Int) = number ∧ 0 < stats.1.length then
      ruleB w h g fuel r1.1 r1.2 stats.1
    else r1

/-- One full board pass of the constraint-propagation loop. -/
def solvePass (w h : Nat) (g : Int → Int → Int) (fuel : Nat) (st : SimSt) : SimSt × Bool :=
  (cellsRowMajor w h).foldl (cellPass w h g fuel) (st, false)

/-- The while(progress) loop of simulateSolve, with fuel for the bounded
number of progress-making passes; none signals fuel exhaustion, which the
source never reaches. -/
def solveLoop (w h : Nat) (g : Int → Int → Int) (fuel : Nat) : Nat → SimSt → Option SimSt
  | 0, _ => none
  | Nat.succ n, st =>
    let r := solvePass w h g fuel st
    if r.2 then solveLoop w h g fuel n r.1 else some r.1

/-- The initial solver state: nothing revealed, no known mines, then the
first-click flood fill. -/
def simStart (w h : Nat) (g : Int → Int → Int) (sx sy : Int) : SimSt :=
  simReveal w h g (w * h + 1) ⟨fun _ _ => false, fun _ _ => false⟩ sx sy

/-- SapperGame simulateSolve: flood-fill the first click, propagate Rules A
and B to a fixed point, and demand every non-mine cell revealed. -/
def simulateSolve (w h : Nat) (g : Int → Int → Int) (sx sy : Int) : Bool :=
  let fuel := w * h + 1
  match solveLoop w h g fuel (2 * w * h + 2) (simStart w h g sx sy) with
  | none => false
  | some stf => (cellsRowMajor w h).all (fun p => g p.1 p.2 == -1 || stf.rev p.1 p.2)

/-- One rejection-sampling attempt of generateSolvableBoard: place mines
into a fresh trial grid and compute its numbers. -/
def buildTrial (w h maxMines : Nat) (ex ey : Int) (rng : List (Nat × Nat)) :
    (Int → Int → Int) × List (Int × Int) :=
  let r := placeLoop ex ey (fun _ _ => 0) [] maxMines (rng.map (drawCell w h))
  (calcNumbers w h r.1, r.2)

/-- The attempt loop of generateSolvableBoard, one random stream per
attempt. -/
def genLoop (w h maxMines : Nat) (ex ey : Int) :
    Nat → List (List (Nat × Nat)) → Option ((Int → Int → Int) × List (Int × Int))
  | 0, _ => none
  | Nat.succ n, rngs =>
    let t := buildTrial w h maxMines ex ey (rngs.headD [])
    if simulateSolve w h t.1 ex ey then some t
    else genLoop w h maxMines ex ey n rngs.tail

/-- SapperGame generateSolvableBoard: keep the first solvable trial grid,
else fall back to plain random placement and report failure. -/
def generateSolvableBoard (s : Game) (attemptRngs : List (List (Nat × Nat)))
    (fallbackRng : List (Nat × Nat)) (ex ey : Int) : Game × Bool :=
  match genLoop s.width s.height (mineCap s) ex ey s.maxAttempts attemptRngs with
  | some t => ({ s with grid := t.1, mineLocations := t.2 }, true)
  | none => (placeMinesRandomly s fallbackRng ex ey, false)

/-- Result record of handleFirstClick. -/
structure FirstClickRes where
  success : Bool
  revealed : List (Int × Int)
  deriving Repr, DecidableEq

/-- SapperGame.handleFirstClick. -/
def handleFirstClick (s : Game) (attemptRngs : List (List (Nat × Nat)))
    (fallbackRng : List (Nat × Nat)) (x y : Int) : Game × FirstClickRes :=
  if s.minesPlaced then (s, ⟨false, []⟩)
  else
    let pr :=
      if s.noGuess then generateSolvableBoard s attemptRngs fallbackRng x y
      else (placeMinesRandomly s fallbackRng x y, true)
    let s1 : Game := { pr.1 with minesPlaced := true }
    let rr := revealCell s1 x y
    (rr.1, ⟨pr.2, rr.2.revealed⟩)

end Sapper

namespace HexGrid

/-- HexGrid.isInBounds. -/
def isInBounds (w h : Nat) (x y : Int) : Bool := inBoundsWH w h x y

/-- The odd-row test of getNeighbors; JS remainder keeps the dividend sign,
which Int.tmod models. -/
def isOddRow (y : Int) : Bool := y.tmod 2 == 1

/-- Neighbor offsets for odd rows (pointy-top, odd rows shifted right). -/
def oddOffsets : List (Int × Int) := [(1, 0), (1, -1), (0, -1), (-1, 0), (0, 1), (1, 1)]

/-- Neighbor offsets for even rows. -/
def evenOffsets : List (Int × Int) := [(1, 0), (0, -1), (-1, -1), (-1, 0), (-1, 1), (0, 1)]

/-- HexGrid.getNeighbors: the six offset cells, filtered to the grid bounds. -/
def getNeighbors (w h : Nat) (x y : Int) : List (Int × Int) :=
  ((if isOddRow y then oddOffsets else evenOffsets).map (fun d => (x + d.1, y + d.2))).filter
    (fun p => isInBounds w h p.1 p.2)

end HexGrid

namespace TriangleGrid

/-- TriangleGrid.isInBounds. -/
def isInBounds (w h : Nat) (x y : Int) : Bool := inBoundsWH w h x y

/-- TriangleGrid.pointsUp: (x+y) mod 2 = 0 with JS remainder semantics. -/
def pointsUp (x y : Int) : Bool := (x + y).tmod 2 == 0

/-- TriangleGrid.getNeighbors: left, right, and the vertical neighbor on the
side the triangle points away from. -/
def getNeighbors (w h : Nat) (x y : Int) : List (Int × Int) :=
  (if isInBounds w h (x - 1) y then [(x - 1, y)] else []) ++
  (if isInBounds w h (x + 1) y then [(x + 1, y)] else []) ++
  (if pointsUp x y then
    (if isInBounds w h x (y + 1) then [(x, y + 1)] else [])
  else
    (if isInBounds w h x (y - 1) then [(x, y - 1)] else []))

/-- Candidate offsets of getExtendedNeighbors in source order. -/
def extendedCandidates : List (Int × Int) :=
  [(-2, 0), (-1, -1), (-1, 0), (-1, 1), (0, -1), (0, 1), (1, -1), (1, 0), (1, 1), (2, 0)]

/-- TriangleGrid.getExtendedNeighbors: corner-adjacent cells included,
filtered to bounds. -/
def getExtendedNeighbors (w h : Nat) (x y : Int) : List (Int × Int) :=
  (extendedCandidates.map (fun d => (x + d.1, y + d.2))).filter
    (fun p => isInBounds w h p.1 p.2)

end TriangleGrid

/-- A grid object as the shapes engine consumes it: dimensions plus the
neighbor enumeration selected by the useExtendedNeighbors dispatch. Both
grid classes implement isInBounds as the same rectangle test. -/
structure Topology where
  width : Nat
  height : Nat
  nbrs : Int → Int → List (Int × Int)

/-- The isInBounds test of the grid object held by the shapes engine. -/
def Topology.inB (t : Topology) (x y : Int) : Bool := inBoundsWH t.width t.height x y

/-- Hex topology of a given size. -/
def hexTopology (w h : Nat) : Topology := ⟨w, h, HexGrid.getNeighbors w h⟩

/-- Triangle topology (edge adjacency). -/
def triTopology (w h : Nat) : Topology := ⟨w, h, TriangleGrid.getNeighbors w h⟩

/-- Triangle topology with extended (12-neighbor) adjacency. -/
def triExtTopology (w h : Nat) : Topology := ⟨w, h, TriangleGrid.getExtendedNeighbors w h⟩

namespace Shapes

/-- One entry of the coordinate-to-cell map of SapperShapesGame. -/
structure Cell where
  mine : Bool
  revealed : Bool
  flagged : Bool
  count : Nat
  deriving Repr, DecidableEq

/-- The cell every coordinate starts from after initGrid. -/
def Cell.empty : Cell := ⟨false, false, false, 0⟩

/-- State of the shape-grid SapperShapesGame engine (sappershapes.js).
The JS Map from coordinate keys to cells is a function here; after initGrid
the key set is exactly the in-range coordinates and never changes, so map
lookup is the bounds test plus function application. -/
structure Game where
  topo : Topology
  totalMines : Nat
  noGuess : Bool
  maxAttempts : Nat
  cells : Int → Int → Cell
  mineLocations : List (Int × Int)
  gameOver : Bool
  won : Bool
  minesPlaced : Bool

/-- SapperShapesGame constructor followed by initGrid. -/
def mkGame (topo : Topology) (totalMines : Nat) (noGuess : Bool) (maxAttempts : Nat) : Game :=
  { topo := topo, totalMines := totalMines, noGuess := noGuess, maxAttempts := maxAttempts
    cells := fun _ _ => Cell.empty, mineLocations := []
    gameOver := false, won := false, minesPlaced := false }

/-- SapperShapesGame.initGrid. -/
def initGrid (s : Game) : Game :=
  { s with cells := fun _ _ => Cell.empty, mineLocations := []
           gameOver := false, won := false, minesPlaced := false }

/-- Lookup this.cells.get(key): some cell exactly for in-range coordinates. -/
def cellGet (t : Topology) (cells : Int → Int → Cell) (x y : Int) : Option Cell :=
  if t.inB x y then some (cells x y) else none

/-- SapperShapesGame.getCell. -/
def getCell (s : Game) (x y : Int) : Option Cell := cellGet s.topo s.cells x y

/-- SapperShapesGame.isRevealed. -/
def isRevealed (s : Game) (x y : Int) : Bool :=
  match getCell s x y with | some c => c.revealed | none => false

/-- SapperShapesGame.isFlagged. -/
def isFlagged (s : Game) (x y : Int) : Bool :=
  match getCell s x y with | some c => c.flagged | none => false

/-- SapperShapesGame.isMine. -/
def isMine (s : Game) (x y : Int) : Bool :=
  match getCell s x y with | some c => c.mine | none => false

/-- SapperShapesGame.getCount. -/
def getCount (s : Game) (x y : Int) : Nat :=
  match getCell s x y with | some c => c.count | none => 0

/-- The exclusion zone of mine placement: the clicked key plus its
neighbor keys. -/
def exclusionZone (t : Topology) (ex ey : Int) : List (Int × Int) :=
  (ex, ey) :: t.nbrs ex ey

/-- The eligible mine positions: all board cells outside the exclusion zone,
in row-major enumeration order. -/
def validPositions (t : Topology) (ex ey : Int) : List (Int × Int) :=
  (cellsRowMajor t.width t.height).filter (fun p => !(exclusionZone t ex ey).contains p)

/-- Swap two positions of a list (no-op when an index is out of range),
the body of the Fisher-Yates loop. -/
def listSwap {α : Type} (l : List α) (i j : Nat) : List α :=
  match l.get? i, l.get? j with
  | some a, some b => (l.set i b).set j a
  | _, _ => l

/-- The Fisher-Yates loop, iterating the swap index i from high to 1 and
drawing j = floor(random * (i+1)) from the stream. -/
def fyLoop {α : Type} : Nat → List Nat → List α → List α
  | 0, _, l => l
  | Nat.succ k, rng, l =>
    let j := rng.headD 0 % (k + 2)
    fyLoop k rng.tail (listSwap l (k + 1) j)

/-- The Fisher-Yates shuffle as both placement paths of the shapes engine
perform it. -/
def fisherYates {α : Type} (rng : List Nat) (l : List α) : List α :=
  fyLoop (l.length - 1) rng l

/-- Mark a list of positions as mines and append them to mineLocations. -/
def setMines (cells : Int → Int → Cell) (ml : List (Int × Int)) (ps : List (Int × Int)) :
    (Int → Int → Cell) × List (Int × Int) :=
  ps.foldl
    (fun (acc : (Int → Int → Cell) × List (Int × Int)) p =>
      (upd2 acc.1 p.1 p.2 { acc.1 p.1 p.2 with mine := true }, acc.2 ++ [p]))
    (cells, ml)

/-- SapperShapesGame calculateNumbers over a given cell store: every
in-range non-mine cell counts its mine neighbors through the grid's
neighbor function (missing neighbor keys count zero). -/
def calcCounts (t : Topology) (cells : Int → Int → Cell) : Int → Int → Cell :=
  fun x y =>
    if t.inB x y then
      let c := cells x y
      if c.mine then c
      else
        { c with count := (t.nbrs x y).countP (fun p =>
            match cellGet t cells p.1 p.2 with
            | some n => n.mine
            | none => false) }
    else cells x y

/-- SapperShapesGame placeMinesRandomly: shuffle the eligible positions and
mark the first min(totalMines, available) of them. -/
def placeMinesRandomly (s : Game) (rng : List Nat) (ex ey : Int) : Game :=
  let valid := validPositions s.topo ex ey
  let maxMines := min s.totalMines valid.length
  let shuffled := fisherYates rng valid
  let pm := setMines s.cells s.mineLocations (shuffled.take maxMines)
  { s with cells := calcCounts s.topo pm.1, mineLocations := pm.2 }

/-- SapperShapesGame revealCellRecursive (fuel-indexed as in the square
engine). -/
def revealRec : Nat → Game → Int → Int → Game × List (Int × Int) × Bool
  | 0, s, _, _ => (s, [], false)
  | Nat.succ fuel, s, x, y =>
    if s.topo.inB x y = false then (s, [], false)
    else
      let c := s.cells x y
      if c.revealed || c.flagged then (s, [], false)
      else
        let s1 : Game := { s with cells := upd2 s.cells x y { c with revealed := true } }
        if c.mine then (s1, [(x, y)], true)
        else if c.count = 0 then
          let r := (s.topo.nbrs x y).foldl
            (fun (acc : Game × List (Int × Int)) p =>
              let q := revealRec fuel acc.1 p.1 p.2
              (q.1, acc.2 ++ q.2.1))
            (s1, [(x, y)])
          (r.1, r.2, false)
        else (s1, [(x, y)], false)

/-- Fuel covering the deepest reveal cascade. -/
def revealFuel (s : Game) : Nat := s.topo.width * s.topo.height + 1

/-- SapperShapesGame checkWin: every cell is a mine or revealed. -/
def checkWin (s : Game) : Bool :=
  (cellsRowMajor s.topo.width s.topo.height).all
    (fun p => (s.cells p.1 p.2).mine || (s.cells p.1 p.2).revealed)

/-- Result record shared with the square engine. -/
abbrev RevealRes := Sapper.RevealRes

/-- The reveal-all-mines loop run on a loss: mark every recorded mine
location revealed. -/
def revealAllMines (cells : Int → Int → Cell) (ml : List (Int × Int)) : Int → Int → Cell :=
  ml.foldl (fun cs p => upd2 cs p.1 p.2 { cs p.1 p.2 with revealed := true }) cells

/-- SapperShapesGame.revealCell; on a mine hit every recorded mine location
is additionally marked revealed for end-of-game display. -/
def revealCell (s : Game) (x y : Int) : Game × RevealRes :=
  if s.gameOver then (s, Sapper.emptyRes)
  else
    let r := revealRec (revealFuel s) s x y
    if r.2.2 then
      let s2 : Game :=
        { r.1 with gameOver := true, won := false
                   cells := revealAllMines r.1.cells r.1.mineLocations }
      (s2, ⟨true, r.2.1, false, true⟩)
    else
      let w := checkWin r.1
      if w then ({ r.1 with gameOver := true, won := true }, ⟨false, r.2.1, true, false⟩)
      else (r.1, ⟨false, r.2.1, false, false⟩)

/-- SapperShapesGame.getFlagCount. -/
def getFlagCount (s : Game) : Nat :=
  (cellsRowMajor s.topo.width s.topo.height).countP (fun p => (s.cells p.1 p.2).flagged)

/-- SapperShapesGame.toggleFlag. -/
def toggleFlag (s : Game) (x y : Int) : Game × Sapper.FlagRes :=
  if s.gameOver then (s, ⟨false, getFlagCount s⟩)
  else if s.topo.inB x y = false then (s, ⟨false, getFlagCount s⟩)
  else
    let c := s.cells x y
    if c.revealed then (s, ⟨false, getFlagCount s⟩)
    else
      let s1 : Game := { s with cells := upd2 s.cells x y { c with flagged := !c.flagged } }
      (s1, ⟨!c.flagged, getFlagCount s1⟩)

/-- SapperShapesGame countAdjacentFlags (the inline loop of chordReveal). -/
def countAdjacentFlags (s : Game) (x y : Int) : Nat :=
  (s.topo.nbrs x y).countP (fun p =>
    match cellGet s.topo s.cells p.1 p.2 with
    | some n => n.flagged
    | none => false)

/-- SapperShapesGame.chordReveal. -/
def chordReveal (s : Game) (x y : Int) : Game × RevealRes :=
  if s.gameOver then (s, Sapper.emptyRes)
  else if s.topo.inB x y = false then (s, Sapper.emptyRes)
  else
    let c := s.cells x y
    if !c.revealed || c.count ≤ 0 then (s, Sapper.emptyRes)
    else if ¬(countAdjacentFlags s x y = c.count) then (s, Sapper.emptyRes)
    else
      let r := (s.topo.nbrs x y).foldl
        (fun (acc : Game × List (Int × Int) × Bool) p =>
          match cellGet acc.1.topo acc.1.cells p.1 p.2 with
          | none => acc
          | some n =>
            if n.flagged then acc
            else
              let q := revealCell acc.1 p.1 p.2
              (q.1, acc.2.1 ++ q.2.revealed, acc.2.2 || q.2.hit))
        (s, [], false)
      (r.1, ⟨r.2.2, r.2.1, r.1.won, r.2.2⟩)

end Shapes

namespace Shapes

/-- Solver simulation state of the shapes simulateSolve. -/
structure SimSt where
  rev : Int → Int → Bool
  km : Int → Int → Bool

/-- The simReveal closure of the shapes simulateSolve. -/
def simReveal (t : Topology) (g : Int → Int → Cell) : Nat → SimSt → Int → Int → SimSt
  | 0, st, _, _ => st
  | Nat.succ fuel, st, x, y =>
    if t.inB x y = false then st
    else if st.rev x y || st.km x y then st
    else if (g x y).mine then st
    else
      let st1 : SimSt := { st with rev := upd2 st.rev x y true }
      if (g x y).count = 0 then
        (t.nbrs x y).foldl (fun acc p => simReveal t g fuel acc p.1 p.2) st1
      else st1

/-- Neighbor statistics of the shapes constraint loop (the neighbor list is
already bounds-filtered by the grid object). -/
def neighborStats (t : Topology) (st : SimSt) (x y : Int) : List (Int × Int) × Nat :=
  (t.nbrs x y).foldl
    (fun (acc : List (Int × Int) × Nat) p =>
      if st.km p.1 p.2 then (acc.1, acc.2 + 1)
      else if st.rev p.1 p.2 then acc
      else (acc.1 ++ [p], acc.2))
    ([], 0)

/-- Rule A of the shapes solver. -/
def ruleA (st : SimSt) (prog : Bool) (hidden : List (Int × Int)) : SimSt × Bool :=
  hidden.foldl
    (fun (acc : SimSt × Bool) c =>
      if acc.1.km c.1 c.2 then acc
      else ({ acc.1 with km := upd2 acc.1.km c.1 c.2 true }, true))
    (st, prog)

/-- Rule B of the shapes solver. -/
def ruleB (t : Topology) (g : Int → Int → Cell) (fuel : Nat)
    (st : SimSt) (prog : Bool) (hidden : List (Int × Int)) : SimSt × Bool :=
  hidden.foldl (fun (acc : SimSt × Bool) c => (simReveal t g fuel acc.1 c.1 c.2, true))
    (st, prog)

/-- One cell of the shapes constraint-propagation pass. -/
def cellPass (t : Topology) (g : Int → Int → Cell) (fuel : Nat)
    (acc : SimSt × Bool) (p : Int × Int) : SimSt × Bool :=
  let st := acc.1
  if st.rev p.1 p.2 = false then acc
  else if (g p.1 p.2).count = 0 then acc
  else
    let stats := neighborStats t st p.1 p.2
    let number := (g p.1 p.2).count
    let r1 :=
      if 0 < stats.1.length ∧ (stats.1.length : Int) = (number : Int) - (stats.2 : Int) then
        ruleA st acc.2 stats.1
      else acc
    if stats.2 = number ∧ 0 < stats.1.length then
      ruleB t g fuel r1.1 r1.2 stats.1
    else r1

/-- One full board pass of the shapes constraint loop. -/
def solvePass (t : Topology) (g : Int → Int → Cell) (fuel : Nat) (st : SimSt) : SimSt × Bool :=
  (cellsRowMajor t.width t.height).foldl (cellPass t g fuel) (st, false)

/-- The while(progress) loop of the shapes simulateSolve. -/
def solveLoop (t : Topology) (g : Int → Int → Cell) (fuel : Nat) : Nat → SimSt → Option SimSt
  | 0, _ => none
  | Nat.succ n, st =>
    let r := solvePass t g fuel st
    if r.2 then solveLoop t g fuel n r.1 else some r.1

/-- Initial shapes solver state: first-click flood fill from scratch. -/
def simStart (t : Topology) (g : Int → Int → Cell) (sx sy : Int) : SimSt :=
  simReveal t g (t.width * t.height + 1) ⟨fun _ _ => false, fun _ _ => false⟩ sx sy

/-- SapperShapesGame simulateSolve. -/
def simulateSolve (t : Topology) (g : Int → Int → Cell) (sx sy : Int) : Bool :=
  let fuel := t.width * t.height + 1
  match solveLoop t g fuel (2 * t.width * t.height + 2) (simStart t g sx sy) with
  | none => false
  | some stf =>
    (cellsRowMajor t.width t.height).all
      (fun p => (g p.1 p.2).mine || stf.rev p.1 p.2)

/-- One attempt of the shapes generateSolvableBoard: shuffle a copy of the
eligible positions, mark mines into a fresh trial store, compute counts. -/
def buildTrial (t : Topology) (allPositions : List (Int × Int)) (maxMines : Nat)
    (rng : List Nat) : (Int → Int → Cell) × List (Int × Int) :=
  let shuffled := fisherYates rng allPositions
  let pm := setMines (fun _ _ => Cell.empty) [] (shuffled.take maxMines)
  (calcCounts t pm.1, pm.2)

/-- The attempt loop of the shapes generateSolvableBoard. -/
def genLoop (t : Topology) (allPositions : List (Int × Int)) (maxMines : Nat) (ex ey : Int) :
    Nat → List (List Nat) → Option ((Int → Int → Cell) × List (Int × Int))
  | 0, _ => none
  | Nat.succ n, rngs =>
    let trial := buildTrial t allPositions maxMines (rngs.headD [])
    if simulateSolve t trial.1 ex ey then some trial
    else genLoop t allPositions maxMines ex ey n rngs.tail

/-- SapperShapesGame generateSolvableBoard: on success copy the trial mine
and count fields onto the live cells; on exhaustion fall back to
placeMinesRandomly and report failure. -/
def generateSolvableBoard (s : Game) (attemptRngs : List (List Nat))
    (fallbackRng : List Nat) (ex ey : Int) : Game × Bool :=
  let allPositions := validPositions s.topo ex ey
  let maxMines := min s.totalMines allPositions.length
  match genLoop s.topo allPositions maxMines ex ey s.maxAttempts attemptRngs with
  | some trial =>
    let committed : Int → Int → Cell := fun x y =>
      if s.topo.inB x y then
        { s.cells x y with mine := (trial.1 x y).mine, count := (trial.1 x y).count }
      else s.cells x y
    ({ s with cells := committed, mineLocations := trial.2 }, true)
  | none => (placeMinesRandomly s fallbackRng ex ey, false)

/-- SapperShapesGame.handleFirstClick. -/
def handleFirstClick (s : Game) (attemptRngs : List (List Nat))
    (fallbackRng : List Nat) (x y : Int) : Game × Sapper.FirstClickRes :=
  if s.minesPlaced then (s, ⟨false, []⟩)
  else
    let pr :=
      if s.noGuess then generateSolvableBoard s attemptRngs fallbackRng x y
      else (placeMinesRandomly s fallbackRng x y, true)
    let s1 : Game := { pr.1 with minesPlaced := true }
    let rr := revealCell s1 x y
    (rr.1, ⟨pr.2, rr.2.revealed⟩)

end Shapes

namespace Sudoku

/-- A 9x9 Sudoku board: row, column to value, 0 meaning empty. -/
abbrev Board := Nat → Nat → Nat

/-- Update one board cell. -/
def bupd (b : Board) (r c v : Nat) : Board :=
  fun i j => if i = r ∧ j = c then v else b i j

/-- The all-empty board. -/
def emptyBoard : Board := fun _ _ => 0

/-- The candidate digits 1..9 in source order. -/
def nums : List Nat := [1, 2, 3, 4, 5, 6, 7, 8, 9]

/-- All 81 cells in row-major order. -/
def rcAll : List (Nat × Nat) :=
  (List.range 9).flatMap (fun r => (List.range 9).map (fun c => (r, c)))

/-- isValidPlacement: num occurs nowhere else in the row, the column, or the
3x3 box of (row, col); the cell itself is excluded from the comparison. -/
def isValidPlacement (b : Board) (row col num : Nat) : Bool :=
  ((List.range 9).all fun c => c == col || !(b row c == num)) &&
  ((List.range 9).all fun r => r == row || !(b r col == num)) &&
  ((List.range 3).all fun dr => (List.range 3).all fun dc =>
    (row / 3 * 3 + dr == row && col / 3 * 3 + dc == col) ||
    !(b (row / 3 * 3 + dr) (col / 3 * 3 + dc) == num))

/-- getCandidates: the valid digits for an empty cell, empty list for a
filled cell. -/
def getCandidates (b : Board) (row col : Nat) : List Nat :=
  if b row col == 0 then nums.filter (fun n => isValidPlacement b row col n) else []

/-- isSolved: no empty cells. -/
def isSolved (b : Board) : Bool :=
  rcAll.all (fun p => !(b p.1 p.2 == 0))

/-- isValidSolution: completely filled and every cell passes
isValidPlacement against its own value. -/
def isValidSolution (b : Board) : Bool :=
  isSolved b && rcAll.all (fun p => isValidPlacement b p.1 p.2 (b p.1 p.2))

/-- The first empty cell in row-major scan order, as both backtracking
solvers locate it. -/
def findFirstEmpty (b : Board) : Option (Nat × Nat) :=
  rcAll.find? (fun p => b p.1 p.2 == 0)

/-- solveBacktrackingHelper: fill the first empty cell with each candidate
in turn and recurse; fuel bounds the recursion depth, which the source
bounds by the number of empty cells. -/
def helper : Nat → Board → Option Board
  | 0, _ => none
  | Nat.succ fuel, b =>
    match findFirstEmpty b with
    | none => some b
    | some (r, c) =>
      (getCandidates b r c).foldl
        (fun acc n =>
          match acc with
          | some s => some s
          | none => helper fuel (bupd b r c n))
        none

/-- solveBacktracking: solve a copy of the board; none when unsolvable. -/
def solveBacktracking (b : Board) : Option Board := helper 82 b

/-- The instrumented solver of countBacktracks: the flag is whether the
search succeeded, the counter increments at every undone placement. -/
def countHelper : Nat → Board → Nat → Bool × Nat
  | 0, _, cnt => (false, cnt)
  | Nat.succ fuel, b, cnt =>
    match findFirstEmpty b with
    | none => (true, cnt)
    | some (r, c) =>
      (getCandidates b r c).foldl
        (fun (acc : Bool × Nat) n =>
          if acc.1 then acc
          else
            let q := countHelper fuel (bupd b r c n) acc.2
            if q.1 then q else (false, q.2 + 1))
        (false, cnt)

/-- countBacktracks. -/
def countBacktracks (b : Board) : Nat := (countHelper 82 b 0).2

/-- One naked-singles pass over all cells, filling as it scans. -/
def nakedPass (b : Board) : Board × Bool :=
  rcAll.foldl
    (fun (acc : Board × Bool) p =>
      if acc.1 p.1 p.2 == 0 then
        match getCandidates acc.1 p.1 p.2 with
        | [n] => (bupd acc.1 p.1 p.2 n, true)
        | _ => acc
      else acc)
    (b, false)

/-- The while(changed) loop of solveNakedSingles; every continuing pass
fills at least one cell, so 82 passes cover every run. -/
def nakedLoop : Nat → Board → Board
  | 0, b => b
  | Nat.succ f, b =>
    let r := nakedPass b
    if r.2 then nakedLoop f r.1 else r.1

/-- solveNakedSingles. -/
def solveNakedSingles (b : Board) : Board := nakedLoop 82 b

/-- Hidden singles in rows: for each row and digit, if exactly one empty
cell of the row admits the digit, place it there. -/
def hiddenRowsPass (bc : Board × Bool) : Board × Bool :=
  (List.range 9).foldl
    (fun acc r =>
      nums.foldl
        (fun (acc2 : Board × Bool) n =>
          let positions := (List.range 9).filter
            (fun c => acc2.1 r c == 0 && (getCandidates acc2.1 r c).contains n)
          match positions with
          | [c] => (bupd acc2.1 r c n, true)
          | _ => acc2)
        acc)
    bc

/-- Hidden singles in columns. -/
def hiddenColsPass (bc : Board × Bool) : Board × Bool :=
  (List.range 9).foldl
    (fun acc c =>
      nums.foldl
        (fun (acc2 : Board × Bool) n =>
          let positions := (List.range 9).filter
            (fun r => acc2.1 r c == 0 && (getCandidates acc2.1 r c).contains n)
          match positions with
          | [r] => (bupd acc2.1 r c n, true)
          | _ => acc2)
        acc)
    bc

/-- Hidden singles in 3x3 boxes. -/
def hiddenBoxesPass (bc : Board × Bool) : Board × Bool :=
  (List.range 3).foldl
    (fun accR boxR =>
      (List.range 3).foldl
        (fun accC boxC =>
          nums.foldl
            (fun (acc2 : Board × Bool) n =>
              let positions :=
                ((List.range 3).flatMap (fun dr =>
                  (List.range 3).map (fun dc => (boxR * 3 + dr, boxC * 3 + dc)))).filter
                  (fun p => acc2.1 p.1 p.2 == 0 && (getCandidates acc2.1 p.1 p.2).contains n)
              match positions with
              | [p] => (bupd acc2.1 p.1 p.2 n, true)
              | _ => acc2)
            accC)
        accR)
    bc

/-- The while(changed) loop of solveHiddenSingles: naked singles first,
then (only when they stall) the three hidden-single unit scans. -/
def hiddenLoop : Nat → Board → Board
  | 0, b => b
  | Nat.succ f, b =>
    let r1 := nakedPass b
    if r1.2 then hiddenLoop f r1.1
    else
      let r2 := hiddenBoxesPass (hiddenColsPass (hiddenRowsPass (r1.1, false)))
      if r2.2 then hiddenLoop f r2.1 else r2.1

/-- solveHiddenSingles. -/
def solveHiddenSingles (b : Board) : Board := hiddenLoop 82 b

/-- getDifficultyLevel: escalation from naked singles to hidden singles to
backtrack-count buckets. -/
def getDifficultyLevel (puzzle : Board) : Nat :=
  if isSolved (solveNakedSingles puzzle) then 1
  else if isSolved (solveHiddenSingles puzzle) then 2
  else
    let bc := countBacktracks puzzle
    if bc < 10 then 3 else if bc < 50 then 4 else 5

/-- fillBoard: randomized backtracking fill. The shuffle oracle models the
random-comparator sort of the candidate digits (its output is always some
permutation of nums); the counter indexes successive shuffle calls so every
call may draw a different permutation. -/
def fillHelper (shuf : Nat → List Nat → List Nat) : Nat → Nat → Board → Option Board × Nat
  | 0, k, _ => (none, k)
  | Nat.succ fuel, k, b =>
    match findFirstEmpty b with
    | none => (some b, k)
    | some (r, c) =>
      (shuf k nums).foldl
        (fun (acc : Option Board × Nat) n =>
          match acc.1 with
          | some _ => acc
          | none =>
            if isValidPlacement b r c n then fillHelper shuf fuel acc.2 (bupd b r c n)
            else acc)
        (none, k + 1)

/-- fillBoard from a given board. -/
def fillBoard (shuf : Nat → List Nat → List Nat) (b : Board) : Option Board × Nat :=
  fillHelper shuf 82 0 b

/-- generateCompleteSudoku: fill the empty grid; the JS code ignores the
success flag, and on failure the backtracking has restored every cell to 0,
so the empty board is what it would return. -/
def generateCompleteSudoku (shuf : Nat → List Nat → List Nat) : Board :=
  match (fillBoard shuf emptyBoard).1 with
  | some b => b
  | none => emptyBoard

/-- TARGET_CLUES with the JS fallback of 30 for levels outside 1..5. -/
def targetClues (d : Nat) : Nat :=
  if d = 1 then 36 else if d = 2 then 30 else if d = 3 then 26
  else if d = 4 then 24 else if d = 5 then 22 else 30

/-- Cell-wise board comparison, as the matches check of generatePuzzle
performs it. -/
def gridEq (a b : Board) : Bool :=
  rcAll.all (fun p => a p.1 p.2 == b p.1 p.2)

/-- countClues. -/
def countClues (b : Board) : Nat :=
  rcAll.countP (fun p => !(b p.1 p.2 == 0))

/-- The carving loop of generatePuzzle: clear a cell, keep the clearing
only when one backtracking run reproduces the saved solution and the
classified difficulty stays within the target, else restore. -/
def carve (complete : Board) (target minClues : Nat) :
    List (Nat × Nat) → Nat → Board → Board
  | [], _, puzzle => puzzle
  | pos :: rest, clues, puzzle =>
    if clues ≤ minClues then puzzle
    else
      let cleared := bupd puzzle pos.1 pos.2 0
      match solveBacktracking cleared with
      | some solved =>
        if gridEq solved complete then
          if getDifficultyLevel cleared ≤ target then
            carve complete target minClues rest (clues - 1) cleared
          else carve complete target minClues rest clues puzzle
        else carve complete target minClues rest clues puzzle
      | none => carve complete target minClues rest clues puzzle

/-- generatePuzzle: generate a complete solution, then carve cells along
the randomly shuffled position list (passed in, as the source shuffles all
81 coordinates with a random-comparator sort). -/
def generatePuzzle (shuf : Nat → List Nat → List Nat)
    (positions : List (Nat × Nat)) (targetDifficulty : Nat) : Board × Board :=
  let complete := generateCompleteSudoku shuf
  let puzzle := carve complete targetDifficulty (targetClues targetDifficulty) positions 81 complete
  (puzzle, complete)

end Sudoku

/-- Fields of a square game that the reveal path never writes: everything
except the revealed grid and the gameOver and won flags. -/
structure SqFrame (s s' : Sapper.Game) : Prop where
  width : s'.width = s.width
  height : s'.height = s.height
  totalMines : s'.totalMines = s.totalMines
  noGuess : s'.noGuess = s.noGuess
  maxAttempts : s'.maxAttempts = s.maxAttempts
  grid : s'.grid = s.grid
  flagged : s'.flagged = s.flagged
  mineLocations : s'.mineLocations = s.mineLocations
  minesPlaced : s'.minesPlaced = s.minesPlaced

/-- Fields of a shapes game that the reveal path never writes: the topology,
the mine, flag and count parts of every cell, and the bookkeeping, leaving
only the revealed bits and the gameOver and won flags free. -/
structure ShFrame (s s' : Shapes.Game) : Prop where
  topo : s'.topo = s.topo
  totalMines : s'.totalMines = s.totalMines
  noGuess : s'.noGuess = s.noGuess
  maxAttempts : s'.maxAttempts = s.maxAttempts
  mineLocations : s'.mineLocations = s.mineLocations
  minesPlaced : s'.minesPlaced = s.minesPlaced
  mine : ∀ a b : Int, (s'.cells a b).mine = (s.cells a b).mine
  flagged : ∀ a b : Int, (s'.cells a b).flagged = (s.cells a b).flagged
  count : ∀ a b : Int, (s'.cells a b).count = (s.cells a b).count

/-- The neighbors a square chord actually acts on: the in-bounds, unflagged
Moore neighbors, in scan order. -/
def Sapper.chordTargets (s : Sapper.Game) (x y : Int) : List (Int × Int) :=
  (mooreNbrs x y).filter (fun p => Sapper.inB s p.1 p.2 && !(s.flagged p.1 p.2))

/-- Sequential revelation of a list of cells through the ordinary
revealCell path, accumulating the revealed cells and the hit flag. -/
def Sapper.chordFold (s : Sapper.Game) (l : List (Int × Int)) :
    Sapper.Game × List (Int × Int) × Bool :=
  l.foldl
    (fun (acc : Sapper.Game × List (Int × Int) × Bool) p =>
      let q := Sapper.revealCell acc.1 p.1 p.2
      (q.1, acc.2.1 ++ q.2.revealed, acc.2.2 || q.2.hit))
    (s, [], false)

/-- The neighbors a shapes chord actually acts on: the neighbors whose cell
exists (is in range) and is unflagged, in neighbor-list order. -/
def Shapes.chordTargets (s : Shapes.Game) (x y : Int) : List (Int × Int) :=
  (s.topo.nbrs x y).filter (fun p => s.topo.inB p.1 p.2 && !((s.cells p.1 p.2).flagged))

/-- Sequential revelation through the shapes revealCell path. -/
def Shapes.chordFold (s : Shapes.Game) (l : List (Int × Int)) :
    Shapes.Game × List (Int × Int) × Bool :=
  l.foldl
    (fun (acc : Shapes.Game × List (Int × Int) × Bool) p =>
      let q := Shapes.revealCell acc.1 p.1 p.2
      (q.1, acc.2.1 ++ q.2.revealed, acc.2.2 || q.2.hit))
    (s, [], false)

/-- The states of the square engine reachable from a fresh board by the
public operations initGrid, handleFirstClick, revealCell, toggleFlag and
chordReveal. -/
inductive Sapper.Reached : Sapper.Game → Prop where
  | start (w h m : Nat) (ng : Bool) (ma : Nat) : Sapper.Reached (Sapper.mkGame w h m ng ma)
  | init {s : Sapper.Game} : Sapper.Reached s → Sapper.Reached (Sapper.initGrid s)
  | first {s : Sapper.Game} (ar : List (List (Nat × Nat))) (fr : List (Nat × Nat)) (x y : Int) :
      Sapper.Reached s → Sapper.Reached (Sapper.handleFirstClick s ar fr x y).1
  | reveal {s : Sapper.Game} (x y : Int) :
      Sapper.Reached s → Sapper.Reached (Sapper.revealCell s x y).1
  | flag {s : Sapper.Game} (x y : Int) :
      Sapper.Reached s → Sapper.Reached (Sapper.toggleFlag s x y).1
  | chord {s : Sapper.Game} (x y : Int) :
      Sapper.Reached s → Sapper.Reached (Sapper.chordReveal s x y).1

/-- The states of the shapes engine reachable from a fresh board by the
public operations. -/
inductive Shapes.Reached : Shapes.Game → Prop where
  | start (t : Topology) (m : Nat) (ng : Bool) (ma : Nat) :
      Shapes.Reached (Shapes.mkGame t m ng ma)
  | init {s : Shapes.Game} : Shapes.Reached s → Shapes.Reached (Shapes.initGrid s)
  | first {s : Shapes.Game} (ar : List (List Nat)) (fr : List Nat) (x y : Int) :
      Shapes.Reached s → Shapes.Reached (Shapes.handleFirstClick s ar fr x y).1
  | reveal {s : Shapes.Game} (x y : Int) :
      Shapes.Reached s → Shapes.Reached (Shapes.revealCell s x y).1
  | flag {s : Shapes.Game} (x y : Int) :
      Shapes.Reached s → Shapes.Reached (Shapes.toggleFlag s x y).1
  | chord {s : Shapes.Game} (x y : Int) :
      Shapes.Reached s → Shapes.Reached (Shapes.chordReveal s x y).1

/-- The never-flagged-and-revealed invariant of the square engine. -/
def Sapper.FlagInv (s : Sapper.Game) : Prop :=
  ∀ a b : Int, ¬(s.flagged a b = true ∧ s.revealed a b = true)

/-- The never-flagged-and-revealed invariant of the shapes engine. -/
def Shapes.FlagInv (s : Shapes.Game) : Prop :=
  ∀ a b : Int, ¬((s.cells a b).flagged = true ∧ (s.cells a b).revealed = true)

/-- Fixture for the mine-hit claim: a 3 by 1 square board with mines at
(0,0) and (2,0) and the numbered cell (1,0) between them. -/
def sqTwoMineFixture : Sapper.Game :=
  { Sapper.mkGame 3 1 2 false 1 with
    grid := fun x _ => if x = 1 then 2 else -1
    mineLocations := [(0, 0), (2, 0)], minesPlaced := true }

/-- Fixture for the mine-hit claim: a 3 by 1 hex board with mines at (0,0)
and (2,0). -/
def shTwoMineFixture : Shapes.Game :=
  { Shapes.mkGame (hexTopology 3 1) 2 false 1 with
    cells := fun x _ =>
      if x = 1 then { Shapes.Cell.empty with count := 2 }
      else { Shapes.Cell.empty with mine := true }
    mineLocations := [(0, 0), (2, 0)], minesPlaced := true }

/-- Number of mines on the square board. -/
def Sapper.countMines (s : Sapper.Game) : Nat :=
  (cellsRowMajor s.width s.height).countP (fun p => s.grid p.1 p.2 == -1)

/-- Number of board cells outside the exclusion zone of a click: the
available positions in the claim's sense. -/
def Sapper.availableOutsideZone (s : Sapper.Game) (ex ey : Int) : Nat :=
  (cellsRowMajor s.width s.height).countP
    (fun p => !(Sapper.inExclusionZone ex ey p.1 p.2))

/-- A random stream proposing every board cell once, in row-major order:
the canonical sufficient stream for the rejection-sampling loop. -/
def Sapper.fullStream (w h : Nat) : List (Nat × Nat) :=
  (List.range h).flatMap (fun b => (List.range w).map (fun a => (a, b)))

/-- Number of mines on the shapes board. -/
def Shapes.countMines (s : Shapes.Game) : Nat :=
  (cellsRowMajor s.topo.width s.topo.height).countP (fun p => (s.cells p.1 p.2).mine)

/-- Fixture for the chord claim: 3 by 1 square board, mine at (0,0) which
is flagged, revealed numbered cell (1,0), hidden zero cell (2,0). -/
def sqChordFixture : Sapper.Game :=
  { Sapper.mkGame 3 1 1 false 1 with
    grid := fun x _ => if x = 0 then -1 else if x = 1 then 1 else 0
    revealed := fun x y => decide (x = 1 ∧ y = 0)
    flagged := fun x y => decide (x = 0 ∧ y = 0)
    mineLocations := [(0, 0)], minesPlaced := true }

/-- Fixture for the chord claim: the same position on a 3 by 1 hex board. -/
def shChordFixture : Shapes.Game :=
  { Shapes.mkGame (hexTopology 3 1) 1 false 1 with
    cells := fun x _ =>
      if x = 0 then { mine := true, revealed := false, flagged := true, count := 0 }
      else if x = 1 then { mine := false, revealed := true, flagged := false, count := 1 }
      else Shapes.Cell.empty
    mineLocations := [(0, 0)], minesPlaced := true }

/-- Fixture for the flag-invariant claim: play a 6 by 1 hex game whose two
mines fall on (2,0) and (3,0) (identity shuffle), flag the mine (2,0), then
lose by revealing the mine (3,0); the loss-time mass mine reveal marks the
flagged mine (2,0) revealed as well. -/
def shLossSeqFixture : Shapes.Game :=
  (Shapes.revealCell
    ((Shapes.toggleFlag
      ((Shapes.handleFirstClick (Shapes.mkGame (hexTopology 6 1) 2 false 1) [] [3, 2, 1] 0 0).1)
      2 0).1)
    3 0).1

/-- Fixture for the repeated-first-click claim: a square game whose mines
are already placed. -/
def sqPlacedFixture : Sapper.Game :=
  { Sapper.mkGame 2 2 1 false 1 with minesPlaced := true }

/-- Fixture for the repeated-first-click claim: a shapes game whose mines
are already placed. -/
def shPlacedFixture : Shapes.Game :=
  { Shapes.mkGame (hexTopology 2 2) 1 false 1 with minesPlaced := true }

/-- C10: calling handleFirstClick when minesPlaced is already true returns
success false with an empty reveal list and leaves the state unchanged, in
both the square-grid and the shape-grid engine; the result record is the
same shape as the fallback's success-false signal. -/
theorem firstClick_repeat_noop
    (s : Sapper.Game) (ar : List (List (Nat × Nat))) (fr : List (Nat × Nat)) (x y : Int)
    (hs : s.minesPlaced = true)
    (t : Shapes.Game) (ar2 : List (List Nat)) (fr2 : List Nat) (x2 y2 : Int)
    (ht : t.minesPlaced = true) :
    Sapper.handleFirstClick s ar fr x y = (s, ⟨false, []⟩) ∧
    Shapes.handleFirstClick t ar2 fr2 x2 y2 = (t, ⟨false, []⟩) := by
  constructor
  · simp [Sapper.handleFirstClick, hs]
  · simp [Shapes.handleFirstClick, ht]

/-- Witness for the repeated-first-click claim at a concrete board. -/
theorem firstClick_repeat_noop_witness :
    sqPlacedFixture.minesPlaced = true ∧ shPlacedFixture.minesPlaced = true ∧
    (Sapper.handleFirstClick sqPlacedFixture [] [] 0 0 = (sqPlacedFixture, ⟨false, []⟩) ∧
     Shapes.handleFirstClick shPlacedFixture [] [] 0 0 = (shPlacedFixture, ⟨false, []⟩)) :=
  ⟨rfl, rfl, firstClick_repeat_noop sqPlacedFixture [] [] 0 0 rfl shPlacedFixture [] [] 0 0 rfl⟩

/-- C8 counterexample: on a 2 by 2 hex grid the coordinate (-1, 0) is out
of bounds, yet getNeighbors returns a non-empty list (it contains the
in-bounds cells adjacent to that outside coordinate), refuting the claim
that neighbor queries on out-of-bounds coordinates return an empty
sequence. -/
theorem hex_oob_neighbors_nonempty :
    HexGrid.isInBounds 2 2 (-1) 0 = false ∧
    HexGrid.getNeighbors 2 2 (-1) 0 ≠ [] := by
  constructor
  · decide
  · decide

/-- C8 (amended): out-of-bounds queries never raise and return empty,
false or null-like results: isInBounds is false; every coordinate that
getNeighbors returns is in bounds (the list is bounds-filtered, though it
need not be empty for coordinates adjacent to the grid); and the square
engine's getCell, isRevealed, isFlagged and isMine return none or false. -/
theorem oob_queries_safe
    (w h : Nat) (x y : Int) (h1 : inBoundsWH w h x y = false)
    (s : Sapper.Game) (x2 y2 : Int) (h2 : Sapper.inB s x2 y2 = false) :
    HexGrid.isInBounds w h x y = false ∧
    (∀ p ∈ HexGrid.getNeighbors w h x y, HexGrid.isInBounds w h p.1 p.2 = true) ∧
    Sapper.getCell s x2 y2 = none ∧
    Sapper.isRevealed s x2 y2 = false ∧
    Sapper.isFlagged s x2 y2 = false ∧
    Sapper.isMine s x2 y2 = false := by
  refine ⟨h1, ?_, ?_, ?_, ?_, ?_⟩
  · intro p hp
    have := List.of_mem_filter hp
    simpa using this
  · simp [Sapper.getCell, h2]
  · simp [Sapper.isRevealed, h2]
  · simp [Sapper.isFlagged, h2]
  · simp [Sapper.isMine, h2]

/-- Witness for the out-of-bounds query claim at concrete coordinates. -/
theorem oob_queries_safe_witness :
    inBoundsWH 2 2 (-5) 7 = false ∧ Sapper.inB (Sapper.mkGame 2 2 1 false 1) (-5) 7 = false ∧
    (HexGrid.isInBounds 2 2 (-5) 7 = false ∧
     (∀ p ∈ HexGrid.getNeighbors 2 2 (-5) 7, HexGrid.isInBounds 2 2 p.1 p.2 = true) ∧
     Sapper.getCell (Sapper.mkGame 2 2 1 false 1) (-5) 7 = none ∧
     Sapper.isRevealed (Sapper.mkGame 2 2 1 false 1) (-5) 7 = false ∧
     Sapper.isFlagged (Sapper.mkGame 2 2 1 false 1) (-5) 7 = false ∧
     Sapper.isMine (Sapper.mkGame 2 2 1 false 1) (-5) 7 = false) :=
  ⟨by decide, by decide,
   oob_queries_safe 2 2 (-5) 7 (by decide) (Sapper.mkGame 2 2 1 false 1) (-5) 7 (by decide)⟩

theorem revealAllMines_pres (l : List (Int × Int)) :
    ∀ (cs : Int → Int → Shapes.Cell) (p : Int × Int),
      (cs p.1 p.2).revealed = true →
      ((Shapes.revealAllMines cs l) p.1 p.2).revealed = true := by
  induction l with
  | nil => intro cs p h; simpa [Shapes.revealAllMines] using h
  | cons q t ih =>
    intro cs p h
    have h2 : Shapes.revealAllMines cs (q :: t) =
        Shapes.revealAllMines (upd2 cs q.1 q.2 { cs q.1 q.2 with revealed := true }) t := rfl
    rw [h2]
    apply ih
    by_cases hc : p.1 = q.1 ∧ p.2 = q.2
    · simp [upd2, hc]
    · simpa [upd2, hc] using h

theorem revealAllMines_mem (l : List (Int × Int)) :
    ∀ (cs : Int → Int → Shapes.Cell) (p : Int × Int), p ∈ l →
      ((Shapes.revealAllMines cs l) p.1 p.2).revealed = true := by
  induction l with
  | nil => intro cs p h; cases h
  | cons q t ih =>
    intro cs p hp
    have h2 : Shapes.revealAllMines cs (q :: t) =
        Shapes.revealAllMines (upd2 cs q.1 q.2 { cs q.1 q.2 with revealed := true }) t := rfl
    rw [h2]
    rcases List.mem_cons.mp hp with h | h
    · apply revealAllMines_pres
      simp [upd2, h]
    · exact ih _ p h

theorem sapper_revealRec_mine (f : Nat) (s : Sapper.Game) (x y : Int)
    (hin : Sapper.inB s x y = true) (hr : s.revealed x y = false)
    (hf : s.flagged x y = false) (hm : s.grid x y = -1) :
    Sapper.revealRec (f + 1) s x y =
      ({ s with revealed := upd2 s.revealed x y true }, [(x, y)], true) := by
  simp [Sapper.revealRec, hin, hr, hf, hm]

theorem shapes_revealRec_mine (f : Nat) (s : Shapes.Game) (x y : Int)
    (hin : s.topo.inB x y = true) (hr : (s.cells x y).revealed = false)
    (hf : (s.cells x y).flagged = false) (hm : (s.cells x y).mine = true) :
    Shapes.revealRec (f + 1) s x y =
      ({ s with cells := upd2 s.cells x y { s.cells x y with revealed := true } },
       [(x, y)], true) := by
  simp [Shapes.revealRec, hin, hr, hf, hm]

/-- C4 counterexample: on a 3 by 1 square board with mines at (0,0) and
(2,0), revealing the live unflagged mine (0,0) loses the game, but the
other mine (2,0) is not revealed afterwards, refuting the claim that the
square-grid engine reveals every mine cell for end-of-game display. -/
theorem square_loss_leaves_mine_unrevealed :
    Sapper.inB sqTwoMineFixture 0 0 = true ∧
    sqTwoMineFixture.gameOver = false ∧
    sqTwoMineFixture.grid 0 0 = -1 ∧
    sqTwoMineFixture.revealed 0 0 = false ∧
    sqTwoMineFixture.flagged 0 0 = false ∧
    (Sapper.revealCell sqTwoMineFixture 0 0).2.lost = true ∧
    Sapper.isMine sqTwoMineFixture 2 0 = true ∧
    Sapper.isRevealed (Sapper.revealCell sqTwoMineFixture 0 0).1 2 0 = false := by
  decide

/-- C4 (amended): revealing a live, unflagged, unrevealed mine cell loses
the game in both engines (hit and lost are true, gameOver becomes true, won
false, and the reveal list is exactly the clicked cell); the shape-grid
engine additionally reveals every mine cell recorded in mineLocations for
end-of-game display, while the square-grid engine reveals no further cells
(its revealed set grows by the clicked cell only). -/
theorem mine_reveal_loses
    (s : Sapper.Game) (x y : Int)
    (hin : Sapper.inB s x y = true) (hgo : s.gameOver = false)
    (hm : s.grid x y = -1) (hr : s.revealed x y = false) (hf : s.flagged x y = false)
    (t : Shapes.Game) (x2 y2 : Int)
    (hin2 : t.topo.inB x2 y2 = true) (hgo2 : t.gameOver = false)
    (hm2 : (t.cells x2 y2).mine = true) (hr2 : (t.cells x2 y2).revealed = false)
    (hf2 : (t.cells x2 y2).flagged = false)
    (hml : ∀ p ∈ cellsRowMajor t.topo.width t.topo.height,
      (t.cells p.1 p.2).mine = true → p ∈ t.mineLocations) :
    ((Sapper.revealCell s x y).2 = ⟨true, [(x, y)], false, true⟩ ∧
     (Sapper.revealCell s x y).1.gameOver = true ∧
     (Sapper.revealCell s x y).1.won = false ∧
     (∀ a b : Int, (Sapper.revealCell s x y).1.revealed a b = true ↔
        ((a = x ∧ b = y) ∨ s.revealed a b = true))) ∧
    ((Shapes.revealCell t x2 y2).2 = ⟨true, [(x2, y2)], false, true⟩ ∧
     (Shapes.revealCell t x2 y2).1.gameOver = true ∧
     (Shapes.revealCell t x2 y2).1.won = false ∧
     (∀ p ∈ cellsRowMajor t.topo.width t.topo.height,
        (t.cells p.1 p.2).mine = true →
        ((Shapes.revealCell t x2 y2).1.cells p.1 p.2).revealed = true)) := by
  constructor
  · have hrec := sapper_revealRec_mine (s.width * s.height) s x y hin hr hf hm
    have hcell : Sapper.revealCell s x y =
        ({ { s with revealed := upd2 s.revealed x y true } with
            gameOver := true, won := false }, ⟨true, [(x, y)], false, true⟩) := by
      simp [Sapper.revealCell, hgo, Sapper.revealFuel, hrec]
    refine ⟨by rw [hcell], by rw [hcell], by rw [hcell], ?_⟩
    intro a b
    rw [hcell]
    by_cases hc : a = x ∧ b = y
    · simp [upd2, hc]
    · simp [upd2, hc]
  · have hrec := shapes_revealRec_mine (t.topo.width * t.topo.height) t x2 y2 hin2 hr2 hf2 hm2
    have hcell : Shapes.revealCell t x2 y2 =
        ({ { t with cells := upd2 t.cells x2 y2 { t.cells x2 y2 with revealed := true } } with
            gameOver := true, won := false
            cells := Shapes.revealAllMines
              (upd2 t.cells x2 y2 { t.cells x2 y2 with revealed := true }) t.mineLocations },
         ⟨true, [(x2, y2)], false, true⟩) := by
      simp [Shapes.revealCell, hgo2, Shapes.revealFuel, hrec]
    refine ⟨by rw [hcell], by rw [hcell], by rw [hcell], ?_⟩
    intro p hp hpm
    rw [hcell]
    exact revealAllMines_mem _ _ _ (hml p hp hpm)

/-- Witness for the mine-hit claim at the two concrete boards. -/
theorem mine_reveal_loses_witness :
    sqTwoMineFixture.grid 0 0 = -1 ∧ (shTwoMineFixture.cells 0 0).mine = true ∧
    ((Sapper.revealCell sqTwoMineFixture 0 0).2 = ⟨true, [(0, 0)], false, true⟩ ∧
     (Shapes.revealCell shTwoMineFixture 0 0).2 = ⟨true, [(0, 0)], false, true⟩) :=
  ⟨rfl, rfl,
   (mine_reveal_loses sqTwoMineFixture 0 0 (by decide) rfl (by decide) rfl rfl
      shTwoMineFixture 0 0 (by decide) rfl (by decide) (by decide) (by decide)
      (by decide)).imp (fun h => h.1) (fun h => h.1)⟩

theorem sqFrame_refl (s : Sapper.Game) : SqFrame s s :=
  ⟨rfl, rfl, rfl, rfl, rfl, rfl, rfl, rfl, rfl⟩

theorem sqFrame_trans {s t u : Sapper.Game} (h1 : SqFrame s t) (h2 : SqFrame t u) :
    SqFrame s u :=
  ⟨h2.width.trans h1.width, h2.height.trans h1.height, h2.totalMines.trans h1.totalMines,
   h2.noGuess.trans h1.noGuess, h2.maxAttempts.trans h1.maxAttempts,
   h2.grid.trans h1.grid, h2.flagged.trans h1.flagged,
   h2.mineLocations.trans h1.mineLocations, h2.minesPlaced.trans h1.minesPlaced⟩

theorem shFrame_refl (s : Shapes.Game) : ShFrame s s :=
  ⟨rfl, rfl, rfl, rfl, rfl, rfl, fun _ _ => rfl, fun _ _ => rfl, fun _ _ => rfl⟩

theorem shFrame_trans {s t u : Shapes.Game} (h1 : ShFrame s t) (h2 : ShFrame t u) :
    ShFrame s u :=
  ⟨h2.topo.trans h1.topo, h2.totalMines.trans h1.totalMines,
   h2.noGuess.trans h1.noGuess, h2.maxAttempts.trans h1.maxAttempts,
   h2.mineLocations.trans h1.mineLocations, h2.minesPlaced.trans h1.minesPlaced,
   fun a b => (h2.mine a b).trans (h1.mine a b),
   fun a b => (h2.flagged a b).trans (h1.flagged a b),
   fun a b => (h2.count a b).trans (h1.count a b)⟩

theorem sapper_revealRec_frame :
    ∀ (f : Nat) (s : Sapper.Game) (x y : Int), SqFrame s (Sapper.revealRec f s x y).1 := by
  intro f
  induction f with
  | zero => intro s x y; exact sqFrame_refl s
  | succ f ih =>
    intro s x y
    have hfold : ∀ (l : List (Int × Int)) (acc : Sapper.Game × List (Int × Int))
        (s0 : Sapper.Game), SqFrame s0 acc.1 →
        SqFrame s0 (l.foldl
          (fun (acc : Sapper.Game × List (Int × Int)) p =>
            let q := Sapper.revealRec f acc.1 p.1 p.2
            (q.1, acc.2 ++ q.2.1))
          acc).1 := by
      intro l
      induction l with
      | nil => intro acc s0 h; exact h
      | cons p t iht =>
        intro acc s0 h
        exact iht _ s0 (sqFrame_trans h (ih acc.1 p.1 p.2))
    have hupd : SqFrame s { s with revealed := upd2 s.revealed x y true } :=
      ⟨rfl, rfl, rfl, rfl, rfl, rfl, rfl, rfl, rfl⟩
    simp only [Sapper.revealRec]
    split
    · exact sqFrame_refl s
    · split
      · exact sqFrame_refl s
      · split
        · exact hupd
        · split
          · exact hfold _ _ s hupd
          · exact hupd

theorem sapper_revealCell_frame (s : Sapper.Game) (x y : Int) :
    SqFrame s (Sapper.revealCell s x y).1 := by
  have h := sapper_revealRec_frame (Sapper.revealFuel s) s x y
  by_cases hgo : s.gameOver = true
  · simp only [Sapper.revealCell, hgo, if_true]
    exact sqFrame_refl s
  · by_cases hhit : (Sapper.revealRec (Sapper.revealFuel s) s x y).2.2 = true
    · simp only [Sapper.revealCell, hgo, if_false, hhit, if_true]
      exact ⟨h.width, h.height, h.totalMines, h.noGuess, h.maxAttempts, h.grid,
        h.flagged, h.mineLocations, h.minesPlaced⟩
    · by_cases hwin : Sapper.checkWin (Sapper.revealRec (Sapper.revealFuel s) s x y).1 = true
      · simp only [Sapper.revealCell, hgo, if_false, hhit, hwin, if_true]
        exact ⟨h.width, h.height, h.totalMines, h.noGuess, h.maxAttempts, h.grid,
          h.flagged, h.mineLocations, h.minesPlaced⟩
      · simp only [Sapper.revealCell, hgo, if_false, hhit, hwin]
        exact h

theorem shapes_revealRec_frame :
    ∀ (f : Nat) (s : Shapes.Game) (x y : Int), ShFrame s (Shapes.revealRec f s x y).1 := by
  intro f
  induction f with
  | zero => intro s x y; exact shFrame_refl s
  | succ f ih =>
    intro s x y
    have hfold : ∀ (l : List (Int × Int)) (acc : Shapes.Game × List (Int × Int))
        (s0 : Shapes.Game), ShFrame s0 acc.1 →
        ShFrame s0 (l.foldl
          (fun (acc : Shapes.Game × List (Int × Int)) p =>
            let q := Shapes.revealRec f acc.1 p.1 p.2
            (q.1, acc.2 ++ q.2.1))
          acc).1 := by
      intro l
      induction l with
      | nil => intro acc s0 h; exact h
      | cons p t iht =>
        intro acc s0 h
        exact iht _ s0 (shFrame_trans h (ih acc.1 p.1 p.2))
    have hupd : ShFrame s { s with cells := upd2 s.cells x y { s.cells x y with revealed := true } } := by
      refine ⟨rfl, rfl, rfl, rfl, rfl, rfl, ?_, ?_, ?_⟩ <;>
        exact fun a b => by by_cases hc : a = x ∧ b = y <;> simp [upd2, hc]
    simp only [Shapes.revealRec]
    split
    · exact shFrame_refl s
    · split
      · exact shFrame_refl s
      · split
        · exact hupd
        · split
          · exact hfold _ _ s hupd
          · exact hupd

theorem shapes_revealAllMines_frame (l : List (Int × Int)) :
    ∀ cs : Int → Int → Shapes.Cell,
      (∀ a b : Int, ((Shapes.revealAllMines cs l) a b).mine = (cs a b).mine) ∧
      (∀ a b : Int, ((Shapes.revealAllMines cs l) a b).flagged = (cs a b).flagged) ∧
      (∀ a b : Int, ((Shapes.revealAllMines cs l) a b).count = (cs a b).count) := by
  induction l with
  | nil => intro cs; exact ⟨fun _ _ => rfl, fun _ _ => rfl, fun _ _ => rfl⟩
  | cons q t ih =>
    intro cs
    have h2 : Shapes.revealAllMines cs (q :: t) =
        Shapes.revealAllMines (upd2 cs q.1 q.2 { cs q.1 q.2 with revealed := true }) t := rfl
    rw [h2]
    obtain ⟨hm, hf, hc⟩ := ih (upd2 cs q.1 q.2 { cs q.1 q.2 with revealed := true })
    refine ⟨fun a b => (hm a b).trans ?_, fun a b => (hf a b).trans ?_,
      fun a b => (hc a b).trans ?_⟩ <;>
      (by_cases hab : a = q.1 ∧ b = q.2) <;> simp [upd2, hab]

theorem shapes_revealCell_frame (s : Shapes.Game) (x y : Int) :
    ShFrame s (Shapes.revealCell s x y).1 := by
  have h := shapes_revealRec_frame (Shapes.revealFuel s) s x y
  by_cases hgo : s.gameOver = true
  · simp only [Shapes.revealCell, hgo, if_true]
    exact shFrame_refl s
  · by_cases hhit : (Shapes.revealRec (Shapes.revealFuel s) s x y).2.2 = true
    · simp only [Shapes.revealCell, hgo, if_false, hhit, if_true]
      obtain ⟨hm, hf, hc⟩ :=
        shapes_revealAllMines_frame (Shapes.revealRec (Shapes.revealFuel s) s x y).1.mineLocations
          (Shapes.revealRec (Shapes.revealFuel s) s x y).1.cells
      exact ⟨h.topo, h.totalMines, h.noGuess, h.maxAttempts, h.mineLocations, h.minesPlaced,
        fun a b => (hm a b).trans (h.mine a b),
        fun a b => (hf a b).trans (h.flagged a b),
        fun a b => (hc a b).trans (h.count a b)⟩
    · by_cases hwin : Shapes.checkWin (Shapes.revealRec (Shapes.revealFuel s) s x y).1 = true
      · simp only [Shapes.revealCell, hgo, if_false, hhit, hwin, if_true]
        exact ⟨h.topo, h.totalMines, h.noGuess, h.maxAttempts, h.mineLocations, h.minesPlaced,
          h.mine, h.flagged, h.count⟩
      · simp only [Shapes.revealCell, hgo, if_false, hhit, hwin]
        exact h

theorem sapper_chord_fold_eq (W H : Nat) (F : Int → Int → Bool) :
    ∀ (l : List (Int × Int)) (acc : Sapper.Game × List (Int × Int) × Bool),
      acc.1.width = W → acc.1.height = H → acc.1.flagged = F →
      l.foldl
        (fun (acc : Sapper.Game × List (Int × Int) × Bool) p =>
          if Sapper.inB acc.1 p.1 p.2 = false then acc
          else if acc.1.flagged p.1 p.2 then acc
          else
            let q := Sapper.revealCell acc.1 p.1 p.2
            (q.1, acc.2.1 ++ q.2.revealed, acc.2.2 || q.2.hit))
        acc =
      (l.filter (fun p => inBoundsWH W H p.1 p.2 && !(F p.1 p.2))).foldl
        (fun (acc : Sapper.Game × List (Int × Int) × Bool) p =>
          let q := Sapper.revealCell acc.1 p.1 p.2
          (q.1, acc.2.1 ++ q.2.revealed, acc.2.2 || q.2.hit))
        acc := by
  intro l
  induction l with
  | nil => intro acc _ _ _; rfl
  | cons p t ih =>
    intro acc hW hH hF
    have hib : Sapper.inB acc.1 p.1 p.2 = inBoundsWH W H p.1 p.2 := by
      unfold Sapper.inB; rw [hW, hH]
    rw [List.foldl_cons, List.filter_cons]
    by_cases hin : inBoundsWH W H p.1 p.2 = false
    · rw [hin] at hib
      simp only [hib, if_true, hin, Bool.false_and, if_false]
      exact ih acc hW hH hF
    · have hintrue : inBoundsWH W H p.1 p.2 = true := by
        cases h : inBoundsWH W H p.1 p.2 with
        | false => exact absurd h hin
        | true => rfl
      rw [hintrue] at hib
      by_cases hfl : acc.1.flagged p.1 p.2 = true
      · have hFp : F p.1 p.2 = true := by rw [← hF]; exact hfl
        simp only [hib, Bool.true_eq_false, if_false, hfl, if_true, hintrue, hFp,
          Bool.not_true, Bool.and_false, if_false]
        exact ih acc hW hH hF
      · have hflf : acc.1.flagged p.1 p.2 = false := by
          cases h : acc.1.flagged p.1 p.2 with
          | false => rfl
          | true => exact absurd h hfl
        have hFp : F p.1 p.2 = false := by rw [← hF]; exact hflf
        simp only [hib, Bool.true_eq_false, if_false, hflf, hintrue, hFp,
          Bool.not_false, Bool.and_true, if_true, List.foldl_cons]
        have hfr := sapper_revealCell_frame acc.1 p.1 p.2
        exact ih _ (hfr.width.trans hW) (hfr.height.trans hH) (hfr.flagged.trans hF)

theorem shapes_chord_fold_eq (T : Topology) (F : Int → Int → Bool) :
    ∀ (l : List (Int × Int)) (acc : Shapes.Game × List (Int × Int) × Bool),
      acc.1.topo = T → (∀ a b : Int, (acc.1.cells a b).flagged = F a b) →
      l.foldl
        (fun (acc : Shapes.Game × List (Int × Int) × Bool) p =>
          match Shapes.cellGet acc.1.topo acc.1.cells p.1 p.2 with
          | none => acc
          | some n =>
            if n.flagged then acc
            else
              let q := Shapes.revealCell acc.1 p.1 p.2
              (q.1, acc.2.1 ++ q.2.revealed, acc.2.2 || q.2.hit))
        acc =
      (l.filter (fun p => T.inB p.1 p.2 && !(F p.1 p.2))).foldl
        (fun (acc : Shapes.Game × List (Int × Int) × Bool) p =>
          let q := Shapes.revealCell acc.1 p.1 p.2
          (q.1, acc.2.1 ++ q.2.revealed, acc.2.2 || q.2.hit))
        acc := by
  intro l
  induction l with
  | nil => intro acc _ _; rfl
  | cons p t ih =>
    intro acc hT hF
    rw [List.foldl_cons, List.filter_cons]
    by_cases hin : T.inB p.1 p.2 = true
    · have hget : Shapes.cellGet acc.1.topo acc.1.cells p.1 p.2 =
          some (acc.1.cells p.1 p.2) := by
        unfold Shapes.cellGet; rw [hT, hin]; simp
      by_cases hfl : (acc.1.cells p.1 p.2).flagged = true
      · have hFp : F p.1 p.2 = true := by rw [← hF]; exact hfl
        simp only [hget, hfl, if_true, hin, hFp, Bool.not_true, Bool.and_false, if_false]
        exact ih acc hT hF
      · have hflf : (acc.1.cells p.1 p.2).flagged = false := by
          cases h : (acc.1.cells p.1 p.2).flagged with
          | false => rfl
          | true => exact absurd h hfl
        have hFp : F p.1 p.2 = false := by rw [← hF]; exact hflf
        simp only [hget, hflf, Bool.false_eq_true, if_false, hin, hFp,
          Bool.not_false, Bool.and_true, if_true, List.foldl_cons]
        have hfr := shapes_revealCell_frame acc.1 p.1 p.2
        exact ih _ (hfr.topo.trans hT) (fun a b => (hfr.flagged a b).trans (hF a b))
    · have hinf : T.inB p.1 p.2 = false := by
        cases h : T.inB p.1 p.2 with
        | false => rfl
        | true => exact absurd h hin
      have hget : Shapes.cellGet acc.1.topo acc.1.cells p.1 p.2 = none := by
        unfold Shapes.cellGet; rw [hT, hinf]; simp
      simp only [hget, hinf, Bool.false_and, if_false]
      exact ih acc hT hF

/-- C6: chordReveal is a strict no-op (unchanged state, empty result)
unless the chorded cell is revealed with a strictly positive count whose
flagged-neighbor count matches it exactly; when the counts match on a live
in-bounds cell, it reveals exactly the unflagged (in-bounds) neighbors,
each through the ordinary revealCell path in scan order, so flood fill and
mine-hit detection apply, in both the square-grid and the shape-grid
engine. -/
theorem chord_reveal_exact (s : Sapper.Game) (x y : Int) (t : Shapes.Game) (x2 y2 : Int) :
    (¬(s.revealed x y = true ∧ 0 < s.grid x y ∧
        (Sapper.countAdjacentFlags s x y : Int) = s.grid x y) →
      Sapper.chordReveal s x y = (s, Sapper.emptyRes)) ∧
    (s.gameOver = false → Sapper.inB s x y = true → s.revealed x y = true →
      0 < s.grid x y → (Sapper.countAdjacentFlags s x y : Int) = s.grid x y →
      Sapper.chordReveal s x y =
        ((Sapper.chordFold s (Sapper.chordTargets s x y)).1,
         ⟨(Sapper.chordFold s (Sapper.chordTargets s x y)).2.2,
          (Sapper.chordFold s (Sapper.chordTargets s x y)).2.1,
          (Sapper.chordFold s (Sapper.chordTargets s x y)).1.won,
          (Sapper.chordFold s (Sapper.chordTargets s x y)).2.2⟩)) ∧
    (¬((t.cells x2 y2).revealed = true ∧ 0 < (t.cells x2 y2).count ∧
        Shapes.countAdjacentFlags t x2 y2 = (t.cells x2 y2).count) →
      Shapes.chordReveal t x2 y2 = (t, Sapper.emptyRes)) ∧
    (t.gameOver = false → t.topo.inB x2 y2 = true → (t.cells x2 y2).revealed = true →
      0 < (t.cells x2 y2).count →
      Shapes.countAdjacentFlags t x2 y2 = (t.cells x2 y2).count →
      Shapes.chordReveal t x2 y2 =
        ((Shapes.chordFold t (Shapes.chordTargets t x2 y2)).1,
         ⟨(Shapes.chordFold t (Shapes.chordTargets t x2 y2)).2.2,
          (Shapes.chordFold t (Shapes.chordTargets t x2 y2)).2.1,
          (Shapes.chordFold t (Shapes.chordTargets t x2 y2)).1.won,
          (Shapes.chordFold t (Shapes.chordTargets t x2 y2)).2.2⟩)) := by
  refine ⟨?_, ?_, ?_, ?_⟩
  · intro h
    by_cases hgo : s.gameOver = true
    · simp [Sapper.chordReveal, hgo]
    · by_cases hib : Sapper.inB s x y = false
      · simp [Sapper.chordReveal, hgo, hib]
      · by_cases hrev : s.revealed x y = true
        · by_cases hpos : s.grid x y ≤ 0
          · simp [Sapper.chordReveal, hgo, hib, hrev, hpos]
          · have hne : ¬((Sapper.countAdjacentFlags s x y : Int) = s.grid x y) := by
              intro heq
              exact h ⟨hrev, by omega, heq⟩
            simp [Sapper.chordReveal, hgo, hib, hrev, hpos, hne]
        · have hrf : s.revealed x y = false := by
            cases hv : s.revealed x y with
            | false => rfl
            | true => exact absurd hv hrev
          simp [Sapper.chordReveal, hgo, hib, hrf]
  · intro hgo hin hrev hpos heq
    have hnle : ¬(s.grid x y ≤ 0) := by omega
    have hib : ¬(Sapper.inB s x y = false) := by rw [hin]; simp
    have hexp : Sapper.chordReveal s x y =
        (let r := (mooreNbrs x y).foldl
          (fun (acc : Sapper.Game × List (Int × Int) × Bool) p =>
            if Sapper.inB acc.1 p.1 p.2 = false then acc
            else if acc.1.flagged p.1 p.2 then acc
            else
              let q := Sapper.revealCell acc.1 p.1 p.2
              (q.1, acc.2.1 ++ q.2.revealed, acc.2.2 || q.2.hit))
          (s, [], false)
        (r.1, ⟨r.2.2, r.2.1, r.1.won, r.2.2⟩)) := by
      simp [Sapper.chordReveal, hgo, hib, hrev, hnle, heq]
    rw [hexp]
    have hfold := sapper_chord_fold_eq s.width s.height s.flagged (mooreNbrs x y)
      (s, [], false) rfl rfl rfl
    exact congrArg (fun r : Sapper.Game × List (Int × Int) × Bool =>
      (r.1, (⟨r.2.2, r.2.1, r.1.won, r.2.2⟩ : Sapper.RevealRes))) hfold
  · intro h
    by_cases hgo : t.gameOver = true
    · simp [Shapes.chordReveal, hgo]
    · by_cases hib : t.topo.inB x2 y2 = false
      · simp [Shapes.chordReveal, hgo, hib]
      · by_cases hrev : (t.cells x2 y2).revealed = true
        · by_cases hpos : (t.cells x2 y2).count ≤ 0
          · simp [Shapes.chordReveal, hgo, hib, hrev, hpos]
          · have hne : ¬(Shapes.countAdjacentFlags t x2 y2 = (t.cells x2 y2).count) := by
              intro heq
              exact h ⟨hrev, by omega, heq⟩
            simp [Shapes.chordReveal, hgo, hib, hrev, hpos, hne]
        · have hrf : (t.cells x2 y2).revealed = false := by
            cases hv : (t.cells x2 y2).revealed with
            | false => rfl
            | true => exact absurd hv hrev
          simp [Shapes.chordReveal, hgo, hib, hrf]
  · intro hgo hin hrev hpos heq
    have hnle : ¬((t.cells x2 y2).count ≤ 0) := by omega
    have hib : ¬(t.topo.inB x2 y2 = false) := by rw [hin]; simp
    have hexp : Shapes.chordReveal t x2 y2 =
        (let r := (t.topo.nbrs x2 y2).foldl
          (fun (acc : Shapes.Game × List (Int × Int) × Bool) p =>
            match Shapes.cellGet acc.1.topo acc.1.cells p.1 p.2 with
            | none => acc
            | some n =>
              if n.flagged then acc
              else
                let q := Shapes.revealCell acc.1 p.1 p.2
                (q.1, acc.2.1 ++ q.2.revealed, acc.2.2 || q.2.hit))
          (t, [], false)
        (r.1, ⟨r.2.2, r.2.1, r.1.won, r.2.2⟩)) := by
      simp [Shapes.chordReveal, hgo, hib, hrev, hnle, heq]
    rw [hexp]
    have hfold := shapes_chord_fold_eq t.topo (fun a b => (t.cells a b).flagged)
      (t.topo.nbrs x2 y2) (t, [], false) rfl (fun _ _ => rfl)
    exact congrArg (fun r : Shapes.Game × List (Int × Int) × Bool =>
      (r.1, (⟨r.2.2, r.2.1, r.1.won, r.2.2⟩ : Sapper.RevealRes))) hfold

/-- Witness for the chord claim: the no-op direction at the hidden cell
(2,0) and the active direction at the satisfied numbered cell (1,0) of the
two concrete fixtures. -/
theorem chord_reveal_exact_witness :
    (¬(sqChordFixture.revealed 2 0 = true ∧ 0 < sqChordFixture.grid 2 0 ∧
        (Sapper.countAdjacentFlags sqChordFixture 2 0 : Int) = sqChordFixture.grid 2 0)) ∧
    sqChordFixture.gameOver = false ∧ Sapper.inB sqChordFixture 1 0 = true ∧
    sqChordFixture.revealed 1 0 = true ∧ 0 < sqChordFixture.grid 1 0 ∧
    (Sapper.countAdjacentFlags sqChordFixture 1 0 : Int) = sqChordFixture.grid 1 0 ∧
    shChordFixture.gameOver = false ∧ shChordFixture.topo.inB 1 0 = true ∧
    (shChordFixture.cells 1 0).revealed = true ∧ 0 < (shChordFixture.cells 1 0).count ∧
    Shapes.countAdjacentFlags shChordFixture 1 0 = (shChordFixture.cells 1 0).count ∧
    Sapper.chordReveal sqChordFixture 2 0 = (sqChordFixture, Sapper.emptyRes) ∧
    Sapper.chordReveal sqChordFixture 1 0 =
      ((Sapper.chordFold sqChordFixture (Sapper.chordTargets sqChordFixture 1 0)).1,
       ⟨(Sapper.chordFold sqChordFixture (Sapper.chordTargets sqChordFixture 1 0)).2.2,
        (Sapper.chordFold sqChordFixture (Sapper.chordTargets sqChordFixture 1 0)).2.1,
        (Sapper.chordFold sqChordFixture (Sapper.chordTargets sqChordFixture 1 0)).1.won,
        (Sapper.chordFold sqChordFixture (Sapper.chordTargets sqChordFixture 1 0)).2.2⟩) ∧
    Shapes.chordReveal shChordFixture 1 0 =
      ((Shapes.chordFold shChordFixture (Shapes.chordTargets shChordFixture 1 0)).1,
       ⟨(Shapes.chordFold shChordFixture (Shapes.chordTargets shChordFixture 1 0)).2.2,
        (Shapes.chordFold shChordFixture (Shapes.chordTargets shChordFixture 1 0)).2.1,
        (Shapes.chordFold shChordFixture (Shapes.chordTargets shChordFixture 1 0)).1.won,
        (Shapes.chordFold shChordFixture (Shapes.chordTargets shChordFixture 1 0)).2.2⟩) :=
  ⟨by decide, rfl, by decide, by decide, by decide, by decide, rfl, by decide, by decide,
   by decide, by decide,
   (chord_reveal_exact sqChordFixture 2 0 shChordFixture 1 0).1 (by decide),
   (chord_reveal_exact sqChordFixture 1 0 shChordFixture 1 0).2.1 rfl (by decide) (by decide)
     (by decide) (by decide),
   (chord_reveal_exact sqChordFixture 1 0 shChordFixture 1 0).2.2.2 rfl (by decide) (by decide)
     (by decide) (by decide)⟩

theorem sapper_revealRec_inv :
    ∀ (f : Nat) (s : Sapper.Game) (x y : Int),
      Sapper.FlagInv s → Sapper.FlagInv (Sapper.revealRec f s x y).1 := by
  intro f
  induction f with
  | zero => intro s x y h; exact h
  | succ f ih =>
    intro s x y hinv
    have hfold : ∀ (l : List (Int × Int)) (acc : Sapper.Game × List (Int × Int)),
        Sapper.FlagInv acc.1 →
        Sapper.FlagInv (l.foldl
          (fun (acc : Sapper.Game × List (Int × Int)) p =>
            let q := Sapper.revealRec f acc.1 p.1 p.2
            (q.1, acc.2 ++ q.2.1))
          acc).1 := by
      intro l
      induction l with
      | nil => intro acc h; exact h
      | cons p t iht => intro acc h; exact iht _ (ih acc.1 p.1 p.2 h)
    simp only [Sapper.revealRec]
    split
    · exact hinv
    · split
      · exact hinv
      · rename_i hskip
        have hfl : s.flagged x y = false := by
          cases hv : s.flagged x y with
          | false => rfl
          | true => exact absurd (by simp [hv]) hskip
        have hs1 : Sapper.FlagInv { s with revealed := upd2 s.revealed x y true } := by
          intro a b hand
          have hf3 : s.flagged a b = true := hand.1
          have hr3 : upd2 s.revealed x y true a b = true := hand.2
          by_cases hc : a = x ∧ b = y
          · rw [hc.1, hc.2, hfl] at hf3
            exact Bool.false_ne_true hf3
          · rw [show upd2 s.revealed x y true a b = s.revealed a b from by simp [upd2, hc]] at hr3
            exact hinv a b ⟨hf3, hr3⟩
        split
        · exact hs1
        · split
          · exact hfold _ _ hs1
          · exact hs1

theorem sapper_revealCell_inv (s : Sapper.Game) (x y : Int) (h : Sapper.FlagInv s) :
    Sapper.FlagInv (Sapper.revealCell s x y).1 := by
  have hr := sapper_revealRec_inv (Sapper.revealFuel s) s x y h
  by_cases hgo : s.gameOver = true
  · simp only [Sapper.revealCell, hgo, if_true]; exact h
  · by_cases hhit : (Sapper.revealRec (Sapper.revealFuel s) s x y).2.2 = true
    · simp only [Sapper.revealCell, hgo, if_false, hhit, if_true]; exact hr
    · by_cases hwin : Sapper.checkWin (Sapper.revealRec (Sapper.revealFuel s) s x y).1 = true
      · simp only [Sapper.revealCell, hgo, if_false, hhit, hwin, if_true]; exact hr
      · simp only [Sapper.revealCell, hgo, if_false, hhit, hwin]; exact hr

theorem sapper_toggleFlag_inv (s : Sapper.Game) (x y : Int) (h : Sapper.FlagInv s) :
    Sapper.FlagInv (Sapper.toggleFlag s x y).1 := by
  by_cases hgo : s.gameOver = true
  · simp only [Sapper.toggleFlag, hgo, if_true]; exact h
  · by_cases hib : Sapper.inB s x y = false
    · simp only [Sapper.toggleFlag, hgo, if_false, hib, if_true]; exact h
    · by_cases hrev : s.revealed x y = true
      · simp only [Sapper.toggleFlag, hgo, if_false, hib, hrev, if_true]; exact h
      · have hrf : s.revealed x y = false := by
          cases hv : s.revealed x y with
          | false => rfl
          | true => exact absurd hv hrev
        have hres : (Sapper.toggleFlag s x y).1 =
            { s with flagged := upd2 s.flagged x y (!(s.flagged x y)) } := by
          simp [Sapper.toggleFlag, hgo, hib, hrf]
        rw [hres]
        intro a b hand
        have hf3 : upd2 s.flagged x y (!(s.flagged x y)) a b = true := hand.1
        have hr3 : s.revealed a b = true := hand.2
        by_cases hc : a = x ∧ b = y
        · rw [hc.1, hc.2, hrf] at hr3
          exact Bool.false_ne_true hr3
        · rw [show upd2 s.flagged x y (!(s.flagged x y)) a b = s.flagged a b from
            by simp [upd2, hc]] at hf3
          exact h a b ⟨hf3, hr3⟩

theorem sapper_chordReveal_inv (s : Sapper.Game) (x y : Int) (h : Sapper.FlagInv s) :
    Sapper.FlagInv (Sapper.chordReveal s x y).1 := by
  have hfold : ∀ (l : List (Int × Int)) (acc : Sapper.Game × List (Int × Int) × Bool),
      Sapper.FlagInv acc.1 →
      Sapper.FlagInv (l.foldl
        (fun (acc : Sapper.Game × List (Int × Int) × Bool) p =>
          if Sapper.inB acc.1 p.1 p.2 = false then acc
          else if acc.1.flagged p.1 p.2 then acc
          else
            let q := Sapper.revealCell acc.1 p.1 p.2
            (q.1, acc.2.1 ++ q.2.revealed, acc.2.2 || q.2.hit))
        acc).1 := by
    intro l
    induction l with
    | nil => intro acc hacc; exact hacc
    | cons p t iht =>
      intro acc hacc
      rw [List.foldl_cons]
      by_cases h1 : Sapper.inB acc.1 p.1 p.2 = false
      · rw [if_pos h1]; exact iht acc hacc
      · rw [if_neg h1]
        by_cases h2 : acc.1.flagged p.1 p.2 = true
        · rw [if_pos h2]; exact iht acc hacc
        · rw [if_neg h2]
          exact iht _ (sapper_revealCell_inv acc.1 p.1 p.2 hacc)
  by_cases hgo : s.gameOver = true
  · simp only [Sapper.chordReveal, hgo, if_true]; exact h
  · by_cases hib : Sapper.inB s x y = false
    · simp only [Sapper.chordReveal, hgo, if_false, hib, if_true]; exact h
    · by_cases h3 : (!(s.revealed x y) || decide (s.grid x y ≤ 0)) = true
      · simp only [Sapper.chordReveal, hgo, if_false, hib, h3, if_true]; exact h
      · by_cases h4 : ¬((Sapper.countAdjacentFlags s x y : Int) = s.grid x y)
        · simp only [Sapper.chordReveal, hgo, if_false, hib, h3, h4, if_true]; exact h
        · simp only [Sapper.chordReveal, hgo, if_false, hib, h3, h4]
          exact hfold _ _ h

theorem sapper_genBoard_keeps (s : Sapper.Game) (ar : List (List (Nat × Nat)))
    (fr : List (Nat × Nat)) (ex ey : Int) :
    ((Sapper.generateSolvableBoard s ar fr ex ey).1.revealed = s.revealed ∧
     (Sapper.generateSolvableBoard s ar fr ex ey).1.flagged = s.flagged) ∧
    ((Sapper.generateSolvableBoard s ar fr ex ey).1.gameOver = s.gameOver ∧
     (Sapper.generateSolvableBoard s ar fr ex ey).1.won = s.won) := by
  unfold Sapper.generateSolvableBoard
  split
  · exact ⟨⟨rfl, rfl⟩, rfl, rfl⟩
  · exact ⟨⟨rfl, rfl⟩, rfl, rfl⟩

theorem sapper_handleFirstClick_inv (s : Sapper.Game) (ar : List (List (Nat × Nat)))
    (fr : List (Nat × Nat)) (x y : Int) (h : Sapper.FlagInv s) :
    Sapper.FlagInv (Sapper.handleFirstClick s ar fr x y).1 := by
  by_cases hmp : s.minesPlaced = true
  · simp only [Sapper.handleFirstClick, hmp, if_true]; exact h
  · simp only [Sapper.handleFirstClick, hmp, if_false]
    by_cases hng : s.noGuess = true
    · simp only [hng, if_true]
      apply sapper_revealCell_inv
      intro a b hand
      obtain ⟨⟨h1, h2⟩, _⟩ := sapper_genBoard_keeps s ar fr x y
      have hf3 : (Sapper.generateSolvableBoard s ar fr x y).1.flagged a b = true := hand.1
      have hr3 : (Sapper.generateSolvableBoard s ar fr x y).1.revealed a b = true := hand.2
      rw [h2] at hf3
      rw [h1] at hr3
      exact h a b ⟨hf3, hr3⟩
    · simp only [hng, if_false]
      apply sapper_revealCell_inv
      intro a b hand
      exact h a b hand

theorem sapper_reached_flagInv (s : Sapper.Game) (hs : Sapper.Reached s) :
    Sapper.FlagInv s := by
  induction hs with
  | start w h m ng ma => intro a b hand; exact Bool.false_ne_true hand.1
  | init hr ihr => intro a b hand; exact Bool.false_ne_true hand.1
  | first ar fr x y hr ihr => exact sapper_handleFirstClick_inv _ ar fr x y ihr
  | reveal x y hr ihr => exact sapper_revealCell_inv _ x y ihr
  | flag x y hr ihr => exact sapper_toggleFlag_inv _ x y ihr
  | chord x y hr ihr => exact sapper_chordReveal_inv _ x y ihr

theorem shapes_revealRec_inv :
    ∀ (f : Nat) (s : Shapes.Game) (x y : Int),
      Shapes.FlagInv s → Shapes.FlagInv (Shapes.revealRec f s x y).1 := by
  intro f
  induction f with
  | zero => intro s x y h; exact h
  | succ f ih =>
    intro s x y hinv
    have hfold : ∀ (l : List (Int × Int)) (acc : Shapes.Game × List (Int × Int)),
        Shapes.FlagInv acc.1 →
        Shapes.FlagInv (l.foldl
          (fun (acc : Shapes.Game × List (Int × Int)) p =>
            let q := Shapes.revealRec f acc.1 p.1 p.2
            (q.1, acc.2 ++ q.2.1))
          acc).1 := by
      intro l
      induction l with
      | nil => intro acc h; exact h
      | cons p t iht => intro acc h; exact iht _ (ih acc.1 p.1 p.2 h)
    simp only [Shapes.revealRec]
    split
    · exact hinv
    · split
      · exact hinv
      · rename_i hskip
        have hfl : (s.cells x y).flagged = false := by
          cases hv : (s.cells x y).flagged with
          | false => rfl
          | true => exact absurd (by simp [hv]) hskip
        have hs1 : Shapes.FlagInv
            { s with cells := upd2 s.cells x y { s.cells x y with revealed := true } } := by
          intro a b hand
          have hf3 : (upd2 s.cells x y { s.cells x y with revealed := true } a b).flagged = true :=
            hand.1
          have hr3 : (upd2 s.cells x y { s.cells x y with revealed := true } a b).revealed = true :=
            hand.2
          by_cases hc : a = x ∧ b = y
          · rw [show upd2 s.cells x y { s.cells x y with revealed := true } a b =
              { s.cells x y with revealed := true } from by simp [upd2, hc]] at hf3
            have : (s.cells x y).flagged = true := hf3
            rw [hfl] at this
            exact Bool.false_ne_true this
          · rw [show upd2 s.cells x y { s.cells x y with revealed := true } a b = s.cells a b from
              by simp [upd2, hc]] at hf3 hr3
            exact hinv a b ⟨hf3, hr3⟩
        split
        · exact hs1
        · split
          · exact hfold _ _ hs1
          · exact hs1

theorem shapes_revealCell_lost_noop (s : Shapes.Game) (x y : Int) (hgo : s.gameOver = true) :
    Shapes.revealCell s x y = (s, Sapper.emptyRes) := by
  simp [Shapes.revealCell, hgo]

theorem shapes_revealCell_strong (s : Shapes.Game) (x y : Int) (h : Shapes.FlagInv s) :
    Shapes.FlagInv (Shapes.revealCell s x y).1 ∨
      ((Shapes.revealCell s x y).1.gameOver = true ∧ (Shapes.revealCell s x y).1.won = false) := by
  have hr := shapes_revealRec_inv (Shapes.revealFuel s) s x y h
  by_cases hgo : s.gameOver = true
  · left; simp only [Shapes.revealCell, hgo, if_true]; exact h
  · by_cases hhit : (Shapes.revealRec (Shapes.revealFuel s) s x y).2.2 = true
    · right
      simp only [Shapes.revealCell, hgo, if_false, hhit, if_true]
      exact ⟨rfl, rfl⟩
    · left
      by_cases hwin : Shapes.checkWin (Shapes.revealRec (Shapes.revealFuel s) s x y).1 = true
      · simp only [Shapes.revealCell, hgo, if_false, hhit, hwin, if_true]; exact hr
      · simp only [Shapes.revealCell, hgo, if_false, hhit, hwin]; exact hr

theorem shapes_toggleFlag_lost_noop (s : Shapes.Game) (x y : Int) (hgo : s.gameOver = true) :
    (Shapes.toggleFlag s x y).1 = s := by
  simp [Shapes.toggleFlag, hgo]

theorem shapes_toggleFlag_inv (s : Shapes.Game) (x y : Int) (h : Shapes.FlagInv s) :
    Shapes.FlagInv (Shapes.toggleFlag s x y).1 := by
  by_cases hgo : s.gameOver = true
  · rw [shapes_toggleFlag_lost_noop s x y hgo]; exact h
  · by_cases hib : s.topo.inB x y = false
    · simp only [Shapes.toggleFlag, hgo, if_false, hib, if_true]; exact h
    · by_cases hrev : (s.cells x y).revealed = true
      · simp only [Shapes.toggleFlag, hgo, if_false, hib, hrev, if_true]; exact h
      · have hrf : (s.cells x y).revealed = false := by
          cases hv : (s.cells x y).revealed with
          | false => rfl
          | true => exact absurd hv hrev
        have hres : (Shapes.toggleFlag s x y).1 = { s with cells := upd2 s.cells x y { s.cells x y with flagged := !(s.cells x y).flagged } } := by
          simp [Shapes.toggleFlag, hgo, hib, hrf]
        rw [hres]
        intro a b hand
        have hf3 : (upd2 s.cells x y { s.cells x y with flagged := !(s.cells x y).flagged }
            a b).flagged = true := hand.1
        have hr3 : (upd2 s.cells x y { s.cells x y with flagged := !(s.cells x y).flagged }
            a b).revealed = true := hand.2
        by_cases hc : a = x ∧ b = y
        · rw [show upd2 s.cells x y { s.cells x y with flagged := !(s.cells x y).flagged } a b =
            { s.cells x y with flagged := !(s.cells x y).flagged } from by simp [upd2, hc]] at hr3
          have : (s.cells x y).revealed = true := hr3
          rw [hrf] at this
          exact Bool.false_ne_true this
        · rw [show upd2 s.cells x y { s.cells x y with flagged := !(s.cells x y).flagged } a b =
            s.cells a b from by simp [upd2, hc]] at hf3 hr3
          exact h a b ⟨hf3, hr3⟩

theorem shapes_chordReveal_lost_noop (s : Shapes.Game) (x y : Int) (hgo : s.gameOver = true) :
    (Shapes.chordReveal s x y).1 = s := by
  simp [Shapes.chordReveal, hgo]

theorem shapes_chordReveal_strong (s : Shapes.Game) (x y : Int)
    (h : Shapes.FlagInv s ∨ (s.gameOver = true ∧ s.won = false)) :
    Shapes.FlagInv (Shapes.chordReveal s x y).1 ∨
      ((Shapes.chordReveal s x y).1.gameOver = true ∧ (Shapes.chordReveal s x y).1.won = false) := by
  rcases h with h | h
  case inr =>
    rw [shapes_chordReveal_lost_noop s x y h.1]
    exact Or.inr h
  case inl =>
  have hfold : ∀ (l : List (Int × Int)) (acc : Shapes.Game × List (Int × Int) × Bool),
      (Shapes.FlagInv acc.1 ∨ (acc.1.gameOver = true ∧ acc.1.won = false)) →
      (Shapes.FlagInv (l.foldl
        (fun (acc : Shapes.Game × List (Int × Int) × Bool) p =>
          match Shapes.cellGet acc.1.topo acc.1.cells p.1 p.2 with
          | none => acc
          | some n =>
            if n.flagged then acc
            else
              let q := Shapes.revealCell acc.1 p.1 p.2
              (q.1, acc.2.1 ++ q.2.revealed, acc.2.2 || q.2.hit))
        acc).1 ∨
       ((l.foldl
        (fun (acc : Shapes.Game × List (Int × Int) × Bool) p =>
          match Shapes.cellGet acc.1.topo acc.1.cells p.1 p.2 with
          | none => acc
          | some n =>
            if n.flagged then acc
            else
              let q := Shapes.revealCell acc.1 p.1 p.2
              (q.1, acc.2.1 ++ q.2.revealed, acc.2.2 || q.2.hit))
        acc).1.gameOver = true ∧
        (l.foldl
        (fun (acc : Shapes.Game × List (Int × Int) × Bool) p =>
          match Shapes.cellGet acc.1.topo acc.1.cells p.1 p.2 with
          | none => acc
          | some n =>
            if n.flagged then acc
            else
              let q := Shapes.revealCell acc.1 p.1 p.2
              (q.1, acc.2.1 ++ q.2.revealed, acc.2.2 || q.2.hit))
        acc).1.won = false)) := by
    intro l
    induction l with
    | nil => intro acc hacc; exact hacc
    | cons p t iht =>
      intro acc hacc
      rw [List.foldl_cons]
      cases hget : Shapes.cellGet acc.1.topo acc.1.cells p.1 p.2 with
      | none => exact iht acc hacc
      | some n =>
        by_cases hfl : n.flagged = true
        · simp only [hget, hfl, if_true]
          exact iht acc hacc
        · simp only [hget, hfl, if_false]
          apply iht
          rcases hacc with hacc | hacc
          · exact shapes_revealCell_strong acc.1 p.1 p.2 hacc
          · rw [shapes_revealCell_lost_noop acc.1 p.1 p.2 hacc.1]
            exact Or.inr hacc
  by_cases hgo : s.gameOver = true
  · left; simp only [Shapes.chordReveal, hgo, if_true]; exact h
  · by_cases hib : s.topo.inB x y = false
    · left; simp only [Shapes.chordReveal, hgo, if_false, hib, if_true]; exact h
    · by_cases h3 : (!(s.cells x y).revealed || decide ((s.cells x y).count ≤ 0)) = true
      · left; simp only [Shapes.chordReveal, hgo, if_false, hib, h3, if_true]; exact h
      · by_cases h4 : ¬(Shapes.countAdjacentFlags s x y = (s.cells x y).count)
        · left; simp only [Shapes.chordReveal, hgo, if_false, hib, h3, h4, if_true]; exact h
        · have hres := hfold (s.topo.nbrs x y) (s, [], false) (Or.inl h)
          have hrev : (s.cells x y).revealed = true := by
            cases hv : (s.cells x y).revealed with
            | true => rfl
            | false => exact absurd (by simp [hv]) h3
          have hcnt : ¬((s.cells x y).count = 0) := by
            intro hz
            exact h3 (by simp [hz])
          have e1 : (Shapes.chordReveal s x y).1 =
              ((s.topo.nbrs x y).foldl
                (fun (acc : Shapes.Game × List (Int × Int) × Bool) p =>
                  match Shapes.cellGet acc.1.topo acc.1.cells p.1 p.2 with
                  | none => acc
                  | some n =>
                    if n.flagged then acc
                    else
                      let q := Shapes.revealCell acc.1 p.1 p.2
                      (q.1, acc.2.1 ++ q.2.revealed, acc.2.2 || q.2.hit))
                (s, [], false)).1 := by
            simp [Shapes.chordReveal, hgo, hib, h3, h4, hrev, hcnt]
          rw [e1]
          exact hres

theorem shapes_setMines_keeps (ps : List (Int × Int)) :
    ∀ (cells : Int → Int → Shapes.Cell) (ml : List (Int × Int)) (a b : Int),
      (((Shapes.setMines cells ml ps).1 a b).flagged = (cells a b).flagged ∧
       ((Shapes.setMines cells ml ps).1 a b).revealed = (cells a b).revealed) := by
  induction ps with
  | nil => intro cells ml a b; exact ⟨rfl, rfl⟩
  | cons q t ih =>
    intro cells ml a b
    have hstep : Shapes.setMines cells ml (q :: t) =
        Shapes.setMines (upd2 cells q.1 q.2 { cells q.1 q.2 with mine := true })
          (ml ++ [q]) t := rfl
    rw [hstep]
    obtain ⟨h1, h2⟩ := ih (upd2 cells q.1 q.2 { cells q.1 q.2 with mine := true }) (ml ++ [q]) a b
    constructor
    · rw [h1]
      by_cases hc : a = q.1 ∧ b = q.2 <;> simp [upd2, hc]
    · rw [h2]
      by_cases hc : a = q.1 ∧ b = q.2 <;> simp [upd2, hc]

theorem shapes_calcCounts_keeps (t : Topology) (cells : Int → Int → Shapes.Cell) (a b : Int) :
    ((Shapes.calcCounts t cells) a b).flagged = (cells a b).flagged ∧
    ((Shapes.calcCounts t cells) a b).revealed = (cells a b).revealed := by
  unfold Shapes.calcCounts
  by_cases hin : Topology.inB t a b = true
  · by_cases hm : (cells a b).mine = true <;> simp [hin, hm]
  · simp [hin]

theorem shapes_place_keeps (s : Shapes.Game) (rng : List Nat) (ex ey : Int) :
    (∀ a b : Int,
      ((Shapes.placeMinesRandomly s rng ex ey).cells a b).flagged = (s.cells a b).flagged ∧
      ((Shapes.placeMinesRandomly s rng ex ey).cells a b).revealed = (s.cells a b).revealed) ∧
    (Shapes.placeMinesRandomly s rng ex ey).gameOver = s.gameOver ∧
    (Shapes.placeMinesRandomly s rng ex ey).won = s.won ∧
    (Shapes.placeMinesRandomly s rng ex ey).minesPlaced = s.minesPlaced := by
  refine ⟨?_, rfl, rfl, rfl⟩
  intro a b
  obtain ⟨h1, h2⟩ := shapes_calcCounts_keeps s.topo
    (Shapes.setMines s.cells s.mineLocations
      ((Shapes.fisherYates rng (Shapes.validPositions s.topo ex ey)).take
        (min s.totalMines (Shapes.validPositions s.topo ex ey).length))).1 a b
  obtain ⟨h3, h4⟩ := shapes_setMines_keeps
    ((Shapes.fisherYates rng (Shapes.validPositions s.topo ex ey)).take
      (min s.totalMines (Shapes.validPositions s.topo ex ey).length))
    s.cells s.mineLocations a b
  exact ⟨h1.trans h3, h2.trans h4⟩

theorem shapes_gen_keeps (s : Shapes.Game) (ar : List (List Nat)) (fr : List Nat) (ex ey : Int) :
    (∀ a b : Int,
      ((Shapes.generateSolvableBoard s ar fr ex ey).1.cells a b).flagged =
        (s.cells a b).flagged ∧
      ((Shapes.generateSolvableBoard s ar fr ex ey).1.cells a b).revealed =
        (s.cells a b).revealed) ∧
    (Shapes.generateSolvableBoard s ar fr ex ey).1.gameOver = s.gameOver ∧
    (Shapes.generateSolvableBoard s ar fr ex ey).1.won = s.won ∧
    (Shapes.generateSolvableBoard s ar fr ex ey).1.minesPlaced = s.minesPlaced := by
  cases hgen : Shapes.genLoop s.topo (Shapes.validPositions s.topo ex ey)
      (min s.totalMines (Shapes.validPositions s.topo ex ey).length) ex ey s.maxAttempts ar with
  | some trial =>
    have hres : (Shapes.generateSolvableBoard s ar fr ex ey).1 =
        { s with
          cells := fun x y =>
            if s.topo.inB x y then
              { s.cells x y with mine := (trial.1 x y).mine, count := (trial.1 x y).count }
            else s.cells x y
          mineLocations := trial.2 } := by
      simp [Shapes.generateSolvableBoard, hgen]
    rw [hres]
    refine ⟨?_, rfl, rfl, rfl⟩
    intro a b
    by_cases hin : s.topo.inB a b = true <;> simp [hin]
  | none =>
    have hres : (Shapes.generateSolvableBoard s ar fr ex ey).1 =
        Shapes.placeMinesRandomly s fr ex ey := by
      simp [Shapes.generateSolvableBoard, hgen]
    rw [hres]
    exact shapes_place_keeps s fr ex ey

theorem shapes_firstClick_expand (s : Shapes.Game) (ar : List (List Nat)) (fr : List Nat)
    (x y : Int) (hmp : ¬(s.minesPlaced = true)) :
    Shapes.handleFirstClick s ar fr x y =
      ((Shapes.revealCell
          { (if s.noGuess then Shapes.generateSolvableBoard s ar fr x y
             else (Shapes.placeMinesRandomly s fr x y, true)).1 with minesPlaced := true } x y).1,
       ⟨(if s.noGuess then Shapes.generateSolvableBoard s ar fr x y
         else (Shapes.placeMinesRandomly s fr x y, true)).2,
        (Shapes.revealCell
          { (if s.noGuess then Shapes.generateSolvableBoard s ar fr x y
             else (Shapes.placeMinesRandomly s fr x y, true)).1 with minesPlaced := true } x y).2.revealed⟩) := by
  simp only [Shapes.handleFirstClick, hmp, if_false]
  rfl

theorem shapes_handleFirstClick_strong (s : Shapes.Game) (ar : List (List Nat))
    (fr : List Nat) (x y : Int)
    (h : Shapes.FlagInv s ∨ (s.gameOver = true ∧ s.won = false)) :
    Shapes.FlagInv (Shapes.handleFirstClick s ar fr x y).1 ∨
      ((Shapes.handleFirstClick s ar fr x y).1.gameOver = true ∧
       (Shapes.handleFirstClick s ar fr x y).1.won = false) := by
  by_cases hmp : s.minesPlaced = true
  · simp only [Shapes.handleFirstClick, hmp, if_true]
    exact h
  · rw [shapes_firstClick_expand s ar fr x y hmp]
    have hkeep :
        (∀ a b : Int,
          (((if s.noGuess then Shapes.generateSolvableBoard s ar fr x y
              else (Shapes.placeMinesRandomly s fr x y, true)).1.cells a b).flagged =
            (s.cells a b).flagged ∧
           ((if s.noGuess then Shapes.generateSolvableBoard s ar fr x y
              else (Shapes.placeMinesRandomly s fr x y, true)).1.cells a b).revealed =
            (s.cells a b).revealed)) ∧
        (if s.noGuess then Shapes.generateSolvableBoard s ar fr x y
          else (Shapes.placeMinesRandomly s fr x y, true)).1.gameOver = s.gameOver ∧
        (if s.noGuess then Shapes.generateSolvableBoard s ar fr x y
          else (Shapes.placeMinesRandomly s fr x y, true)).1.won = s.won := by
      by_cases hng : s.noGuess = true
      · simp only [hng, if_true]
        obtain ⟨h1, h2, h3, _⟩ := shapes_gen_keeps s ar fr x y
        exact ⟨h1, h2, h3⟩
      · simp only [hng, if_false]
        obtain ⟨h1, h2, h3, _⟩ := shapes_place_keeps s fr x y
        exact ⟨h1, h2, h3⟩
    set sg := (if s.noGuess then Shapes.generateSolvableBoard s ar fr x y
      else (Shapes.placeMinesRandomly s fr x y, true)).1 with hsg
    obtain ⟨hcells, hgo, hwon⟩ := hkeep
    rcases h with h | h
    · have hinv1 : Shapes.FlagInv { sg with minesPlaced := true } := by
        intro a b hand
        have hf3 : (sg.cells a b).flagged = true := hand.1
        have hr3 : (sg.cells a b).revealed = true := hand.2
        rw [(hcells a b).1] at hf3
        rw [(hcells a b).2] at hr3
        exact h a b ⟨hf3, hr3⟩
      exact shapes_revealCell_strong { sg with minesPlaced := true } x y hinv1
    · have hlost : ({ sg with minesPlaced := true } : Shapes.Game).gameOver = true := by
        rw [show ({ sg with minesPlaced := true } : Shapes.Game).gameOver = sg.gameOver
          from rfl, hgo, h.1]
      rw [shapes_revealCell_lost_noop _ x y hlost]
      right
      refine ⟨hlost, ?_⟩
      rw [show ({ sg with minesPlaced := true } : Shapes.Game).won = sg.won from rfl, hwon, h.2]

theorem shapes_reached_strong (s : Shapes.Game) (hs : Shapes.Reached s) :
    Shapes.FlagInv s ∨ (s.gameOver = true ∧ s.won = false) := by
  induction hs with
  | start t m ng ma => left; intro a b hand; exact Bool.false_ne_true hand.1
  | init hr ihr => left; intro a b hand; exact Bool.false_ne_true hand.1
  | first ar fr x y hr ihr => exact shapes_handleFirstClick_strong _ ar fr x y ihr
  | reveal x y hr ihr =>
    rcases ihr with h | h
    · exact shapes_revealCell_strong _ x y h
    · rw [shapes_revealCell_lost_noop _ x y h.1]
      exact Or.inr h
  | flag x y hr ihr =>
    rcases ihr with h | h
    · left; exact shapes_toggleFlag_inv _ x y h
    · rw [shapes_toggleFlag_lost_noop _ x y h.1]
      exact Or.inr h
  | chord x y hr ihr => exact shapes_chordReveal_strong _ x y ihr

/-- C5 counterexample: a reachable shape-grid state (first click, flag a
mine, reveal another mine) in which the flagged mine cell (2,0) is both
flagged and revealed, because the loss-time mass mine reveal does not spare
flagged cells. -/
theorem shapes_loss_breaks_flag_invariant :
    Shapes.Reached shLossSeqFixture ∧
    (shLossSeqFixture.cells 2 0).flagged = true ∧
    (shLossSeqFixture.cells 2 0).revealed = true := by
  refine ⟨?_, ?_, ?_⟩
  · exact Shapes.Reached.reveal 3 0 (Shapes.Reached.flag 2 0
      (Shapes.Reached.first [] [3, 2, 1] 0 0 (Shapes.Reached.start (hexTopology 6 1) 2 false 1)))
  · decide
  · decide

/-- C5 (amended): in every reachable square-engine state no cell is both
flagged and revealed; in the shape-grid engine the same holds in every
reachable state except after a loss, where the end-of-game mass mine reveal
can mark flagged mine cells revealed. -/
theorem flag_reveal_exclusive
    (s : Sapper.Game) (hs : Sapper.Reached s) (t : Shapes.Game) (ht : Shapes.Reached t) :
    (∀ a b : Int, ¬(s.flagged a b = true ∧ s.revealed a b = true)) ∧
    ((t.gameOver = true ∧ t.won = false) ∨
      ∀ a b : Int, ¬((t.cells a b).flagged = true ∧ (t.cells a b).revealed = true)) := by
  refine ⟨sapper_reached_flagInv s hs, ?_⟩
  rcases shapes_reached_strong t ht with h | h
  · exact Or.inr h
  · exact Or.inl h

/-- Witness for the flag-invariant claim at two freshly initialised
boards. -/
theorem flag_reveal_exclusive_witness :
    Sapper.Reached (Sapper.mkGame 2 2 1 false 1) ∧
    Shapes.Reached (Shapes.mkGame (hexTopology 2 2) 1 false 1) ∧
    ((∀ a b : Int, ¬((Sapper.mkGame 2 2 1 false 1).flagged a b = true ∧
        (Sapper.mkGame 2 2 1 false 1).revealed a b = true)) ∧
     (((Shapes.mkGame (hexTopology 2 2) 1 false 1).gameOver = true ∧
        (Shapes.mkGame (hexTopology 2 2) 1 false 1).won = false) ∨
      ∀ a b : Int, ¬(((Shapes.mkGame (hexTopology 2 2) 1 false 1).cells a b).flagged = true ∧
        ((Shapes.mkGame (hexTopology 2 2) 1 false 1).cells a b).revealed = true))) :=
  ⟨Sapper.Reached.start 2 2 1 false 1, Shapes.Reached.start (hexTopology 2 2) 1 false 1,
   flag_reveal_exclusive (Sapper.mkGame 2 2 1 false 1) (Sapper.Reached.start 2 2 1 false 1)
     (Shapes.mkGame (hexTopology 2 2) 1 false 1)
     (Shapes.Reached.start (hexTopology 2 2) 1 false 1)⟩

theorem sapper_placeLoop_mine (ex ey : Int) :
    ∀ (stream : List (Int × Int)) (g : Int → Int → Int) (ml : List (Int × Int)) (need : Nat)
      (a b : Int),
      (Sapper.placeLoop ex ey g ml need stream).1 a b = -1 →
      g a b = -1 ∨ Sapper.inExclusionZone ex ey a b = false := by
  intro stream
  induction stream with
  | nil => intro g ml need a b h; exact Or.inl h
  | cons p rest ih =>
    intro g ml need a b h
    rw [Sapper.placeLoop] at h
    by_cases hz : need = 0
    · rw [if_pos hz] at h; exact Or.inl h
    · rw [if_neg hz] at h
      by_cases hex : Sapper.inExclusionZone ex ey p.1 p.2 = true
      · rw [if_pos hex] at h
        exact ih g ml need a b h
      · rw [if_neg hex] at h
        by_cases hm : g p.1 p.2 = -1
        · rw [if_pos hm] at h
          exact ih g ml need a b h
        · rw [if_neg hm] at h
          rcases ih _ _ _ a b h with h2 | h2
          · by_cases hc : a = p.1 ∧ b = p.2
            · right
              rw [hc.1, hc.2]
              cases hv : Sapper.inExclusionZone ex ey p.1 p.2 with
              | false => rfl
              | true => exact absurd hv hex
            · left
              rw [show upd2 g p.1 p.2 (-1) a b = g a b from by simp [upd2, hc]] at h2
              exact h2
          · exact Or.inr h2

theorem sapper_calcNumbers_mine (w h : Nat) (g : Int → Int → Int) (a b : Int)
    (hm : Sapper.calcNumbers w h g a b = -1) : g a b = -1 := by
  unfold Sapper.calcNumbers at hm
  by_cases hin : inBoundsWH w h a b = true
  · rw [if_pos hin] at hm
    by_cases hg : g a b = -1
    · exact hg
    · rw [if_neg hg] at hm
      exact absurd hm (by omega)
  · rw [if_neg hin] at hm
    exact hm

theorem sapper_genLoop_shape (w h mm : Nat) (ex ey : Int) :
    ∀ (n : Nat) (rngs : List (List (Nat × Nat))) (t : (Int → Int → Int) × List (Int × Int)),
      Sapper.genLoop w h mm ex ey n rngs = some t →
      ∃ rng, t = Sapper.buildTrial w h mm ex ey rng := by
  intro n
  induction n with
  | zero => intro rngs t hl; cases hl
  | succ n ih =>
    intro rngs t hl
    rw [Sapper.genLoop] at hl
    by_cases hs : Sapper.simulateSolve w h (Sapper.buildTrial w h mm ex ey (rngs.headD [])).1
        ex ey = true
    · rw [if_pos hs] at hl
      exact ⟨rngs.headD [], (Option.some_inj.mp hl).symm⟩
    · rw [if_neg hs] at hl
      exact ih rngs.tail t hl

theorem sapper_firstClick_mine_zone (s : Sapper.Game) (ar : List (List (Nat × Nat)))
    (fr : List (Nat × Nat)) (x y : Int) (hg : ∀ a b : Int, s.grid a b = 0) :
    ∀ a b : Int, (Sapper.handleFirstClick s ar fr x y).1.grid a b = -1 →
      Sapper.inExclusionZone x y a b = false := by
  have hplace : ∀ (rng : List (Nat × Nat)) (a b : Int),
      (Sapper.placeMinesRandomly s rng x y).grid a b = -1 →
      Sapper.inExclusionZone x y a b = false := by
    intro rng a b hm
    have h2 := sapper_calcNumbers_mine s.width s.height _ a b hm
    rcases sapper_placeLoop_mine x y _ s.grid s.mineLocations (Sapper.mineCap s) a b h2 with
      h3 | h3
    · rw [hg a b] at h3
      exact absurd h3 (by omega)
    · exact h3
  have htrial : ∀ (rng : List (Nat × Nat)) (a b : Int),
      (Sapper.buildTrial s.width s.height (Sapper.mineCap s) x y rng).1 a b = -1 →
      Sapper.inExclusionZone x y a b = false := by
    intro rng a b hm
    have h2 := sapper_calcNumbers_mine s.width s.height _ a b hm
    rcases sapper_placeLoop_mine x y _ (fun _ _ => 0) [] (Sapper.mineCap s) a b h2 with h3 | h3
    · exact absurd h3 (by omega)
    · exact h3
  intro a b hm
  by_cases hmp : s.minesPlaced = true
  · rw [show (Sapper.handleFirstClick s ar fr x y).1 = s from by
      simp [Sapper.handleFirstClick, hmp]] at hm
    rw [hg a b] at hm
    exact absurd hm (by omega)
  · have hexp : (Sapper.handleFirstClick s ar fr x y).1 =
        (Sapper.revealCell
          { (if s.noGuess then Sapper.generateSolvableBoard s ar fr x y
             else (Sapper.placeMinesRandomly s fr x y, true)).1 with minesPlaced := true }
          x y).1 := by
      simp only [Sapper.handleFirstClick, hmp, if_false]
      rfl
    rw [hexp] at hm
    have hfr := sapper_revealCell_frame
      { (if s.noGuess then Sapper.generateSolvableBoard s ar fr x y
         else (Sapper.placeMinesRandomly s fr x y, true)).1 with minesPlaced := true } x y
    rw [hfr.grid] at hm
    by_cases hng : s.noGuess = true
    · rw [if_pos hng] at hm
      cases hgen : Sapper.genLoop s.width s.height (Sapper.mineCap s) x y s.maxAttempts ar with
      | some t =>
        have hco : (Sapper.generateSolvableBoard s ar fr x y).1.grid = t.1 := by
          simp [Sapper.generateSolvableBoard, hgen]
        rw [show ({ (Sapper.generateSolvableBoard s ar fr x y).1 with
            minesPlaced := true } : Sapper.Game).grid =
          (Sapper.generateSolvableBoard s ar fr x y).1.grid from rfl, hco] at hm
        obtain ⟨rng, hrng⟩ := sapper_genLoop_shape s.width s.height (Sapper.mineCap s) x y
          s.maxAttempts ar t hgen
        rw [hrng] at hm
        exact htrial rng a b hm
      | none =>
        have hco : (Sapper.generateSolvableBoard s ar fr x y).1 =
            Sapper.placeMinesRandomly s fr x y := by
          simp [Sapper.generateSolvableBoard, hgen]
        rw [show ({ (Sapper.generateSolvableBoard s ar fr x y).1 with
            minesPlaced := true } : Sapper.Game).grid =
          (Sapper.generateSolvableBoard s ar fr x y).1.grid from rfl, hco] at hm
        exact hplace fr a b hm
    · rw [if_neg hng] at hm
      exact hplace fr a b hm

theorem listSwap_subset {α : Type} (l : List α) (i j : Nat) :
    ∀ q ∈ Shapes.listSwap l i j, q ∈ l := by
  intro q hq
  unfold Shapes.listSwap at hq
  cases hi : l.get? i with
  | none => rw [hi] at hq; exact hq
  | some a =>
    cases hj : l.get? j with
    | none => rw [hi, hj] at hq; exact hq
    | some b =>
      rw [hi, hj] at hq
      rcases List.mem_or_eq_of_mem_set hq with h2 | h2
      · rcases List.mem_or_eq_of_mem_set h2 with h3 | h3
        · exact h3
        · rw [h3]; exact List.get?_mem hj
      · rw [h2]; exact List.get?_mem hi

theorem fyLoop_subset {α : Type} :
    ∀ (k : Nat) (rng : List Nat) (l : List α) (q : α), q ∈ Shapes.fyLoop k rng l → q ∈ l := by
  intro k
  induction k with
  | zero => intro rng l q hq; exact hq
  | succ k ih =>
    intro rng l q hq
    rw [Shapes.fyLoop] at hq
    exact listSwap_subset _ _ _ q (ih rng.tail _ q hq)

theorem fisherYates_subset {α : Type} (rng : List Nat) (l : List α) :
    ∀ q ∈ Shapes.fisherYates rng l, q ∈ l :=
  fun q hq => fyLoop_subset (l.length - 1) rng l q hq

theorem shapes_setMines_mine (ps : List (Int × Int)) :
    ∀ (cells : Int → Int → Shapes.Cell) (ml : List (Int × Int)) (a b : Int),
      ((Shapes.setMines cells ml ps).1 a b).mine = true →
      (cells a b).mine = true ∨ (a, b) ∈ ps := by
  induction ps with
  | nil => intro cells ml a b h; exact Or.inl h
  | cons q t ih =>
    intro cells ml a b h
    rw [show Shapes.setMines cells ml (q :: t) =
      Shapes.setMines (upd2 cells q.1 q.2 { cells q.1 q.2 with mine := true })
        (ml ++ [q]) t from rfl] at h
    rcases ih _ _ a b h with h2 | h2
    · by_cases hc : a = q.1 ∧ b = q.2
      · right
        rw [hc.1, hc.2]
        exact List.mem_cons_self q t
      · left
        rw [show upd2 cells q.1 q.2 { cells q.1 q.2 with mine := true } a b = cells a b from
          by simp [upd2, hc]] at h2
        exact h2
    · exact Or.inr (List.mem_cons_of_mem q h2)

theorem shapes_calcCounts_mine (t : Topology) (cells : Int → Int → Shapes.Cell) (a b : Int) :
    ((Shapes.calcCounts t cells) a b).mine = (cells a b).mine := by
  unfold Shapes.calcCounts
  by_cases hin : Topology.inB t a b = true
  · by_cases hm : (cells a b).mine = true <;> simp [hin, hm]
  · simp [hin]

theorem shapes_validPositions_zone (t : Topology) (ex ey : Int) (p : Int × Int)
    (hp : p ∈ Shapes.validPositions t ex ey) :
    ¬(p = (ex, ey)) ∧ ¬(p ∈ t.nbrs ex ey) := by
  have h2 := List.of_mem_filter hp
  have h3 : ((Shapes.exclusionZone t ex ey).contains p) = false := by
    cases hv : (Shapes.exclusionZone t ex ey).contains p with
    | false => rfl
    | true => rw [hv] at h2; exact absurd h2 (by simp)
  have h4 : p ∉ Shapes.exclusionZone t ex ey := by
    intro hmem
    simp [List.contains_eq_any_beq] at h3
    exact h3 hmem
  constructor
  · intro he
    exact h4 (by rw [he]; exact List.mem_cons_self _ _)
  · intro hn
    exact h4 (List.mem_cons_of_mem _ hn)

theorem shapes_place_mine (s : Shapes.Game) (rng : List Nat) (ex ey : Int)
    (hg : ∀ a b : Int, (s.cells a b).mine = false) (a b : Int)
    (hm : ((Shapes.placeMinesRandomly s rng ex ey).cells a b).mine = true) :
    (a, b) ∈ Shapes.validPositions s.topo ex ey := by
  unfold Shapes.placeMinesRandomly at hm
  rw [shapes_calcCounts_mine] at hm
  rcases shapes_setMines_mine _ _ _ a b hm with h2 | h2
  · rw [hg a b] at h2
    exact absurd h2 (by simp)
  · exact fisherYates_subset rng _ (a, b) (List.mem_of_mem_take h2)

theorem shapes_genLoop_shape (t : Topology) (ap : List (Int × Int)) (mm : Nat) (ex ey : Int) :
    ∀ (n : Nat) (rngs : List (List Nat)) (tr : (Int → Int → Shapes.Cell) × List (Int × Int)),
      Shapes.genLoop t ap mm ex ey n rngs = some tr →
      ∃ rng, tr = Shapes.buildTrial t ap mm rng := by
  intro n
  induction n with
  | zero => intro rngs tr hl; cases hl
  | succ n ih =>
    intro rngs tr hl
    rw [Shapes.genLoop] at hl
    by_cases hs : Shapes.simulateSolve t (Shapes.buildTrial t ap mm (rngs.headD [])).1 ex ey = true
    · rw [if_pos hs] at hl
      exact ⟨rngs.headD [], (Option.some_inj.mp hl).symm⟩
    · rw [if_neg hs] at hl
      exact ih rngs.tail tr hl

theorem shapes_buildTrial_mine (t : Topology) (ap : List (Int × Int)) (mm : Nat)
    (rng : List Nat) (a b : Int)
    (hm : ((Shapes.buildTrial t ap mm rng).1 a b).mine = true) : (a, b) ∈ ap := by
  unfold Shapes.buildTrial at hm
  rw [shapes_calcCounts_mine] at hm
  rcases shapes_setMines_mine _ _ _ a b hm with h2 | h2
  · exact absurd h2 (by simp [Shapes.Cell.empty])
  · exact fisherYates_subset rng _ (a, b) (List.mem_of_mem_take h2)

theorem shapes_firstClick_mine_valid (t : Shapes.Game) (ar : List (List Nat)) (fr : List Nat)
    (x y : Int) (hg : ∀ a b : Int, (t.cells a b).mine = false) (a b : Int)
    (hm : ((Shapes.handleFirstClick t ar fr x y).1.cells a b).mine = true) :
    (a, b) ∈ Shapes.validPositions t.topo x y := by
  by_cases hmp : t.minesPlaced = true
  · rw [show (Shapes.handleFirstClick t ar fr x y).1 = t from by
      simp [Shapes.handleFirstClick, hmp]] at hm
    rw [hg a b] at hm
    exact absurd hm (by simp)
  · rw [shapes_firstClick_expand t ar fr x y hmp] at hm
    have hfr := shapes_revealCell_frame
      { (if t.noGuess then Shapes.generateSolvableBoard t ar fr x y
         else (Shapes.placeMinesRandomly t fr x y, true)).1 with minesPlaced := true } x y
    rw [hfr.mine a b] at hm
    by_cases hng : t.noGuess = true
    · rw [if_pos hng] at hm
      cases hgen : Shapes.genLoop t.topo (Shapes.validPositions t.topo x y)
          (min t.totalMines (Shapes.validPositions t.topo x y).length) x y t.maxAttempts ar with
      | some trial =>
        have hco : (Shapes.generateSolvableBoard t ar fr x y).1.cells = fun u v =>
            if t.topo.inB u v then
              { t.cells u v with mine := (trial.1 u v).mine, count := (trial.1 u v).count }
            else t.cells u v := by
          simp [Shapes.generateSolvableBoard, hgen]
        rw [show ({ (Shapes.generateSolvableBoard t ar fr x y).1 with
            minesPlaced := true } : Shapes.Game).cells =
          (Shapes.generateSolvableBoard t ar fr x y).1.cells from rfl, hco] at hm
        by_cases hin : Topology.inB t.topo a b = true
        · rw [show ((fun u v =>
              if t.topo.inB u v then
                { t.cells u v with mine := (trial.1 u v).mine, count := (trial.1 u v).count }
              else t.cells u v) a b) =
            { t.cells a b with mine := (trial.1 a b).mine, count := (trial.1 a b).count } from
            by simp [hin]] at hm
          have hm2 : (trial.1 a b).mine = true := hm
          obtain ⟨rng, hrng⟩ := shapes_genLoop_shape t.topo (Shapes.validPositions t.topo x y)
            (min t.totalMines (Shapes.validPositions t.topo x y).length) x y
            t.maxAttempts ar trial hgen
          rw [hrng] at hm2
          exact shapes_buildTrial_mine _ _ _ rng a b hm2
        · rw [show ((fun u v =>
              if t.topo.inB u v then
                { t.cells u v with mine := (trial.1 u v).mine, count := (trial.1 u v).count }
              else t.cells u v) a b) = t.cells a b from by simp [hin]] at hm
          rw [hg a b] at hm
          exact absurd hm (by simp)
      | none =>
        have hco : (Shapes.generateSolvableBoard t ar fr x y).1 =
            Shapes.placeMinesRandomly t fr x y := by
          simp [Shapes.generateSolvableBoard, hgen]
        rw [show ({ (Shapes.generateSolvableBoard t ar fr x y).1 with
            minesPlaced := true } : Shapes.Game).cells =
          (Shapes.generateSolvableBoard t ar fr x y).1.cells from rfl, hco] at hm
        exact shapes_place_mine t fr x y hg a b hm
    · rw [if_neg hng] at hm
      exact shapes_place_mine t fr x y hg a b hm

/-- C2: for every configuration and every in-bounds clicked coordinate on a
fresh board (all cells empty), immediately after handleFirstClick neither
the clicked cell nor any of its topology neighbors is a mine, in the square
engine (Moore neighborhood) and in the shape engine (arbitrary grid
topology), on every path including the no-guess fallback. -/
theorem first_click_safe
    (s : Sapper.Game) (ar : List (List (Nat × Nat))) (fr : List (Nat × Nat)) (x y : Int)
    (hin : Sapper.inB s x y = true) (hg : ∀ a b : Int, s.grid a b = 0)
    (t : Shapes.Game) (ar2 : List (List Nat)) (fr2 : List Nat) (x2 y2 : Int)
    (hin2 : t.topo.inB x2 y2 = true) (hg2 : ∀ a b : Int, (t.cells a b).mine = false) :
    (Sapper.isMine (Sapper.handleFirstClick s ar fr x y).1 x y = false ∧
     ∀ p ∈ mooreNbrs x y,
       Sapper.isMine (Sapper.handleFirstClick s ar fr x y).1 p.1 p.2 = false) ∧
    (Shapes.isMine (Shapes.handleFirstClick t ar2 fr2 x2 y2).1 x2 y2 = false ∧
     ∀ p ∈ t.topo.nbrs x2 y2,
       Shapes.isMine (Shapes.handleFirstClick t ar2 fr2 x2 y2).1 p.1 p.2 = false) := by
  have hsq : ∀ a b : Int, Sapper.inExclusionZone x y a b = true →
      Sapper.isMine (Sapper.handleFirstClick s ar fr x y).1 a b = false := by
    intro a b hz
    unfold Sapper.isMine
    split
    · have hnm : ¬((Sapper.handleFirstClick s ar fr x y).1.grid a b = -1) := by
        intro hmine
        have hcontra := sapper_firstClick_mine_zone s ar fr x y hg a b hmine
        rw [hz] at hcontra
        exact absurd hcontra (by simp)
      simp [hnm]
    · rfl
  have hsh : ∀ a b : Int, ((a, b) ∈ Shapes.validPositions t.topo x2 y2 → False) →
      Shapes.isMine (Shapes.handleFirstClick t ar2 fr2 x2 y2).1 a b = false := by
    intro a b hnv
    unfold Shapes.isMine Shapes.getCell Shapes.cellGet
    by_cases hib : (Shapes.handleFirstClick t ar2 fr2 x2 y2).1.topo.inB a b = true
    · rw [if_pos hib]
      show ((Shapes.handleFirstClick t ar2 fr2 x2 y2).1.cells a b).mine = false
      cases hv : ((Shapes.handleFirstClick t ar2 fr2 x2 y2).1.cells a b).mine with
      | false => rfl
      | true => exact (hnv (shapes_firstClick_mine_valid t ar2 fr2 x2 y2 hg2 a b hv)).elim
    · rw [if_neg hib]
  refine ⟨⟨?_, ?_⟩, ?_, ?_⟩
  · apply hsq
    unfold Sapper.inExclusionZone
    simp
  · intro p hp
    apply hsq
    unfold Sapper.inExclusionZone
    simp only [mooreNbrs, mooreOffsets, List.map_cons, List.map_nil, List.mem_cons,
      List.not_mem_nil, or_false] at hp
    rcases hp with rfl | rfl | rfl | rfl | rfl | rfl | rfl | rfl <;> simp <;> omega
  · apply hsh
    intro hmem
    exact (shapes_validPositions_zone t.topo x2 y2 _ hmem).1 rfl
  · intro p hp
    apply hsh
    intro hmem
    have := (shapes_validPositions_zone t.topo x2 y2 _ hmem).2
    exact this hp

/-- Witness for first-click safety on two concrete fresh boards. -/
theorem first_click_safe_witness :
    Sapper.inB (Sapper.mkGame 4 4 3 false 2) 1 1 = true ∧
    (Shapes.mkGame (hexTopology 4 4) 3 false 2).topo.inB 1 1 = true ∧
    (Sapper.isMine
        (Sapper.handleFirstClick (Sapper.mkGame 4 4 3 false 2) [] [(2, 2), (3, 3)] 1 1).1
        1 1 = false ∧
     Shapes.isMine
        (Shapes.handleFirstClick (Shapes.mkGame (hexTopology 4 4) 3 false 2) [] [5, 4, 3] 1 1).1
        1 1 = false) := by
  refine ⟨by decide, by decide, ?_, ?_⟩
  · exact (first_click_safe (Sapper.mkGame 4 4 3 false 2) [] [(2, 2), (3, 3)] 1 1 (by decide)
      (fun _ _ => rfl) (Shapes.mkGame (hexTopology 4 4) 3 false 2) [] [5, 4, 3] 1 1 (by decide)
      (fun _ _ => rfl)).1.1
  · exact (first_click_safe (Sapper.mkGame 4 4 3 false 2) [] [(2, 2), (3, 3)] 1 1 (by decide)
      (fun _ _ => rfl) (Shapes.mkGame (hexTopology 4 4) 3 false 2) [] [5, 4, 3] 1 1 (by decide)
      (fun _ _ => rfl)).2.1

theorem countP_congr_mem {α : Type} (l : List α) (p q : α → Bool)
    (h : ∀ a ∈ l, p a = q a) : l.countP p = l.countP q := by
  induction l with
  | nil => rfl
  | cons a t ih =>
    rw [List.countP_cons, List.countP_cons, h a (List.mem_cons_self a t),
      ih (fun b hb => h b (List.mem_cons_of_mem a hb))]

theorem countP_update_true {α : Type} :
    ∀ (l : List α) (p : α) (pr pr' : α → Bool), l.Nodup → p ∈ l →
      pr p = false → pr' p = true → (∀ q ∈ l, q ≠ p → pr' q = pr q) →
      l.countP pr' = l.countP pr + 1 := by
  intro l
  induction l with
  | nil => intro p pr pr' _ hmem; cases hmem
  | cons a t ih =>
    intro p pr pr' hnd hmem hf ht hrest
    rcases List.mem_cons.mp hmem with rfl | hmem2
    · have hsame : t.countP pr' = t.countP pr := by
        apply countP_congr_mem
        intro q hq
        have hne : q ≠ p := by
          intro he
          rw [he] at hq
          exact (List.nodup_cons.mp hnd).1 hq
        exact hrest q (List.mem_cons_of_mem p hq) hne
      rw [List.countP_cons, List.countP_cons, hf, ht, hsame]
      simp
    · have hne : a ≠ p := by
        intro he
        rw [he] at hnd
        exact (List.nodup_cons.mp hnd).1 hmem2
      have ha : pr' a = pr a := hrest a (List.mem_cons_self a t) hne
      rw [List.countP_cons, List.countP_cons, ha,
        ih p pr pr' (List.nodup_cons.mp hnd).2 hmem2 hf ht
          (fun q hq hq2 => hrest q (List.mem_cons_of_mem a hq) hq2)]
      omega

theorem cellsRowMajor_mem (w h : Nat) (p : Int × Int) :
    p ∈ cellsRowMajor w h ↔ inBoundsWH w h p.1 p.2 = true := by
  obtain ⟨a, b⟩ := p
  unfold cellsRowMajor inBoundsWH
  simp only [List.mem_flatMap, List.mem_range, List.mem_map, Bool.and_eq_true,
    decide_eq_true_eq]
  constructor
  · rintro ⟨y, hy, x, hx, hxy⟩
    rw [Prod.mk.injEq] at hxy
    obtain ⟨e1, e2⟩ := hxy
    omega
  · intro hin
    exact ⟨b.toNat, by omega, a.toNat, by omega, by rw [Prod.mk.injEq]; constructor <;> omega⟩

theorem cellsRowMajor_nodup (w h : Nat) : (cellsRowMajor w h).Nodup := by
  unfold cellsRowMajor
  apply List.nodup_flatMap.mpr
  constructor
  · intro y _
    apply List.Nodup.map ?_ (List.nodup_range w)
    intro a b hab
    rw [Prod.mk.injEq] at hab
    exact_mod_cast hab.1
  · apply List.Pairwise.imp ?_ (List.nodup_range h)
    intro a b hab q hqa hqb
    simp only [List.mem_map, List.mem_range] at hqa hqb
    obtain ⟨x1, _, e1⟩ := hqa
    obtain ⟨x2, _, e2⟩ := hqb
    apply hab
    have f1 := congrArg Prod.snd e1
    have f2 := congrArg Prod.snd e2
    have f3 : (a : Int) = (b : Int) := f1.trans f2.symm
    exact_mod_cast f3

theorem cellsRowMajor_length (w h : Nat) : (cellsRowMajor w h).length = w * h := by
  unfold cellsRowMajor
  rw [List.length_flatMap]
  have e2 : (List.map (List.length ∘ fun (y : Nat) =>
      (List.range w).map (fun (x : Nat) => ((x : Int), (y : Int)))) (List.range h)).sum =
      ((List.range h).map (fun (_ : Nat) => w)).sum := by
    congr 1
    apply List.map_congr_left
    intro y _
    simp [Function.comp]
  rw [e2, List.map_const', List.length_range, List.sum_replicate, smul_eq_mul, Nat.mul_comm]

theorem cons_set_perm {α : Type} :
    ∀ (t : List α) (m : Nat) (b x : α), t.get? m = some b →
      (b :: t.set m x).Perm (x :: t) := by
  intro t
  induction t with
  | nil => intro m b x hm; simp at hm
  | cons y u ih =>
    intro m b x hm
    cases m with
    | zero =>
      have hb : y = b := Option.some_inj.mp hm
      rw [show (y :: u).set 0 x = x :: u from rfl, ← hb]
      exact List.Perm.swap x y u
    | succ m =>
      rw [show (y :: u).set (m + 1) x = y :: u.set m x from rfl]
      exact ((List.Perm.swap y b _).trans ((ih m b x hm).cons y)).trans (List.Perm.swap x y u)

theorem listSwap_perm {α : Type} :
    ∀ (l : List α) (i j : Nat), (Shapes.listSwap l i j).Perm l := by
  intro l
  induction l with
  | nil => intro i j; unfold Shapes.listSwap; simp
  | cons c t ih =>
    intro i j
    unfold Shapes.listSwap
    cases hi : (c :: t).get? i with
    | none => exact List.Perm.refl _
    | some a =>
      cases hj : (c :: t).get? j with
      | none => exact List.Perm.refl _
      | some b =>
        show (((c :: t).set i b).set j a).Perm (c :: t)
        cases i with
        | zero =>
          have ha : c = a := Option.some_inj.mp hi
          cases j with
          | zero =>
            rw [show ((c :: t).set 0 b).set 0 a = a :: t from rfl, ← ha]
          | succ m =>
            rw [show ((c :: t).set 0 b).set (m + 1) a = b :: t.set m a from rfl, ← ha]
            exact cons_set_perm t m b c hj
        | succ n =>
          cases j with
          | zero =>
            have hb : c = b := Option.some_inj.mp hj
            rw [show ((c :: t).set (n + 1) b).set 0 a = a :: t.set n b from rfl, ← hb]
            exact cons_set_perm t n a c hi
          | succ m =>
            rw [show ((c :: t).set (n + 1) b).set (m + 1) a = c :: (t.set n b).set m a from rfl]
            refine List.Perm.cons c ?_
            have hih := ih n m
            unfold Shapes.listSwap at hih
            rw [show t.get? n = some a from hi, show t.get? m = some b from hj] at hih
            exact hih

theorem fyLoop_perm {α : Type} :
    ∀ (k : Nat) (rng : List Nat) (l : List α), (Shapes.fyLoop k rng l).Perm l := by
  intro k
  induction k with
  | zero => intro rng l; exact List.Perm.refl l
  | succ k ih =>
    intro rng l
    rw [Shapes.fyLoop]
    exact (ih rng.tail _).trans (listSwap_perm l (k + 1) _)

theorem fisherYates_perm {α : Type} (rng : List Nat) (l : List α) :
    (Shapes.fisherYates rng l).Perm l :=
  fyLoop_perm (l.length - 1) rng l

theorem countP_add_countP_not {α : Type} (l : List α) (p : α → Bool) :
    l.countP p + l.countP (fun a => !(p a)) = l.length := by
  induction l with
  | nil => rfl
  | cons a t ih =>
    rw [List.countP_cons, List.countP_cons, List.length_cons]
    cases hv : p a <;> simp [hv] <;> omega

theorem sapper_placeLoop_count (ex ey : Int) (w h : Nat) :
    ∀ (stream : List (Int × Int)) (g : Int → Int → Int) (ml : List (Int × Int)) (need : Nat),
      stream.Nodup → (∀ p ∈ stream, p ∈ cellsRowMajor w h) →
      (cellsRowMajor w h).countP
          (fun p => (Sapper.placeLoop ex ey g ml need stream).1 p.1 p.2 == -1) =
        (cellsRowMajor w h).countP (fun p => g p.1 p.2 == -1) +
          min need (stream.countP (fun p =>
            !(Sapper.inExclusionZone ex ey p.1 p.2) && !(g p.1 p.2 == -1))) := by
  intro stream
  induction stream with
  | nil => intro g ml need _ _; simp [Sapper.placeLoop]
  | cons p rest ih =>
    intro g ml need hnd hmem
    by_cases hz : need = 0
    · rw [show Sapper.placeLoop ex ey g ml need (p :: rest) = (g, ml) from by
        rw [Sapper.placeLoop, if_pos hz]]
      simp [hz]
    · by_cases hex : Sapper.inExclusionZone ex ey p.1 p.2 = true
      · rw [show Sapper.placeLoop ex ey g ml need (p :: rest) =
          Sapper.placeLoop ex ey g ml need rest from by
          rw [Sapper.placeLoop, if_neg hz, if_pos hex]]
        rw [ih g ml need (List.nodup_cons.mp hnd).2
          (fun q hq => hmem q (List.mem_cons_of_mem p hq))]
        rw [List.countP_cons]
        simp [hex]
      · by_cases hm : g p.1 p.2 = -1
        · rw [show Sapper.placeLoop ex ey g ml need (p :: rest) =
            Sapper.placeLoop ex ey g ml need rest from by
            rw [Sapper.placeLoop, if_neg hz, if_neg hex, if_pos hm]]
          rw [ih g ml need (List.nodup_cons.mp hnd).2
            (fun q hq => hmem q (List.mem_cons_of_mem p hq))]
          rw [List.countP_cons]
          simp [hm]
        · rw [show Sapper.placeLoop ex ey g ml need (p :: rest) =
            Sapper.placeLoop ex ey (upd2 g p.1 p.2 (-1)) (ml ++ [p]) (need - 1) rest from by
            rw [Sapper.placeLoop, if_neg hz, if_neg hex, if_neg hm]]
          rw [ih (upd2 g p.1 p.2 (-1)) (ml ++ [p]) (need - 1) (List.nodup_cons.mp hnd).2
            (fun q hq => hmem q (List.mem_cons_of_mem p hq))]
          have hcount : (cellsRowMajor w h).countP
              (fun q => upd2 g p.1 p.2 (-1) q.1 q.2 == -1) =
              (cellsRowMajor w h).countP (fun q => g q.1 q.2 == -1) + 1 := by
            apply countP_update_true (cellsRowMajor w h) p _ _ (cellsRowMajor_nodup w h)
              (hmem p (List.mem_cons_self p rest))
            · simp [hm]
            · simp [upd2]
            · intro q _ hqp
              have hne : ¬(q.1 = p.1 ∧ q.2 = p.2) := by
                intro hc
                exact hqp (Prod.ext hc.1 hc.2)
              simp [upd2, hne]
          have hsame : rest.countP (fun q =>
              !(Sapper.inExclusionZone ex ey q.1 q.2) &&
                !(upd2 g p.1 p.2 (-1) q.1 q.2 == -1)) =
              rest.countP (fun q =>
              !(Sapper.inExclusionZone ex ey q.1 q.2) && !(g q.1 q.2 == -1)) := by
            apply countP_congr_mem
            intro q hq
            have hqp : q ≠ p := by
              intro he
              rw [he] at hq
              exact (List.nodup_cons.mp hnd).1 hq
            have hne : ¬(q.1 = p.1 ∧ q.2 = p.2) := by
              intro hc
              exact hqp (Prod.ext hc.1 hc.2)
            simp [upd2, hne]
          rw [hcount, hsame, List.countP_cons]
          have hp : (!(Sapper.inExclusionZone ex ey p.1 p.2) && !(g p.1 p.2 == -1)) = true := by
            simp [hex, hm]
          rw [hp, if_pos rfl]
          omega

theorem sapper_zone_count_le (w h : Nat) (ex ey : Int) :
    (cellsRowMajor w h).countP (fun p => Sapper.inExclusionZone ex ey p.1 p.2) ≤ 9 := by
  rw [List.countP_eq_length_filter]
  have hsub : (cellsRowMajor w h).filter (fun p => Sapper.inExclusionZone ex ey p.1 p.2) ⊆
      mooreNbrs ex ey ++ [(ex, ey)] := by
    intro q hq
    have h2 := List.of_mem_filter hq
    unfold Sapper.inExclusionZone at h2
    simp only [Bool.and_eq_true, decide_eq_true_eq] at h2
    simp only [mooreNbrs, mooreOffsets, List.map_cons, List.map_nil, List.mem_append,
      List.mem_cons, List.not_mem_nil, or_false, Prod.ext_iff]
    have hx : q.1 = ex - 1 ∨ q.1 = ex ∨ q.1 = ex + 1 := by omega
    have hy : q.2 = ey - 1 ∨ q.2 = ey ∨ q.2 = ey + 1 := by omega
    clear hq h2
    rcases hx with h3 | h3 | h3 <;> rcases hy with h4 | h4 | h4 <;>
      simp only [h3, h4] <;> norm_num <;> omega
  have hnd := (cellsRowMajor_nodup w h).filter
    (fun p => Sapper.inExclusionZone ex ey p.1 p.2)
  have hle := (List.subperm_of_subset hnd hsub).length_le
  simpa [mooreNbrs, mooreOffsets] using hle

theorem sapper_calcNumbers_count (w h : Nat) (g : Int → Int → Int) :
    (cellsRowMajor w h).countP (fun p => Sapper.calcNumbers w h g p.1 p.2 == -1) =
      (cellsRowMajor w h).countP (fun p => g p.1 p.2 == -1) := by
  apply countP_congr_mem
  intro p hp
  have hin : inBoundsWH w h p.1 p.2 = true := (cellsRowMajor_mem w h p).mp hp
  unfold Sapper.calcNumbers
  rw [if_pos hin]
  by_cases hm : g p.1 p.2 = -1
  · rw [if_pos hm]
  · rw [if_neg hm]
    have h1 : ((Sapper.countAdjacentMines w h g p.1 p.2 : Int) == -1) = false := by
      simp only [beq_eq_false_iff_ne, ne_eq]
      omega
    have h2 : (g p.1 p.2 == -1) = false := by simp [hm]
    rw [h1, h2]

theorem sapper_fullStream_map (w h : Nat) :
    (Sapper.fullStream w h).map (drawCell w h) = cellsRowMajor w h := by
  unfold Sapper.fullStream cellsRowMajor
  rw [List.map_flatMap]
  apply List.flatMap_congr
  intro b hb
  rw [List.map_map]
  apply List.map_congr_left
  intro a ha
  simp only [List.mem_range] at ha hb
  unfold drawCell
  simp only [Function.comp]
  rw [Nat.mod_eq_of_lt ha, Nat.mod_eq_of_lt hb]

theorem shapes_setMines_ml (ps : List (Int × Int)) :
    ∀ (cells : Int → Int → Shapes.Cell) (ml : List (Int × Int)),
      (Shapes.setMines cells ml ps).2 = ml ++ ps := by
  induction ps with
  | nil => intro cells ml; simp [Shapes.setMines]
  | cons q t ih =>
    intro cells ml
    rw [show Shapes.setMines cells ml (q :: t) =
      Shapes.setMines (upd2 cells q.1 q.2 { cells q.1 q.2 with mine := true })
        (ml ++ [q]) t from rfl]
    rw [ih]
    simp

theorem shapes_setMines_mine_iff (ps : List (Int × Int)) :
    ∀ (cells : Int → Int → Shapes.Cell) (ml : List (Int × Int)) (a b : Int),
      ((Shapes.setMines cells ml ps).1 a b).mine =
        ((cells a b).mine || decide ((a, b) ∈ ps)) := by
  induction ps with
  | nil => intro cells ml a b; simp [Shapes.setMines]
  | cons q t ih =>
    intro cells ml a b
    rw [show Shapes.setMines cells ml (q :: t) =
      Shapes.setMines (upd2 cells q.1 q.2 { cells q.1 q.2 with mine := true })
        (ml ++ [q]) t from rfl]
    rw [ih]
    by_cases hc : a = q.1 ∧ b = q.2
    · obtain ⟨ha, hb⟩ := hc
      subst ha
      subst hb
      simp [upd2]
    · have hne : ¬((a, b) = q) := by
        intro he
        exact hc ⟨(congrArg Prod.fst he).trans rfl, (congrArg Prod.snd he).trans rfl⟩
      simp [upd2, hc, hne]

theorem countP_mem_eq_length {α : Type} (l qs : List α) (p : α → Bool)
    (hl : l.Nodup) (hq : qs.Nodup) (hsub : qs ⊆ l)
    (hp : ∀ a, p a = true ↔ a ∈ qs) :
    l.countP p = qs.length := by
  rw [List.countP_eq_length_filter]
  have hperm : (l.filter p).Perm qs := by
    rw [List.perm_ext_iff_of_nodup (hl.filter _) hq]
    intro a
    rw [List.mem_filter]
    constructor
    · intro h2
      exact (hp a).mp h2.2
    · intro h2
      exact ⟨hsub h2, (hp a).mpr h2⟩
  exact hperm.length_eq

theorem shapes_validPositions_nodup (t : Topology) (ex ey : Int) :
    (Shapes.validPositions t ex ey).Nodup :=
  (cellsRowMajor_nodup t.width t.height).filter _

theorem shapes_validPositions_subset (t : Topology) (ex ey : Int) :
    Shapes.validPositions t ex ey ⊆ cellsRowMajor t.width t.height :=
  fun a ha => List.mem_of_mem_filter ha

theorem shapes_take_nodup (t : Topology) (rng : List Nat) (ex ey : Int) (n : Nat) :
    ((Shapes.fisherYates rng (Shapes.validPositions t ex ey)).take n).Nodup :=
  List.Nodup.sublist (List.take_sublist n _)
    ((fisherYates_perm rng _).nodup_iff.mpr (shapes_validPositions_nodup t ex ey))

theorem shapes_take_subset (t : Topology) (rng : List Nat) (ex ey : Int) (n : Nat) :
    (Shapes.fisherYates rng (Shapes.validPositions t ex ey)).take n ⊆
      cellsRowMajor t.width t.height :=
  fun a ha =>
    shapes_validPositions_subset t ex ey
      ((fisherYates_perm rng _).subset (List.take_subset n _ ha))

/-- C3: Random mine placement. Corrected form. Square engine: on a fresh
board, with a proposal stream covering every cell, placement puts exactly
min(totalMines, width*height - 9) mines - a fixed cap independent of the
click position, not the claimed min(totalMines, available outside the
exclusion zone). Shape engine: placement puts exactly
min(totalMines, validPositions.length) mines, the mine list is the
Fisher-Yates shuffle of the eligible positions truncated to that count,
and the shuffle is a permutation of the eligible positions. -/
theorem mine_count_placed :
    (∀ (w h tm : Nat) (ng : Bool) (ma : Nat) (ex ey : Int),
      Sapper.countMines (Sapper.placeMinesRandomly (Sapper.mkGame w h tm ng ma)
        (Sapper.fullStream w h) ex ey) = min tm (w * h - 9)) ∧
    (∀ (t : Topology) (tm : Nat) (ng : Bool) (ma : Nat) (rng : List Nat) (ex ey : Int),
      Shapes.countMines (Shapes.placeMinesRandomly (Shapes.mkGame t tm ng ma) rng ex ey) =
        min tm (Shapes.validPositions t ex ey).length ∧
      (Shapes.placeMinesRandomly (Shapes.mkGame t tm ng ma) rng ex ey).mineLocations =
        (Shapes.fisherYates rng (Shapes.validPositions t ex ey)).take
          (min tm (Shapes.validPositions t ex ey).length) ∧
      (Shapes.fisherYates rng (Shapes.validPositions t ex ey)).Perm
        (Shapes.validPositions t ex ey)) := by
  constructor
  · intro w h tm ng ma ex ey
    unfold Sapper.countMines
    simp only [Sapper.placeMinesRandomly, Sapper.mkGame, Sapper.mineCap]
    rw [sapper_fullStream_map, sapper_calcNumbers_count,
      sapper_placeLoop_count ex ey w h (cellsRowMajor w h) (fun _ _ => 0) []
        (min tm (w * h - 9)) (cellsRowMajor_nodup w h) (fun p hp => hp)]
    have h0 : (cellsRowMajor w h).countP
        (fun p => ((fun (_ _ : Int) => (0 : Int)) p.1 p.2 == -1)) = 0 := by
      rw [List.countP_eq_zero]
      intro a _
      simp
    have hE : (cellsRowMajor w h).countP (fun p =>
        !(Sapper.inExclusionZone ex ey p.1 p.2) &&
          !((fun (_ _ : Int) => (0 : Int)) p.1 p.2 == -1)) =
        (cellsRowMajor w h).countP (fun p => !(Sapper.inExclusionZone ex ey p.1 p.2)) := by
      apply countP_congr_mem
      intro a _
      simp
    rw [h0, hE]
    have hz := sapper_zone_count_le w h ex ey
    have hadd := countP_add_countP_not (cellsRowMajor w h)
      (fun p => Sapper.inExclusionZone ex ey p.1 p.2)
    rw [cellsRowMajor_length] at hadd
    omega
  · intro t tm ng ma rng ex ey
    refine ⟨?_, ?_, fisherYates_perm rng _⟩
    · unfold Shapes.countMines
      simp only [Shapes.placeMinesRandomly, Shapes.mkGame]
      have hmine : ∀ a ∈ cellsRowMajor t.width t.height,
          ((Shapes.calcCounts t
              (Shapes.setMines (fun _ _ => Shapes.Cell.empty) []
                ((Shapes.fisherYates rng (Shapes.validPositions t ex ey)).take
                  (min tm (Shapes.validPositions t ex ey).length))).1) a.1 a.2).mine =
            decide (a ∈ (Shapes.fisherYates rng (Shapes.validPositions t ex ey)).take
              (min tm (Shapes.validPositions t ex ey).length)) := by
        intro a _
        rw [shapes_calcCounts_mine, shapes_setMines_mine_iff]
        simp [Shapes.Cell.empty]
      rw [countP_congr_mem _ _ _ hmine]
      have hlen := countP_mem_eq_length (cellsRowMajor t.width t.height)
        ((Shapes.fisherYates rng (Shapes.validPositions t ex ey)).take
          (min tm (Shapes.validPositions t ex ey).length))
        (fun a => decide (a ∈ (Shapes.fisherYates rng (Shapes.validPositions t ex ey)).take
          (min tm (Shapes.validPositions t ex ey).length)))
        (cellsRowMajor_nodup t.width t.height)
        (shapes_take_nodup t rng ex ey _) (shapes_take_subset t rng ex ey _)
        (fun a => by simp)
      have hfin : ((Shapes.fisherYates rng (Shapes.validPositions t ex ey)).take
          (min tm (Shapes.validPositions t ex ey).length)).length =
          min tm (Shapes.validPositions t ex ey).length := by
        rw [List.length_take,
          (fisherYates_perm rng (Shapes.validPositions t ex ey)).length_eq]
        omega
      exact hlen.trans hfin
    · simp only [Shapes.placeMinesRandomly, Shapes.mkGame]
      rw [shapes_setMines_ml]
      simp

/-- C3 counterexample: on a 3 by 3 board with 5 requested mines, a corner
first click leaves 5 cells outside the exclusion zone, so the claim
demands min(5, 5) = 5 mines; the square engine's cap
min(totalMines, width*height - 9) = 0 places no mines at all, even with a
proposal stream offering every board cell. -/
theorem square_mine_count_counterexample :
    Sapper.countMines (Sapper.placeMinesRandomly (Sapper.mkGame 3 3 5 false 1)
      (Sapper.fullStream 3 3) 0 0) = 0 ∧
    min 5 (Sapper.availableOutsideZone (Sapper.mkGame 3 3 5 false 1) 0 0) = 5 := by
  constructor
  · decide
  · decide

/-- C3 witness: the amended count theorem instantiated on a 4 by 4 board
with 3 requested mines, where the cap min(3, 16 - 9) = 3 places all
3 mines. -/
theorem mine_count_placed_witness :
    Sapper.countMines (Sapper.placeMinesRandomly (Sapper.mkGame 4 4 3 false 1)
      (Sapper.fullStream 4 4) 0 0) = 3 := by
  have h := mine_count_placed.1 4 4 3 false 1 0 0
  rw [h]
  decide

theorem sapper_revealRec_hit (f : Nat) (s : Sapper.Game) (x y : Int)
    (h : (Sapper.revealRec f s x y).2.2 = true) : s.grid x y = -1 := by
  cases f with
  | zero => exact absurd h (by simp [Sapper.revealRec])
  | succ n =>
    rw [Sapper.revealRec] at h
    by_cases h3 : s.grid x y = -1
    · exact h3
    · exfalso
      by_cases h1 : Sapper.inB s x y = false <;>
        by_cases h2 : (s.revealed x y || s.flagged x y) = true <;>
          by_cases h4 : s.grid x y = 0 <;>
            simp [h1, h2, h3, h4] at h

theorem shapes_revealRec_hit (f : Nat) (s : Shapes.Game) (x y : Int)
    (h : (Shapes.revealRec f s x y).2.2 = true) : (s.cells x y).mine = true := by
  cases f with
  | zero => exact absurd h (by simp [Shapes.revealRec])
  | succ n =>
    rw [Shapes.revealRec] at h
    by_cases h3 : (s.cells x y).mine = true
    · exact h3
    · exfalso
      by_cases h1 : s.topo.inB x y = false <;>
        by_cases h2 : ((s.cells x y).revealed || (s.cells x y).flagged) = true <;>
          by_cases h4 : (s.cells x y).count = 0 <;>
            simp [h1, h2, h3, h4] at h

theorem sapper_revealRec_flags :
    ∀ (f : Nat) (s : Sapper.Game) (x y : Int),
      (Sapper.revealRec f s x y).1.gameOver = s.gameOver ∧
      (Sapper.revealRec f s x y).1.won = s.won := by
  intro f
  induction f with
  | zero => intro s x y; exact ⟨rfl, rfl⟩
  | succ f ih =>
    intro s x y
    have hfold : ∀ (l : List (Int × Int)) (acc : Sapper.Game × List (Int × Int)),
        ((l.foldl (fun (acc : Sapper.Game × List (Int × Int)) p =>
            let q := Sapper.revealRec f acc.1 p.1 p.2
            (q.1, acc.2 ++ q.2.1)) acc).1.gameOver = acc.1.gameOver ∧
         (l.foldl (fun (acc : Sapper.Game × List (Int × Int)) p =>
            let q := Sapper.revealRec f acc.1 p.1 p.2
            (q.1, acc.2 ++ q.2.1)) acc).1.won = acc.1.won) := by
      intro l
      induction l with
      | nil => intro acc; exact ⟨rfl, rfl⟩
      | cons p t iht =>
        intro acc
        rw [List.foldl_cons]
        obtain ⟨h1, h2⟩ := iht ((Sapper.revealRec f acc.1 p.1 p.2).1,
          acc.2 ++ (Sapper.revealRec f acc.1 p.1 p.2).2.1)
        obtain ⟨h3, h4⟩ := ih acc.1 p.1 p.2
        exact ⟨h1.trans h3, h2.trans h4⟩
    simp only [Sapper.revealRec]
    split
    · exact ⟨rfl, rfl⟩
    · split
      · exact ⟨rfl, rfl⟩
      · split
        · exact ⟨rfl, rfl⟩
        · split
          · exact hfold _ _
          · exact ⟨rfl, rfl⟩

theorem shapes_revealRec_flags :
    ∀ (f : Nat) (s : Shapes.Game) (x y : Int),
      (Shapes.revealRec f s x y).1.gameOver = s.gameOver ∧
      (Shapes.revealRec f s x y).1.won = s.won := by
  intro f
  induction f with
  | zero => intro s x y; exact ⟨rfl, rfl⟩
  | succ f ih =>
    intro s x y
    have hfold : ∀ (l : List (Int × Int)) (acc : Shapes.Game × List (Int × Int)),
        ((l.foldl (fun (acc : Shapes.Game × List (Int × Int)) p =>
            let q := Shapes.revealRec f acc.1 p.1 p.2
            (q.1, acc.2 ++ q.2.1)) acc).1.gameOver = acc.1.gameOver ∧
         (l.foldl (fun (acc : Shapes.Game × List (Int × Int)) p =>
            let q := Shapes.revealRec f acc.1 p.1 p.2
            (q.1, acc.2 ++ q.2.1)) acc).1.won = acc.1.won) := by
      intro l
      induction l with
      | nil => intro acc; exact ⟨rfl, rfl⟩
      | cons p t iht =>
        intro acc
        rw [List.foldl_cons]
        obtain ⟨h1, h2⟩ := iht ((Shapes.revealRec f acc.1 p.1 p.2).1,
          acc.2 ++ (Shapes.revealRec f acc.1 p.1 p.2).2.1)
        obtain ⟨h3, h4⟩ := ih acc.1 p.1 p.2
        exact ⟨h1.trans h3, h2.trans h4⟩
    simp only [Shapes.revealRec]
    split
    · exact ⟨rfl, rfl⟩
    · split
      · exact ⟨rfl, rfl⟩
      · split
        · exact ⟨rfl, rfl⟩
        · split
          · exact hfold _ _
          · exact ⟨rfl, rfl⟩

theorem inExclusionZone_self (x y : Int) : Sapper.inExclusionZone x y x y = true := by
  simp only [Sapper.inExclusionZone, Bool.and_eq_true, decide_eq_true_eq]
  omega

theorem sapper_revealCell_no_loss (s : Sapper.Game) (x y : Int)
    (hgo : s.gameOver = false) (hm : ¬(s.grid x y = -1)) :
    (Sapper.revealCell s x y).1.gameOver = true → (Sapper.revealCell s x y).1.won = true := by
  intro hG
  have hhit : (Sapper.revealRec (Sapper.revealFuel s) s x y).2.2 = false := by
    cases hv : (Sapper.revealRec (Sapper.revealFuel s) s x y).2.2 with
    | false => rfl
    | true => exact absurd (sapper_revealRec_hit _ s x y hv) hm
  by_cases hwin : Sapper.checkWin (Sapper.revealRec (Sapper.revealFuel s) s x y).1 = true
  · simp [Sapper.revealCell, hgo, hhit, hwin]
  · simp only [Sapper.revealCell, hgo, Bool.false_eq_true, if_false, hhit, hwin] at hG
    rw [(sapper_revealRec_flags (Sapper.revealFuel s) s x y).1, hgo] at hG
    exact absurd hG (by simp)

theorem shapes_revealCell_no_loss (s : Shapes.Game) (x y : Int)
    (hgo : s.gameOver = false) (hm : ¬((s.cells x y).mine = true)) :
    (Shapes.revealCell s x y).1.gameOver = true → (Shapes.revealCell s x y).1.won = true := by
  intro hG
  have hhit : (Shapes.revealRec (Shapes.revealFuel s) s x y).2.2 = false := by
    cases hv : (Shapes.revealRec (Shapes.revealFuel s) s x y).2.2 with
    | false => rfl
    | true => exact absurd (shapes_revealRec_hit _ s x y hv) hm
  by_cases hwin : Shapes.checkWin (Shapes.revealRec (Shapes.revealFuel s) s x y).1 = true
  · simp [Shapes.revealCell, hgo, hhit, hwin]
  · simp only [Shapes.revealCell, hgo, Bool.false_eq_true, if_false, hhit, hwin] at hG
    rw [(shapes_revealRec_flags (Shapes.revealFuel s) s x y).1, hgo] at hG
    exact absurd hG (by simp)

/-- C7: When no-guess generation exhausts every attempt, handleFirstClick
still terminates normally: it falls back to plain random placement, marks
minesPlaced, performs the ordinary first reveal, and reports success=false.
Corrected form: the game need not remain open, because the fallback first
reveal can immediately win the game (gameOver=true, won=true); a loss is
impossible since the clicked cell is never a mine, so gameOver implies won. -/
theorem fallback_after_exhaustion :
    (∀ (s : Sapper.Game) (ar : List (List (Nat × Nat))) (fr : List (Nat × Nat)) (x y : Int),
      s.minesPlaced = false → s.noGuess = true → s.gameOver = false →
      (∀ a b : Int, s.grid a b = 0) →
      Sapper.genLoop s.width s.height (Sapper.mineCap s) x y s.maxAttempts ar = none →
      Sapper.handleFirstClick s ar fr x y =
        ((Sapper.revealCell
            { Sapper.placeMinesRandomly s fr x y with minesPlaced := true } x y).1,
         ⟨false, (Sapper.revealCell
            { Sapper.placeMinesRandomly s fr x y with minesPlaced := true } x y).2.revealed⟩) ∧
      (Sapper.handleFirstClick s ar fr x y).1.minesPlaced = true ∧
      ((Sapper.handleFirstClick s ar fr x y).1.gameOver = true →
        (Sapper.handleFirstClick s ar fr x y).1.won = true)) ∧
    (∀ (s : Shapes.Game) (ar : List (List Nat)) (fr : List Nat) (x y : Int),
      s.minesPlaced = false → s.noGuess = true → s.gameOver = false →
      (∀ a b : Int, s.cells a b = Shapes.Cell.empty) →
      Shapes.genLoop s.topo (Shapes.validPositions s.topo x y)
        (min s.totalMines (Shapes.validPositions s.topo x y).length) x y s.maxAttempts ar
        = none →
      Shapes.handleFirstClick s ar fr x y =
        ((Shapes.revealCell
            { Shapes.placeMinesRandomly s fr x y with minesPlaced := true } x y).1,
         ⟨false, (Shapes.revealCell
            { Shapes.placeMinesRandomly s fr x y with minesPlaced := true } x y).2.revealed⟩) ∧
      (Shapes.handleFirstClick s ar fr x y).1.minesPlaced = true ∧
      ((Shapes.handleFirstClick s ar fr x y).1.gameOver = true →
        (Shapes.handleFirstClick s ar fr x y).1.won = true)) := by
  constructor
  · intro s ar fr x y hmp hng hgo hg hgen
    have hgsb : Sapper.generateSolvableBoard s ar fr x y =
        (Sapper.placeMinesRandomly s fr x y, false) := by
      simp [Sapper.generateSolvableBoard, hgen]
    have hexp : Sapper.handleFirstClick s ar fr x y =
        ((Sapper.revealCell
            { Sapper.placeMinesRandomly s fr x y with minesPlaced := true } x y).1,
         ⟨false, (Sapper.revealCell
            { Sapper.placeMinesRandomly s fr x y with minesPlaced := true } x y).2.revealed⟩) := by
      simp only [Sapper.handleFirstClick, hmp, Bool.false_eq_true, if_false, hng, if_true, hgsb]
    refine ⟨hexp, ?_, ?_⟩
    · rw [hexp]
      exact (sapper_revealCell_frame
        { Sapper.placeMinesRandomly s fr x y with minesPlaced := true } x y).minesPlaced
    · rw [hexp]
      apply sapper_revealCell_no_loss
      · exact hgo
      · intro hm
        have h2 := sapper_calcNumbers_mine s.width s.height _ x y hm
        rcases sapper_placeLoop_mine x y _ s.grid s.mineLocations (Sapper.mineCap s) x y h2 with
          h3 | h3
        · rw [hg x y] at h3
          exact absurd h3 (by omega)
        · exact absurd (inExclusionZone_self x y) (by rw [h3]; simp)
  · intro s ar fr x y hmp hng hgo hg hgen
    have hgsb : Shapes.generateSolvableBoard s ar fr x y =
        (Shapes.placeMinesRandomly s fr x y, false) := by
      simp [Shapes.generateSolvableBoard, hgen]
    have hexp : Shapes.handleFirstClick s ar fr x y =
        ((Shapes.revealCell
            { Shapes.placeMinesRandomly s fr x y with minesPlaced := true } x y).1,
         ⟨false, (Shapes.revealCell
            { Shapes.placeMinesRandomly s fr x y with minesPlaced := true } x y).2.revealed⟩) := by
      simp only [Shapes.handleFirstClick, hmp, Bool.false_eq_true, if_false, hng, if_true, hgsb]
    refine ⟨hexp, ?_, ?_⟩
    · rw [hexp]
      exact (shapes_revealCell_frame
        { Shapes.placeMinesRandomly s fr x y with minesPlaced := true } x y).minesPlaced
    · rw [hexp]
      apply shapes_revealCell_no_loss
      · exact hgo
      · intro hm
        have h2 := shapes_place_mine s fr x y (fun a b => by rw [hg a b]; rfl) x y hm
        exact absurd (shapes_validPositions_zone s.topo x y (x, y) h2).1 (by simp)

set_option maxRecDepth 10000 in
/-- C7 counterexample: 10 by 1 square board, 1 mine, noGuess with one
attempt. The attempt (mine at (2,0)) is not solvable by pure deduction, so
generation falls back to random placement (mine at (9,0)); the first reveal
at (0,0) then floods the whole mine-free stretch and wins at once, so the
returned game has gameOver=true with success=false, refuting the claim
that the game is left with gameOver=false. -/
theorem square_fallback_win_counterexample :
    (Sapper.handleFirstClick (Sapper.mkGame 10 1 1 true 1) [[(2, 0)]] [(9, 0)] 0 0).2.success
        = false ∧
    (Sapper.handleFirstClick (Sapper.mkGame 10 1 1 true 1) [[(2, 0)]] [(9, 0)] 0 0).1.gameOver
        = true ∧
    (Sapper.handleFirstClick (Sapper.mkGame 10 1 1 true 1) [[(2, 0)]] [(9, 0)] 0 0).1.won
        = true := by
  refine ⟨?_, ?_, ?_⟩ <;> decide

/-- C7 witness: the amended fallback theorem instantiated on concrete
fresh boards of both engines whose attempt budget is exhausted. -/
theorem fallback_after_exhaustion_witness :
    (Sapper.handleFirstClick (Sapper.mkGame 10 1 1 true 0) [] [(9, 0)] 0 0).1.minesPlaced
        = true ∧
    (Shapes.handleFirstClick (Shapes.mkGame (hexTopology 3 1) 1 true 0) [] [0] 0 0).1.minesPlaced
        = true :=
  ⟨(fallback_after_exhaustion.1 (Sapper.mkGame 10 1 1 true 0) [] [(9, 0)] 0 0
      rfl rfl rfl (fun _ _ => rfl) rfl).2.1,
   (fallback_after_exhaustion.2 (Shapes.mkGame (hexTopology 3 1) 1 true 0) [] [0] 0 0
      rfl rfl rfl (fun _ _ => rfl) rfl).2.1⟩

theorem sapper_ruleA_true :
    ∀ (hidden : List (Int × Int)) (st : Sapper.SimSt),
      (Sapper.ruleA st true hidden).2 = true := by
  intro hidden
  induction hidden with
  | nil => intro st; rfl
  | cons c t ih =>
    intro st
    by_cases hk : st.km c.1 c.2 = true
    · rw [show Sapper.ruleA st true (c :: t) = Sapper.ruleA st true t from by
        simp only [Sapper.ruleA, List.foldl_cons, hk, if_true]]
      exact ih st
    · rw [show Sapper.ruleA st true (c :: t) =
        Sapper.ruleA { st with km := upd2 st.km c.1 c.2 true } true t from by
        simp [Sapper.ruleA, List.foldl_cons, hk]]
      exact ih _

theorem sapper_ruleA_no_prog :
    ∀ (hidden : List (Int × Int)) (st : Sapper.SimSt) (prog : Bool),
      (Sapper.ruleA st prog hidden).2 = false →
      Sapper.ruleA st prog hidden = (st, prog) := by
  intro hidden
  induction hidden with
  | nil => intro st prog _; rfl
  | cons c t ih =>
    intro st prog h
    by_cases hk : st.km c.1 c.2 = true
    · rw [show Sapper.ruleA st prog (c :: t) = Sapper.ruleA st prog t from by
        simp only [Sapper.ruleA, List.foldl_cons, hk, if_true]] at h ⊢
      exact ih st prog h
    · rw [show Sapper.ruleA st prog (c :: t) =
        Sapper.ruleA { st with km := upd2 st.km c.1 c.2 true } true t from by
        simp [Sapper.ruleA, List.foldl_cons, hk]] at h
      rw [sapper_ruleA_true t _] at h
      exact absurd h (by simp)

theorem sapper_ruleB_true (w h : Nat) (g : Int → Int → Int) (fuel : Nat) :
    ∀ (hidden : List (Int × Int)) (st : Sapper.SimSt),
      (Sapper.ruleB w h g fuel st true hidden).2 = true := by
  intro hidden
  induction hidden with
  | nil => intro st; rfl
  | cons c t ih =>
    intro st
    rw [show Sapper.ruleB w h g fuel st true (c :: t) =
      Sapper.ruleB w h g fuel (Sapper.simReveal w h g fuel st c.1 c.2) true t from by
      simp only [Sapper.ruleB, List.foldl_cons]]
    exact ih _

theorem sapper_ruleB_ne_nil (w h : Nat) (g : Int → Int → Int) (fuel : Nat)
    (hidden : List (Int × Int)) (st : Sapper.SimSt) (prog : Bool)
    (hne : hidden ≠ []) : (Sapper.ruleB w h g fuel st prog hidden).2 = true := by
  cases hidden with
  | nil => exact absurd rfl hne
  | cons c t =>
    rw [show Sapper.ruleB w h g fuel st prog (c :: t) =
      Sapper.ruleB w h g fuel (Sapper.simReveal w h g fuel st c.1 c.2) true t from by
      simp only [Sapper.ruleB, List.foldl_cons]]
    exact sapper_ruleB_true w h g fuel t _

theorem sapper_cellPass_true (w h : Nat) (g : Int → Int → Int) (fuel : Nat)
    (acc : Sapper.SimSt × Bool) (p : Int × Int) (ht : acc.2 = true) :
    (Sapper.cellPass w h g fuel acc p).2 = true := by
  simp only [Sapper.cellPass]
  by_cases h1 : acc.1.rev p.1 p.2 = false
  · rw [if_pos h1]; exact ht
  · rw [if_neg h1]
    by_cases h2 : g p.1 p.2 ≤ 0
    · rw [if_pos h2]; exact ht
    · rw [if_neg h2]
      by_cases hA : 0 < (Sapper.neighborStats w h acc.1 p.1 p.2).1.length ∧
          ((Sapper.neighborStats w h acc.1 p.1 p.2).1.length : Int) =
            g p.1 p.2 - ((Sapper.neighborStats w h acc.1 p.1 p.2).2 : Int)
      · rw [if_pos hA, ht]
        by_cases hB : ((Sapper.neighborStats w h acc.1 p.1 p.2).2 : Int) = g p.1 p.2 ∧
            0 < (Sapper.neighborStats w h acc.1 p.1 p.2).1.length
        · rw [if_pos hB]
          rw [show (Sapper.ruleA acc.1 true (Sapper.neighborStats w h acc.1 p.1 p.2).1).2
              = true from sapper_ruleA_true _ _]
          exact sapper_ruleB_true w h g fuel _ _
        · rw [if_neg hB]
          exact sapper_ruleA_true _ _
      · rw [if_neg hA]
        by_cases hB : ((Sapper.neighborStats w h acc.1 p.1 p.2).2 : Int) = g p.1 p.2 ∧
            0 < (Sapper.neighborStats w h acc.1 p.1 p.2).1.length
        · rw [if_pos hB, ht]
          exact sapper_ruleB_true w h g fuel _ _
        · rw [if_neg hB]; exact ht

theorem sapper_cellPass_no_prog (w h : Nat) (g : Int → Int → Int) (fuel : Nat)
    (acc : Sapper.SimSt × Bool) (p : Int × Int)
    (hres : (Sapper.cellPass w h g fuel acc p).2 = false) :
    Sapper.cellPass w h g fuel acc p = acc := by
  simp only [Sapper.cellPass] at hres ⊢
  by_cases h1 : acc.1.rev p.1 p.2 = false
  · rw [if_pos h1]
  · rw [if_neg h1] at hres ⊢
    by_cases h2 : g p.1 p.2 ≤ 0
    · rw [if_pos h2]
    · rw [if_neg h2] at hres ⊢
      by_cases hB : ((Sapper.neighborStats w h acc.1 p.1 p.2).2 : Int) = g p.1 p.2 ∧
          0 < (Sapper.neighborStats w h acc.1 p.1 p.2).1.length
      · rw [if_pos hB] at hres
        rw [sapper_ruleB_ne_nil w h g fuel _ _ _
          (List.length_pos.mp hB.2)] at hres
        exact absurd hres (by simp)
      · rw [if_neg hB] at hres ⊢
        by_cases hA : 0 < (Sapper.neighborStats w h acc.1 p.1 p.2).1.length ∧
            ((Sapper.neighborStats w h acc.1 p.1 p.2).1.length : Int) =
              g p.1 p.2 - ((Sapper.neighborStats w h acc.1 p.1 p.2).2 : Int)
        · rw [if_pos hA] at hres ⊢
          rw [sapper_ruleA_no_prog _ _ _ hres]
        · rw [if_neg hA]

theorem sapper_passFold_true (w h : Nat) (g : Int → Int → Int) (fuel : Nat) :
    ∀ (l : List (Int × Int)) (acc : Sapper.SimSt × Bool), acc.2 = true →
      (l.foldl (Sapper.cellPass w h g fuel) acc).2 = true := by
  intro l
  induction l with
  | nil => intro acc ht; exact ht
  | cons p t ih =>
    intro acc ht
    rw [List.foldl_cons]
    exact ih _ (sapper_cellPass_true w h g fuel acc p ht)

theorem sapper_passFold_no_prog (w h : Nat) (g : Int → Int → Int) (fuel : Nat) :
    ∀ (l : List (Int × Int)) (acc : Sapper.SimSt × Bool),
      (l.foldl (Sapper.cellPass w h g fuel) acc).2 = false →
      l.foldl (Sapper.cellPass w h g fuel) acc = acc := by
  intro l
  induction l with
  | nil => intro acc _; rfl
  | cons p t ih =>
    intro acc hfo
    rw [List.foldl_cons] at hfo ⊢
    have hc : (Sapper.cellPass w h g fuel acc p).2 = false := by
      cases hv : (Sapper.cellPass w h g fuel acc p).2 with
      | false => rfl
      | true =>
        rw [sapper_passFold_true w h g fuel t _ hv] at hfo
        exact absurd hfo (by simp)
    rw [sapper_cellPass_no_prog w h g fuel acc p hc] at hfo ⊢
    exact ih acc hfo

theorem sapper_solvePass_no_prog (w h : Nat) (g : Int → Int → Int) (fuel : Nat)
    (st : Sapper.SimSt) (hfo : (Sapper.solvePass w h g fuel st).2 = false) :
    Sapper.solvePass w h g fuel st = (st, false) :=
  sapper_passFold_no_prog w h g fuel (cellsRowMajor w h) (st, false) hfo

theorem sapper_solveLoop_fixed (w h : Nat) (g : Int → Int → Int) (fuel : Nat) :
    ∀ (n : Nat) (st stf : Sapper.SimSt),
      Sapper.solveLoop w h g fuel n st = some stf →
      Sapper.solvePass w h g fuel stf = (stf, false) := by
  intro n
  induction n with
  | zero => intro st stf hso; exact absurd hso (by simp [Sapper.solveLoop])
  | succ n ih =>
    intro st stf hso
    rw [Sapper.solveLoop] at hso
    by_cases hr : (Sapper.solvePass w h g fuel st).2 = true
    · rw [if_pos hr] at hso
      exact ih _ stf hso
    · rw [if_neg hr] at hso
      have hr2 : (Sapper.solvePass w h g fuel st).2 = false := by
        cases hv : (Sapper.solvePass w h g fuel st).2 with
        | false => rfl
        | true => exact absurd hv hr
      have hfix := sapper_solvePass_no_prog w h g fuel st hr2
      have hst : stf = st := by
        have h2 : (Sapper.solvePass w h g fuel st).1 = st := by rw [hfix]
        rw [h2] at hso
        exact (Option.some_inj.mp hso).symm
      rw [hst]
      exact hfix

theorem sapper_genLoop_solvable (w h mm : Nat) (ex ey : Int) :
    ∀ (n : Nat) (rngs : List (List (Nat × Nat))) (t : (Int → Int → Int) × List (Int × Int)),
      Sapper.genLoop w h mm ex ey n rngs = some t →
      Sapper.simulateSolve w h t.1 ex ey = true := by
  intro n
  induction n with
  | zero => intro rngs t ht; exact absurd ht (by simp [Sapper.genLoop])
  | succ n ih =>
    intro rngs t ht
    rw [Sapper.genLoop] at ht
    by_cases hs : Sapper.simulateSolve w h
        (Sapper.buildTrial w h mm ex ey (rngs.headD [])).1 ex ey = true
    · rw [if_pos hs] at ht
      rw [← Option.some_inj.mp ht]
      exact hs
    · rw [if_neg hs] at ht
      exact ih rngs.tail t ht

theorem shapes_ruleA_true :
    ∀ (hidden : List (Int × Int)) (st : Shapes.SimSt),
      (Shapes.ruleA st true hidden).2 = true := by
  intro hidden
  induction hidden with
  | nil => intro st; rfl
  | cons c t ih =>
    intro st
    by_cases hk : st.km c.1 c.2 = true
    · rw [show Shapes.ruleA st true (c :: t) = Shapes.ruleA st true t from by
        simp only [Shapes.ruleA, List.foldl_cons, hk, if_true]]
      exact ih st
    · rw [show Shapes.ruleA st true (c :: t) =
        Shapes.ruleA { st with km := upd2 st.km c.1 c.2 true } true t from by
        simp [Shapes.ruleA, List.foldl_cons, hk]]
      exact ih _

theorem shapes_ruleA_no_prog :
    ∀ (hidden : List (Int × Int)) (st : Shapes.SimSt) (prog : Bool),
      (Shapes.ruleA st prog hidden).2 = false →
      Shapes.ruleA st prog hidden = (st, prog) := by
  intro hidden
  induction hidden with
  | nil => intro st prog _; rfl
  | cons c t ih =>
    intro st prog hpr
    by_cases hk : st.km c.1 c.2 = true
    · rw [show Shapes.ruleA st prog (c :: t) = Shapes.ruleA st prog t from by
        simp only [Shapes.ruleA, List.foldl_cons, hk, if_true]] at hpr ⊢
      exact ih st prog hpr
    · rw [show Shapes.ruleA st prog (c :: t) =
        Shapes.ruleA { st with km := upd2 st.km c.1 c.2 true } true t from by
        simp [Shapes.ruleA, List.foldl_cons, hk]] at hpr
      rw [shapes_ruleA_true t _] at hpr
      exact absurd hpr (by simp)

theorem shapes_ruleB_true (t : Topology) (g : Int → Int → Shapes.Cell) (fuel : Nat) :
    ∀ (hidden : List (Int × Int)) (st : Shapes.SimSt),
      (Shapes.ruleB t g fuel st true hidden).2 = true := by
  intro hidden
  induction hidden with
  | nil => intro st; rfl
  | cons c l ih =>
    intro st
    rw [show Shapes.ruleB t g fuel st true (c :: l) =
      Shapes.ruleB t g fuel (Shapes.simReveal t g fuel st c.1 c.2) true l from by
      simp only [Shapes.ruleB, List.foldl_cons]]
    exact ih _

theorem shapes_ruleB_ne_nil (t : Topology) (g : Int → Int → Shapes.Cell) (fuel : Nat)
    (hidden : List (Int × Int)) (st : Shapes.SimSt) (prog : Bool)
    (hne : hidden ≠ []) : (Shapes.ruleB t g fuel st prog hidden).2 = true := by
  cases hidden with
  | nil => exact absurd rfl hne
  | cons c l =>
    rw [show Shapes.ruleB t g fuel st prog (c :: l) =
      Shapes.ruleB t g fuel (Shapes.simReveal t g fuel st c.1 c.2) true l from by
      simp only [Shapes.ruleB, List.foldl_cons]]
    exact shapes_ruleB_true t g fuel l _

theorem shapes_cellPass_true (t : Topology) (g : Int → Int → Shapes.Cell) (fuel : Nat)
    (acc : Shapes.SimSt × Bool) (p : Int × Int) (ht : acc.2 = true) :
    (Shapes.cellPass t g fuel acc p).2 = true := by
  simp only [Shapes.cellPass]
  by_cases h1 : acc.1.rev p.1 p.2 = false
  · rw [if_pos h1]; exact ht
  · rw [if_neg h1]
    by_cases h2 : (g p.1 p.2).count = 0
    · rw [if_pos h2]; exact ht
    · rw [if_neg h2]
      by_cases hA : 0 < (Shapes.neighborStats t acc.1 p.1 p.2).1.length ∧
          ((Shapes.neighborStats t acc.1 p.1 p.2).1.length : Int) =
            ((g p.1 p.2).count : Int) - ((Shapes.neighborStats t acc.1 p.1 p.2).2 : Int)
      · rw [if_pos hA, ht]
        by_cases hB : (Shapes.neighborStats t acc.1 p.1 p.2).2 = (g p.1 p.2).count ∧
            0 < (Shapes.neighborStats t acc.1 p.1 p.2).1.length
        · rw [if_pos hB]
          rw [show (Shapes.ruleA acc.1 true (Shapes.neighborStats t acc.1 p.1 p.2).1).2
              = true from shapes_ruleA_true _ _]
          exact shapes_ruleB_true t g fuel _ _
        · rw [if_neg hB]
          exact shapes_ruleA_true _ _
      · rw [if_neg hA]
        by_cases hB : (Shapes.neighborStats t acc.1 p.1 p.2).2 = (g p.1 p.2).count ∧
            0 < (Shapes.neighborStats t acc.1 p.1 p.2).1.length
        · rw [if_pos hB, ht]
          exact shapes_ruleB_true t g fuel _ _
        · rw [if_neg hB]; exact ht

theorem shapes_cellPass_no_prog (t : Topology) (g : Int → Int → Shapes.Cell) (fuel : Nat)
    (acc : Shapes.SimSt × Bool) (p : Int × Int)
    (hres : (Shapes.cellPass t g fuel acc p).2 = false) :
    Shapes.cellPass t g fuel acc p = acc := by
  simp only [Shapes.cellPass] at hres ⊢
  by_cases h1 : acc.1.rev p.1 p.2 = false
  · rw [if_pos h1]
  · rw [if_neg h1] at hres ⊢
    by_cases h2 : (g p.1 p.2).count = 0
    · rw [if_pos h2]
    · rw [if_neg h2] at hres ⊢
      by_cases hB : (Shapes.neighborStats t acc.1 p.1 p.2).2 = (g p.1 p.2).count ∧
          0 < (Shapes.neighborStats t acc.1 p.1 p.2).1.length
      · rw [if_pos hB] at hres
        rw [shapes_ruleB_ne_nil t g fuel _ _ _
          (List.length_pos.mp hB.2)] at hres
        exact absurd hres (by simp)
      · rw [if_neg hB] at hres ⊢
        by_cases hA : 0 < (Shapes.neighborStats t acc.1 p.1 p.2).1.length ∧
            ((Shapes.neighborStats t acc.1 p.1 p.2).1.length : Int) =
              ((g p.1 p.2).count : Int) - ((Shapes.neighborStats t acc.1 p.1 p.2).2 : Int)
        · rw [if_pos hA] at hres ⊢
          rw [shapes_ruleA_no_prog _ _ _ hres]
        · rw [if_neg hA]

theorem shapes_passFold_true (t : Topology) (g : Int → Int → Shapes.Cell) (fuel : Nat) :
    ∀ (l : List (Int × Int)) (acc : Shapes.SimSt × Bool), acc.2 = true →
      (l.foldl (Shapes.cellPass t g fuel) acc).2 = true := by
  intro l
  induction l with
  | nil => intro acc ht; exact ht
  | cons p l2 ih =>
    intro acc ht
    rw [List.foldl_cons]
    exact ih _ (shapes_cellPass_true t g fuel acc p ht)

theorem shapes_passFold_no_prog (t : Topology) (g : Int → Int → Shapes.Cell) (fuel : Nat) :
    ∀ (l : List (Int × Int)) (acc : Shapes.SimSt × Bool),
      (l.foldl (Shapes.cellPass t g fuel) acc).2 = false →
      l.foldl (Shapes.cellPass t g fuel) acc = acc := by
  intro l
  induction l with
  | nil => intro acc _; rfl
  | cons p l2 ih =>
    intro acc hfo
    rw [List.foldl_cons] at hfo ⊢
    have hc : (Shapes.cellPass t g fuel acc p).2 = false := by
      cases hv : (Shapes.cellPass t g fuel acc p).2 with
      | false => rfl
      | true =>
        rw [shapes_passFold_true t g fuel l2 _ hv] at hfo
        exact absurd hfo (by simp)
    rw [shapes_cellPass_no_prog t g fuel acc p hc] at hfo ⊢
    exact ih acc hfo

theorem shapes_solvePass_no_prog (t : Topology) (g : Int → Int → Shapes.Cell) (fuel : Nat)
    (st : Shapes.SimSt) (hfo : (Shapes.solvePass t g fuel st).2 = false) :
    Shapes.solvePass t g fuel st = (st, false) :=
  shapes_passFold_no_prog t g fuel (cellsRowMajor t.width t.height) (st, false) hfo

theorem shapes_solveLoop_fixed (t : Topology) (g : Int → Int → Shapes.Cell) (fuel : Nat) :
    ∀ (n : Nat) (st stf : Shapes.SimSt),
      Shapes.solveLoop t g fuel n st = some stf →
      Shapes.solvePass t g fuel stf = (stf, false) := by
  intro n
  induction n with
  | zero => intro st stf hso; exact absurd hso (by simp [Shapes.solveLoop])
  | succ n ih =>
    intro st stf hso
    rw [Shapes.solveLoop] at hso
    by_cases hr : (Shapes.solvePass t g fuel st).2 = true
    · rw [if_pos hr] at hso
      exact ih _ stf hso
    · rw [if_neg hr] at hso
      have hr2 : (Shapes.solvePass t g fuel st).2 = false := by
        cases hv : (Shapes.solvePass t g fuel st).2 with
        | false => rfl
        | true => exact absurd hv hr
      have hfix := shapes_solvePass_no_prog t g fuel st hr2
      have hst : stf = st := by
        have h2 : (Shapes.solvePass t g fuel st).1 = st := by rw [hfix]
        rw [h2] at hso
        exact (Option.some_inj.mp hso).symm
      rw [hst]
      exact hfix

theorem shapes_genLoop_solvable (t : Topology) (ap : List (Int × Int)) (mm : Nat)
    (ex ey : Int) :
    ∀ (n : Nat) (rngs : List (List Nat)) (tr : (Int → Int → Shapes.Cell) × List (Int × Int)),
      Shapes.genLoop t ap mm ex ey n rngs = some tr →
      Shapes.simulateSolve t tr.1 ex ey = true := by
  intro n
  induction n with
  | zero => intro rngs tr ht; exact absurd ht (by simp [Shapes.genLoop])
  | succ n ih =>
    intro rngs tr ht
    rw [Shapes.genLoop] at ht
    by_cases hs : Shapes.simulateSolve t
        (Shapes.buildTrial t ap mm (rngs.headD [])).1 ex ey = true
    · rw [if_pos hs] at ht
      rw [← Option.some_inj.mp ht]
      exact hs
    · rw [if_neg hs] at ht
      exact ih rngs.tail tr ht

/-- C1: On a noGuess board whose first click reports success=true, the
committed mine layout is solvable by pure deduction. Square engine: the
committed grid itself passes simulateSolve, i.e. the solver loop (first
click flood fill, then Rules A and B repeated) reaches a state that is a
fixed point of the pass and in which every non-mine cell is revealed.
Shape engine: the committed cells carry exactly the mine and count fields
of a trial layout accepted by genLoop, and that layout likewise passes
simulateSolve with a fixed-point state revealing every non-mine cell. -/
theorem no_guess_success_solvable :
    (∀ (s : Sapper.Game) (ar : List (List (Nat × Nat))) (fr : List (Nat × Nat)) (x y : Int),
      s.noGuess = true → s.minesPlaced = false →
      (Sapper.handleFirstClick s ar fr x y).2.success = true →
      Sapper.simulateSolve s.width s.height
          (Sapper.handleFirstClick s ar fr x y).1.grid x y = true ∧
      ∃ stf : Sapper.SimSt,
        Sapper.solveLoop s.width s.height (Sapper.handleFirstClick s ar fr x y).1.grid
            (s.width * s.height + 1) (2 * s.width * s.height + 2)
            (Sapper.simStart s.width s.height
              (Sapper.handleFirstClick s ar fr x y).1.grid x y) = some stf ∧
        Sapper.solvePass s.width s.height (Sapper.handleFirstClick s ar fr x y).1.grid
            (s.width * s.height + 1) stf = (stf, false) ∧
        ∀ p ∈ cellsRowMajor s.width s.height,
          ¬((Sapper.handleFirstClick s ar fr x y).1.grid p.1 p.2 = -1) →
          stf.rev p.1 p.2 = true) ∧
    (∀ (s : Shapes.Game) (ar : List (List Nat)) (fr : List Nat) (x y : Int),
      s.noGuess = true → s.minesPlaced = false →
      (Shapes.handleFirstClick s ar fr x y).2.success = true →
      ∃ tr : (Int → Int → Shapes.Cell) × List (Int × Int),
        Shapes.genLoop s.topo (Shapes.validPositions s.topo x y)
            (min s.totalMines (Shapes.validPositions s.topo x y).length) x y
            s.maxAttempts ar = some tr ∧
        (∀ a b : Int, s.topo.inB a b = true →
          ((Shapes.handleFirstClick s ar fr x y).1.cells a b).mine = (tr.1 a b).mine ∧
          ((Shapes.handleFirstClick s ar fr x y).1.cells a b).count = (tr.1 a b).count) ∧
        Shapes.simulateSolve s.topo tr.1 x y = true ∧
        ∃ stf : Shapes.SimSt,
          Shapes.solveLoop s.topo tr.1 (s.topo.width * s.topo.height + 1)
              (2 * s.topo.width * s.topo.height + 2)
              (Shapes.simStart s.topo tr.1 x y) = some stf ∧
          Shapes.solvePass s.topo tr.1 (s.topo.width * s.topo.height + 1) stf
              = (stf, false) ∧
          ∀ p ∈ cellsRowMajor s.topo.width s.topo.height,
            ¬((tr.1 p.1 p.2).mine = true) → stf.rev p.1 p.2 = true) := by
  constructor
  · intro s ar fr x y hng hmp hsucc
    cases hgen : Sapper.genLoop s.width s.height (Sapper.mineCap s) x y s.maxAttempts ar with
    | none =>
      exfalso
      have hfb : Sapper.generateSolvableBoard s ar fr x y =
          (Sapper.placeMinesRandomly s fr x y, false) := by
        simp [Sapper.generateSolvableBoard, hgen]
      have hsf : (Sapper.handleFirstClick s ar fr x y).2.success = false := by
        simp only [Sapper.handleFirstClick, hmp, Bool.false_eq_true, if_false, hng,
          if_true, hfb]
      exact absurd (hsf.symm.trans hsucc) (by simp)
    | some t =>
      have hgsb : Sapper.generateSolvableBoard s ar fr x y =
          ({ s with grid := t.1, mineLocations := t.2 }, true) := by
        simp [Sapper.generateSolvableBoard, hgen]
      have hexp : (Sapper.handleFirstClick s ar fr x y).1 =
          (Sapper.revealCell
            { (Sapper.generateSolvableBoard s ar fr x y).1 with minesPlaced := true }
            x y).1 := by
        simp only [Sapper.handleFirstClick, hmp, Bool.false_eq_true, if_false, hng, if_true]
      have hgrid : (Sapper.handleFirstClick s ar fr x y).1.grid = t.1 := by
        rw [hexp, (sapper_revealCell_frame _ x y).grid, hgsb]
      have hsolve := sapper_genLoop_solvable s.width s.height (Sapper.mineCap s) x y
        s.maxAttempts ar t hgen
      rw [← hgrid] at hsolve
      refine ⟨hsolve, ?_⟩
      have h2 := hsolve
      simp only [Sapper.simulateSolve] at h2
      cases hsl : Sapper.solveLoop s.width s.height
          (Sapper.handleFirstClick s ar fr x y).1.grid (s.width * s.height + 1)
          (2 * s.width * s.height + 2)
          (Sapper.simStart s.width s.height
            (Sapper.handleFirstClick s ar fr x y).1.grid x y) with
      | none =>
        rw [hsl] at h2
        exact absurd h2 (by simp)
      | some stf =>
        rw [hsl] at h2
        refine ⟨stf, rfl, sapper_solveLoop_fixed s.width s.height _ _ _ _ stf hsl, ?_⟩
        intro p hp hmz
        have h3 := List.all_eq_true.mp h2 p hp
        simp only [Bool.or_eq_true, beq_iff_eq] at h3
        rcases h3 with h3 | h3
        · exact absurd h3 hmz
        · exact h3
  · intro s ar fr x y hng hmp hsucc
    cases hgen : Shapes.genLoop s.topo (Shapes.validPositions s.topo x y)
        (min s.totalMines (Shapes.validPositions s.topo x y).length) x y
        s.maxAttempts ar with
    | none =>
      exfalso
      have hfb : Shapes.generateSolvableBoard s ar fr x y =
          (Shapes.placeMinesRandomly s fr x y, false) := by
        simp [Shapes.generateSolvableBoard, hgen]
      have hsf : (Shapes.handleFirstClick s ar fr x y).2.success = false := by
        simp only [Shapes.handleFirstClick, hmp, Bool.false_eq_true, if_false, hng,
          if_true, hfb]
      exact absurd (hsf.symm.trans hsucc) (by simp)
    | some tr =>
      have hcells : (Shapes.generateSolvableBoard s ar fr x y).1.cells =
          fun a b => if s.topo.inB a b then { s.cells a b with mine := (tr.1 a b).mine, count := (tr.1 a b).count } else s.cells a b := by
        simp [Shapes.generateSolvableBoard, hgen]
      have hexp : (Shapes.handleFirstClick s ar fr x y).1 =
          (Shapes.revealCell
            { (Shapes.generateSolvableBoard s ar fr x y).1 with minesPlaced := true }
            x y).1 := by
        simp only [Shapes.handleFirstClick, hmp, Bool.false_eq_true, if_false, hng, if_true]
      have hfr := shapes_revealCell_frame
        { (Shapes.generateSolvableBoard s ar fr x y).1 with minesPlaced := true } x y
      refine ⟨tr, rfl, ?_, ?_⟩
      · intro a b hab
        have hcab : (Shapes.generateSolvableBoard s ar fr x y).1.cells a b =
            { s.cells a b with mine := (tr.1 a b).mine, count := (tr.1 a b).count } := by
          rw [hcells]
          simp [hab]
        constructor
        · rw [hexp, hfr.mine a b]
          rw [show ({ (Shapes.generateSolvableBoard s ar fr x y).1 with
              minesPlaced := true } : Shapes.Game).cells a b =
            (Shapes.generateSolvableBoard s ar fr x y).1.cells a b from rfl, hcab]
        · rw [hexp, hfr.count a b]
          rw [show ({ (Shapes.generateSolvableBoard s ar fr x y).1 with
              minesPlaced := true } : Shapes.Game).cells a b =
            (Shapes.generateSolvableBoard s ar fr x y).1.cells a b from rfl, hcab]
      · have hsolve := shapes_genLoop_solvable s.topo (Shapes.validPositions s.topo x y)
          (min s.totalMines (Shapes.validPositions s.topo x y).length) x y
          s.maxAttempts ar tr hgen
        refine ⟨hsolve, ?_⟩
        have h2 := hsolve
        simp only [Shapes.simulateSolve] at h2
        cases hsl : Shapes.solveLoop s.topo tr.1 (s.topo.width * s.topo.height + 1)
            (2 * s.topo.width * s.topo.height + 2)
            (Shapes.simStart s.topo tr.1 x y) with
        | none =>
          rw [hsl] at h2
          exact absurd h2 (by simp)
        | some stf =>
          rw [hsl] at h2
          refine ⟨stf, rfl, shapes_solveLoop_fixed s.topo _ _ _ _ stf hsl, ?_⟩
          intro p hp hmz
          have h3 := List.all_eq_true.mp h2 p hp
          simp only [Bool.or_eq_true] at h3
          rcases h3 with h3 | h3
          · exact absurd h3 hmz
          · exact h3

set_option maxRecDepth 10000 in
/-- C1 witness: the solvability theorem instantiated on a 3 by 3 square
noGuess board (mine cap 0, trivially deducible) and a 2 by 2 hex noGuess
board with 0 mines. -/
theorem no_guess_success_solvable_witness :
    Sapper.simulateSolve 3 3
      (Sapper.handleFirstClick (Sapper.mkGame 3 3 5 true 1) [[]] [] 0 0).1.grid 0 0
        = true ∧
    ∃ tr : (Int → Int → Shapes.Cell) × List (Int × Int),
      Shapes.genLoop (hexTopology 2 2) (Shapes.validPositions (hexTopology 2 2) 0 0)
          (min 0 (Shapes.validPositions (hexTopology 2 2) 0 0).length) 0 0 1 [[]]
        = some tr ∧
      Shapes.simulateSolve (hexTopology 2 2) tr.1 0 0 = true := by
  refine ⟨(no_guess_success_solvable.1 (Sapper.mkGame 3 3 5 true 1) [[]] [] 0 0
    rfl rfl (by decide)).1, ?_⟩
  obtain ⟨tr, h1, _, h3, _⟩ := no_guess_success_solvable.2
    (Shapes.mkGame (hexTopology 2 2) 0 true 1) [[]] [] 0 0 rfl rfl (by decide)
  exact ⟨tr, h1, h3⟩

theorem mem_nums (n : Nat) : n ∈ Sudoku.nums ↔ 1 ≤ n ∧ n ≤ 9 := by
  simp [Sudoku.nums]
  omega

theorem rcAll_mem (p : Nat × Nat) : p ∈ Sudoku.rcAll ↔ p.1 < 9 ∧ p.2 < 9 := by
  obtain ⟨a, b⟩ := p
  unfold Sudoku.rcAll
  simp only [List.mem_flatMap, List.mem_range, List.mem_map]
  constructor
  · rintro ⟨r, hr, c, hc, hrc⟩
    rw [Prod.mk.injEq] at hrc
    obtain ⟨e1, e2⟩ := hrc
    omega
  · intro hin
    exact ⟨a, hin.1, b, hin.2, rfl⟩

theorem rcAll_nodup : Sudoku.rcAll.Nodup := by
  unfold Sudoku.rcAll
  apply List.nodup_flatMap.mpr
  constructor
  · intro r _
    apply List.Nodup.map ?_ (List.nodup_range 9)
    intro a b hab
    rw [Prod.mk.injEq] at hab
    exact hab.2
  · apply List.Pairwise.imp ?_ (List.nodup_range 9)
    intro a b hab q hqa hqb
    simp only [List.mem_map, List.mem_range] at hqa hqb
    obtain ⟨x1, _, e1⟩ := hqa
    obtain ⟨x2, _, e2⟩ := hqb
    apply hab
    have f1 := congrArg Prod.fst e1
    have f2 := congrArg Prod.fst e2
    exact f1.trans f2.symm

theorem gridEq_refl (b : Sudoku.Board) : Sudoku.gridEq b b = true := by
  simp [Sudoku.gridEq, List.all_eq_true]

theorem findFirstEmpty_none (b : Sudoku.Board) (hs : Sudoku.isSolved b = true) :
    Sudoku.findFirstEmpty b = none := by
  apply List.find?_eq_none.mpr
  intro p hp
  have h2 := List.all_eq_true.mp hs p hp
  simp only [Bool.not_eq_eq_eq_not, Bool.not_true] at h2
  simp [h2]

theorem findFirstEmpty_some (b : Sudoku.Board) (r c : Nat)
    (h : Sudoku.findFirstEmpty b = some (r, c)) :
    r < 9 ∧ c < 9 ∧ b r c = 0 := by
  have h1 := List.mem_of_find?_eq_some h
  have h2 := List.find?_some h
  rw [rcAll_mem] at h1
  simp only [beq_iff_eq] at h2
  exact ⟨h1.1, h1.2, h2⟩

theorem empty_count_bupd (b : Sudoku.Board) (r c n : Nat)
    (hr : r < 9) (hc : c < 9) (hb : b r c = 0) (hn : ¬(n = 0)) :
    Sudoku.rcAll.countP (fun p => b p.1 p.2 == 0) =
      Sudoku.rcAll.countP (fun p => Sudoku.bupd b r c n p.1 p.2 == 0) + 1 := by
  apply countP_update_true Sudoku.rcAll (r, c)
    (fun p => Sudoku.bupd b r c n p.1 p.2 == 0) (fun p => b p.1 p.2 == 0)
    rcAll_nodup ((rcAll_mem (r, c)).mpr ⟨hr, hc⟩)
  · simp [Sudoku.bupd, hn]
  · simp [hb]
  · intro q _ hq
    have hne : ¬(q.1 = r ∧ q.2 = c) := by
      intro hcon
      exact hq (Prod.ext hcon.1 hcon.2)
    simp [Sudoku.bupd, hne]

theorem isValidPlacement_iff (b : Sudoku.Board) (row col num : Nat) :
    Sudoku.isValidPlacement b row col num = true ↔
      (∀ c0, c0 < 9 → c0 = col ∨ ¬(b row c0 = num)) ∧
      (∀ r0, r0 < 9 → r0 = row ∨ ¬(b r0 col = num)) ∧
      (∀ dr, dr < 3 → ∀ dc, dc < 3 →
        (row / 3 * 3 + dr = row ∧ col / 3 * 3 + dc = col) ∨
        ¬(b (row / 3 * 3 + dr) (col / 3 * 3 + dc) = num)) := by
  simp [Sudoku.isValidPlacement, List.all_eq_true, Bool.or_eq_true, beq_iff_eq,
    Bool.not_eq_true', beq_eq_false_iff_ne]
  tauto

theorem isValidSolution_cell (sol : Sudoku.Board) (hs : Sudoku.isValidSolution sol = true)
    (r c : Nat) (hr : r < 9) (hc : c < 9) :
    ¬(sol r c = 0) ∧ Sudoku.isValidPlacement sol r c (sol r c) = true := by
  unfold Sudoku.isValidSolution at hs
  rw [Bool.and_eq_true] at hs
  constructor
  · have h2 := List.all_eq_true.mp hs.1 (r, c) ((rcAll_mem (r, c)).mpr ⟨hr, hc⟩)
    simpa using h2
  · exact List.all_eq_true.mp hs.2 (r, c) ((rcAll_mem (r, c)).mpr ⟨hr, hc⟩)

theorem placement_of_solution (b sol : Sudoku.Board) (r c : Nat) (hr : r < 9) (hc : c < 9)
    (hsol : Sudoku.isValidSolution sol = true)
    (hext : ∀ i j : Nat, i < 9 → j < 9 → ¬(b i j = 0) → b i j = sol i j)
    (hzero : ∀ i j : Nat, i < 9 → j < 9 → ¬(sol i j = 0)) :
    Sudoku.isValidPlacement b r c (sol r c) = true := by
  have hvp := (isValidSolution_cell sol hsol r c hr hc).2
  rw [isValidPlacement_iff] at hvp ⊢
  obtain ⟨hrow, hcol, hbox⟩ := hvp
  refine ⟨?_, ?_, ?_⟩
  · intro c0 hc0
    rcases hrow c0 hc0 with h1 | h1
    · exact Or.inl h1
    · right
      intro hbc
      by_cases hz : b r c0 = 0
      · rw [hz] at hbc
        exact hzero r c hr hc hbc.symm
      · exact h1 ((hext r c0 hr hc0 hz).symm.trans hbc)
  · intro r0 hr0
    rcases hcol r0 hr0 with h1 | h1
    · exact Or.inl h1
    · right
      intro hbc
      by_cases hz : b r0 c = 0
      · rw [hz] at hbc
        exact hzero r c hr hc hbc.symm
      · exact h1 ((hext r0 c hr0 hc hz).symm.trans hbc)
  · intro dr hdr dc hdc
    rcases hbox dr hdr dc hdc with h1 | h1
    · exact Or.inl h1
    · right
      intro hbc
      have hi : r / 3 * 3 + dr < 9 := by omega
      have hj : c / 3 * 3 + dc < 9 := by omega
      by_cases hz : b (r / 3 * 3 + dr) (c / 3 * 3 + dc) = 0
      · rw [hz] at hbc
        exact hzero r c hr hc hbc.symm
      · exact h1 ((hext _ _ hi hj hz).symm.trans hbc)

theorem consistent_bupd (b : Sudoku.Board) (r c n : Nat) (hr : r < 9) (hc : c < 9)
    (hcons : ∀ i j : Nat, i < 9 → j < 9 → ¬(b i j = 0) →
      Sudoku.isValidPlacement b i j (b i j) = true)
    (hval : Sudoku.isValidPlacement b r c n = true) :
    ∀ i j : Nat, i < 9 → j < 9 → ¬(Sudoku.bupd b r c n i j = 0) →
      Sudoku.isValidPlacement (Sudoku.bupd b r c n) i j (Sudoku.bupd b r c n i j)
        = true := by
  intro i j hi hj hnz
  by_cases hij : i = r ∧ j = c
  · obtain ⟨e1, e2⟩ := hij
    rw [show Sudoku.bupd b r c n i j = n from by simp [Sudoku.bupd, e1, e2]]
    rw [e1, e2]
    rw [isValidPlacement_iff] at hval ⊢
    obtain ⟨h1, h2, h3⟩ := hval
    refine ⟨?_, ?_, ?_⟩
    · intro c0 hc0
      by_cases hc0c : c0 = c
      · exact Or.inl hc0c
      · right
        rw [show Sudoku.bupd b r c n r c0 = b r c0 from by
          simp [Sudoku.bupd, hc0c]]
        rcases h1 c0 hc0 with hA | hA
        · exact absurd hA hc0c
        · exact hA
    · intro r0 hr0
      by_cases hr0r : r0 = r
      · exact Or.inl hr0r
      · right
        rw [show Sudoku.bupd b r c n r0 c = b r0 c from by
          simp [Sudoku.bupd, hr0r]]
        rcases h2 r0 hr0 with hA | hA
        · exact absurd hA hr0r
        · exact hA
    · intro dr hdr dc hdc
      by_cases hg : r / 3 * 3 + dr = r ∧ c / 3 * 3 + dc = c
      · exact Or.inl hg
      · right
        rw [show Sudoku.bupd b r c n (r / 3 * 3 + dr) (c / 3 * 3 + dc) =
            b (r / 3 * 3 + dr) (c / 3 * 3 + dc) from by
          simp [Sudoku.bupd, hg]]
        rcases h3 dr hdr dc hdc with hA | hA
        · exact absurd hA hg
        · exact hA
  · have hvv : Sudoku.bupd b r c n i j = b i j := by simp [Sudoku.bupd, hij]
    rw [hvv] at hnz ⊢
    have hvpij := hcons i j hi hj hnz
    rw [isValidPlacement_iff] at hvpij hval ⊢
    obtain ⟨p1, p2, p3⟩ := hvpij
    obtain ⟨q1, q2, q3⟩ := hval
    refine ⟨?_, ?_, ?_⟩
    · intro c0 hc0
      by_cases hc0j : c0 = j
      · exact Or.inl hc0j
      · right
        intro hbc
        by_cases hcell : i = r ∧ c0 = c
        · obtain ⟨e1, e2⟩ := hcell
          rw [show Sudoku.bupd b r c n i c0 = n from by
            simp [Sudoku.bupd, e1, e2]] at hbc
          have hjc : ¬(j = c) := by
            intro he
            exact hij ⟨e1, he⟩
          rcases q1 j hj with hA | hA
          · exact hjc hA
          · apply hA
            rw [← e1]
            exact hbc.symm
        · rw [show Sudoku.bupd b r c n i c0 = b i c0 from by
            simp [Sudoku.bupd, hcell]] at hbc
          rcases p1 c0 hc0 with hA | hA
          · exact hc0j hA
          · exact hA hbc
    · intro r0 hr0
      by_cases hr0i : r0 = i
      · exact Or.inl hr0i
      · right
        intro hbc
        by_cases hcell : r0 = r ∧ j = c
        · obtain ⟨e1, e2⟩ := hcell
          rw [show Sudoku.bupd b r c n r0 j = n from by
            simp [Sudoku.bupd, e1, e2]] at hbc
          have hir : ¬(i = r) := by
            intro he
            exact hij ⟨he, e2⟩
          rcases q2 i hi with hA | hA
          · exact hir hA
          · apply hA
            rw [← e2]
            exact hbc.symm
        · rw [show Sudoku.bupd b r c n r0 j = b r0 j from by
            simp [Sudoku.bupd, hcell]] at hbc
          rcases p2 r0 hr0 with hA | hA
          · exact hr0i hA
          · exact hA hbc
    · intro dr hdr dc hdc
      by_cases hg : i / 3 * 3 + dr = i ∧ j / 3 * 3 + dc = j
      · exact Or.inl hg
      · right
        intro hbc
        by_cases hcell : i / 3 * 3 + dr = r ∧ j / 3 * 3 + dc = c
        · rw [show Sudoku.bupd b r c n (i / 3 * 3 + dr) (j / 3 * 3 + dc) = n from by
            simp [Sudoku.bupd, hcell.1, hcell.2]] at hbc
          have ei : r / 3 * 3 + i % 3 = i := by omega
          have ej : c / 3 * 3 + j % 3 = j := by omega
          rcases q3 (i % 3) (by omega) (j % 3) (by omega) with hA | hA
          · rw [ei, ej] at hA
            exact hij ⟨hA.1, hA.2⟩
          · rw [ei, ej] at hA
            exact hA hbc.symm
        · rw [show Sudoku.bupd b r c n (i / 3 * 3 + dr) (j / 3 * 3 + dc) =
              b (i / 3 * 3 + dr) (j / 3 * 3 + dc) from by
            simp [Sudoku.bupd, hcell]] at hbc
          rcases p3 dr hdr dc hdc with hA | hA
          · exact hg hA
          · exact hA hbc

theorem fill_fold_some (shuf : Nat → List Nat → List Nat) (fuel : Nat)
    (b : Sudoku.Board) (r c : Nat) :
    ∀ (l : List Nat) (acc : Option Sudoku.Board × Nat),
      (acc.1.isSome = true ∨ ∃ n ∈ l, Sudoku.isValidPlacement b r c n = true ∧
        ∀ k : Nat, ((Sudoku.fillHelper shuf fuel k (Sudoku.bupd b r c n)).1).isSome
          = true) →
      ((l.foldl
        (fun (acc : Option Sudoku.Board × Nat) n =>
          match acc.1 with
          | some _ => acc
          | none =>
            if Sudoku.isValidPlacement b r c n then
              Sudoku.fillHelper shuf fuel acc.2 (Sudoku.bupd b r c n)
            else acc)
        acc).1).isSome = true := by
  intro l
  induction l with
  | nil =>
    intro acc hyp
    rcases hyp with hs | ⟨n, hn, _, _⟩
    · exact hs
    · exact absurd hn (List.not_mem_nil n)
  | cons m t ih =>
    intro acc hyp
    rw [List.foldl_cons]
    apply ih
    cases hacc : acc.1 with
    | some v =>
      left
      simp [hacc]
    | none =>
      rcases hyp with hs | ⟨n, hn, hval2, hok⟩
      · rw [hacc] at hs
        exact absurd hs (by simp)
      · rcases List.mem_cons.mp hn with heq | hnt
        · subst heq
          left
          simp only [hacc, hval2, if_true]
          exact hok acc.2
        · right
          exact ⟨n, hnt, hval2, hok⟩

theorem fill_fold_inv (shuf : Nat → List Nat → List Nat) (fuel : Nat)
    (b : Sudoku.Board) (r c : Nat) :
    ∀ (l : List Nat) (acc : Option Sudoku.Board × Nat) (bF : Sudoku.Board),
      ((l.foldl
        (fun (acc : Option Sudoku.Board × Nat) n =>
          match acc.1 with
          | some _ => acc
          | none =>
            if Sudoku.isValidPlacement b r c n then
              Sudoku.fillHelper shuf fuel acc.2 (Sudoku.bupd b r c n)
            else acc)
        acc).1) = some bF →
      acc.1 = some bF ∨ ∃ n : Nat, Sudoku.isValidPlacement b r c n = true ∧
        ∃ k2 : Nat, (Sudoku.fillHelper shuf fuel k2 (Sudoku.bupd b r c n)).1
          = some bF := by
  intro l
  induction l with
  | nil => intro acc bF h; exact Or.inl h
  | cons m t ih =>
    intro acc bF h
    rw [List.foldl_cons] at h
    rcases ih _ bF h with h2 | h2
    · cases hacc : acc.1 with
      | some v =>
        left
        rw [show (match acc.1 with
            | some _ => acc
            | none =>
              if Sudoku.isValidPlacement b r c m then
                Sudoku.fillHelper shuf fuel acc.2 (Sudoku.bupd b r c m)
              else acc) = acc from by simp [hacc]] at h2
        rw [hacc] at h2
        exact h2
      | none =>
        by_cases hval : Sudoku.isValidPlacement b r c m = true
        · right
          refine ⟨m, hval, acc.2, ?_⟩
          rw [show (match acc.1 with
              | some _ => acc
              | none =>
                if Sudoku.isValidPlacement b r c m then
                  Sudoku.fillHelper shuf fuel acc.2 (Sudoku.bupd b r c m)
                else acc) = Sudoku.fillHelper shuf fuel acc.2 (Sudoku.bupd b r c m)
            from by simp [hacc, hval]] at h2
          exact h2
        · left
          rw [show (match acc.1 with
              | some _ => acc
              | none =>
                if Sudoku.isValidPlacement b r c m then
                  Sudoku.fillHelper shuf fuel acc.2 (Sudoku.bupd b r c m)
                else acc) = acc from by simp [hacc, hval]] at h2
          rw [hacc] at h2
          exact h2
    · exact Or.inr h2

theorem fillHelper_complete (shuf : Nat → List Nat → List Nat)
    (hshuf : ∀ k : Nat, (shuf k Sudoku.nums).Perm Sudoku.nums)
    (sol : Sudoku.Board) (hsol : Sudoku.isValidSolution sol = true)
    (hrange : ∀ i j : Nat, i < 9 → j < 9 → sol i j ∈ Sudoku.nums) :
    ∀ (fuel : Nat) (b : Sudoku.Board) (k : Nat),
      Sudoku.rcAll.countP (fun p => b p.1 p.2 == 0) < fuel →
      (∀ i j : Nat, i < 9 → j < 9 → ¬(b i j = 0) → b i j = sol i j) →
      ((Sudoku.fillHelper shuf fuel k b).1).isSome = true := by
  intro fuel
  induction fuel with
  | zero => intro b k hcount _; omega
  | succ fuel ih =>
    intro b k hcount hext
    cases hfind : Sudoku.findFirstEmpty b with
    | none =>
      rw [show Sudoku.fillHelper shuf (fuel + 1) k b = (some b, k) from by
        simp only [Sudoku.fillHelper, hfind]]
      rfl
    | some rc =>
      obtain ⟨r, c⟩ := rc
      obtain ⟨hr, hc, hempty⟩ := findFirstEmpty_some b r c hfind
      rw [show Sudoku.fillHelper shuf (fuel + 1) k b =
        ((shuf k Sudoku.nums).foldl
          (fun (acc : Option Sudoku.Board × Nat) n =>
            match acc.1 with
            | some _ => acc
            | none =>
              if Sudoku.isValidPlacement b r c n then
                Sudoku.fillHelper shuf fuel acc.2 (Sudoku.bupd b r c n)
              else acc)
          (none, k + 1)) from by
        simp only [Sudoku.fillHelper, hfind]]
      apply fill_fold_some
      right
      have hzero : ∀ i j : Nat, i < 9 → j < 9 → ¬(sol i j = 0) :=
        fun i j hi hj => (isValidSolution_cell sol hsol i j hi hj).1
      refine ⟨sol r c, ((hshuf k).mem_iff).mpr (hrange r c hr hc),
        placement_of_solution b sol r c hr hc hsol hext hzero, ?_⟩
      intro k2
      apply ih _ k2
      · have hcb := empty_count_bupd b r c (sol r c) hr hc hempty (hzero r c hr hc)
        omega
      · intro i j hi hj hnz2
        by_cases hijrc : i = r ∧ j = c
        · rw [show Sudoku.bupd b r c (sol r c) i j = sol r c from by
            simp [Sudoku.bupd, hijrc.1, hijrc.2]]
          rw [hijrc.1, hijrc.2]
        · rw [show Sudoku.bupd b r c (sol r c) i j = b i j from by
            simp [Sudoku.bupd, hijrc]] at hnz2 ⊢
          exact hext i j hi hj hnz2

theorem fillHelper_sound (shuf : Nat → List Nat → List Nat) :
    ∀ (fuel : Nat) (b : Sudoku.Board) (k : Nat) (bF : Sudoku.Board),
      (∀ i j : Nat, i < 9 → j < 9 → ¬(b i j = 0) →
        Sudoku.isValidPlacement b i j (b i j) = true) →
      (Sudoku.fillHelper shuf fuel k b).1 = some bF →
      Sudoku.isValidSolution bF = true := by
  intro fuel
  induction fuel with
  | zero => intro b k bF _ hsome; exact absurd hsome (by simp [Sudoku.fillHelper])
  | succ fuel ih =>
    intro b k bF hcons hsome
    cases hfind : Sudoku.findFirstEmpty b with
    | none =>
      rw [show Sudoku.fillHelper shuf (fuel + 1) k b = (some b, k) from by
        simp only [Sudoku.fillHelper, hfind]] at hsome
      have hbF : b = bF := Option.some_inj.mp hsome
      rw [← hbF]
      have hsolved : Sudoku.isSolved b = true := by
        rw [Sudoku.isSolved, List.all_eq_true]
        intro p hp
        have h2 := List.find?_eq_none.mp hfind p hp
        simpa using h2
      rw [Sudoku.isValidSolution, Bool.and_eq_true]
      refine ⟨hsolved, ?_⟩
      rw [List.all_eq_true]
      intro p hp
      have hzz := List.find?_eq_none.mp hfind p hp
      have hnz : ¬(b p.1 p.2 = 0) := by simpa using hzz
      exact hcons p.1 p.2 ((rcAll_mem p).mp hp).1 ((rcAll_mem p).mp hp).2 hnz
    | some rc =>
      obtain ⟨r, c⟩ := rc
      obtain ⟨hr, hc, hempty⟩ := findFirstEmpty_some b r c hfind
      rw [show Sudoku.fillHelper shuf (fuel + 1) k b =
        ((shuf k Sudoku.nums).foldl
          (fun (acc : Option Sudoku.Board × Nat) n =>
            match acc.1 with
            | some _ => acc
            | none =>
              if Sudoku.isValidPlacement b r c n then
                Sudoku.fillHelper shuf fuel acc.2 (Sudoku.bupd b r c n)
              else acc)
          (none, k + 1)) from by
        simp only [Sudoku.fillHelper, hfind]] at hsome
      rcases fill_fold_inv shuf fuel b r c (shuf k Sudoku.nums) (none, k + 1) bF hsome
        with h2 | ⟨n, hval, k2, hrec⟩
      · exact absurd h2 (by simp)
      · exact ih (Sudoku.bupd b r c n) k2 bF
          (consistent_bupd b r c n hr hc hcons hval) hrec

theorem solveBacktracking_solved (b : Sudoku.Board) (hs : Sudoku.isSolved b = true) :
    Sudoku.solveBacktracking b = some b := by
  have hfind := findFirstEmpty_none b hs
  rw [Sudoku.solveBacktracking]
  rw [show (82 : Nat) = Nat.succ 81 from rfl]
  simp only [Sudoku.helper, hfind]

theorem carve_inv (complete : Sudoku.Board) (target minClues : Nat) :
    ∀ (ps : List (Nat × Nat)) (clues : Nat) (puzzle : Sudoku.Board),
      (∃ sv, Sudoku.solveBacktracking puzzle = some sv ∧
        Sudoku.gridEq sv complete = true) →
      ∃ sv, Sudoku.solveBacktracking
          (Sudoku.carve complete target minClues ps clues puzzle) = some sv ∧
        Sudoku.gridEq sv complete = true := by
  intro ps
  induction ps with
  | nil => intro clues puzzle hinv; exact hinv
  | cons pos rest ih =>
    intro clues puzzle hinv
    by_cases hcl : clues ≤ minClues
    · rw [show Sudoku.carve complete target minClues (pos :: rest) clues puzzle
          = puzzle from by simp only [Sudoku.carve, if_pos hcl]]
      exact hinv
    · cases hsb : Sudoku.solveBacktracking (Sudoku.bupd puzzle pos.1 pos.2 0) with
      | none =>
        rw [show Sudoku.carve complete target minClues (pos :: rest) clues puzzle =
            Sudoku.carve complete target minClues rest clues puzzle from by
          simp only [Sudoku.carve, if_neg hcl, hsb]]
        exact ih clues puzzle hinv
      | some solved =>
        by_cases hge : Sudoku.gridEq solved complete = true
        · by_cases hdiff : Sudoku.getDifficultyLevel (Sudoku.bupd puzzle pos.1 pos.2 0)
            ≤ target
          · rw [show Sudoku.carve complete target minClues (pos :: rest) clues puzzle =
                Sudoku.carve complete target minClues rest (clues - 1)
                  (Sudoku.bupd puzzle pos.1 pos.2 0) from by
              simp only [Sudoku.carve, if_neg hcl, hsb, hge, if_true, if_pos hdiff]]
            exact ih (clues - 1) _ ⟨solved, hsb, hge⟩
          · rw [show Sudoku.carve complete target minClues (pos :: rest) clues puzzle =
                Sudoku.carve complete target minClues rest clues puzzle from by
              simp only [Sudoku.carve, if_neg hcl, hsb, hge, if_true, if_neg hdiff]]
            exact ih clues puzzle hinv
        · rw [show Sudoku.carve complete target minClues (pos :: rest) clues puzzle =
              Sudoku.carve complete target minClues rest clues puzzle from by
            simp only [Sudoku.carve, if_neg hcl, hsb]
            rw [if_neg hge]]
          exact ih clues puzzle hinv

/-- C9: For every target difficulty and every puzzle-and-solution pair
produced by generatePuzzle (with the random-comparator shuffle modelled by
an oracle that always returns a permutation of the digit list, as the JS
sort does), solveBacktracking on the puzzle returns a grid identical to
the paired solution on all 81 cells, and isValidSolution holds of the
solution. -/
theorem generate_puzzle_roundtrip (shuf : Nat → List Nat → List Nat)
    (hshuf : ∀ k : Nat, (shuf k Sudoku.nums).Perm Sudoku.nums)
    (positions : List (Nat × Nat)) (d : Nat) :
    Sudoku.isValidSolution (Sudoku.generatePuzzle shuf positions d).2 = true ∧
    ∃ sv : Sudoku.Board,
      Sudoku.solveBacktracking (Sudoku.generatePuzzle shuf positions d).1 = some sv ∧
      Sudoku.gridEq sv (Sudoku.generatePuzzle shuf positions d).2 = true := by
  have hsome : ((Sudoku.fillBoard shuf Sudoku.emptyBoard).1).isSome = true :=
    fillHelper_complete shuf hshuf
      (fun i j => (i * 3 + i / 3 + j) % 9 + 1) (by decide)
      (fun i j hi hj => by
        rw [mem_nums]
        show 1 ≤ (i * 3 + i / 3 + j) % 9 + 1 ∧ (i * 3 + i / 3 + j) % 9 + 1 ≤ 9
        omega)
      82 Sudoku.emptyBoard 0 (by decide)
      (fun i j hi hj hnz => absurd rfl hnz)
  cases hfill : (Sudoku.fillBoard shuf Sudoku.emptyBoard).1 with
  | none =>
    rw [hfill] at hsome
    exact absurd hsome (by simp)
  | some bF =>
    have hvalid : Sudoku.isValidSolution bF = true :=
      fillHelper_sound shuf 82 Sudoku.emptyBoard 0 bF
        (fun i j hi hj hnz => absurd rfl hnz) hfill
    have hceq : Sudoku.generateCompleteSudoku shuf = bF := by
      simp [Sudoku.generateCompleteSudoku, hfill]
    constructor
    · rw [show (Sudoku.generatePuzzle shuf positions d).2 =
        Sudoku.generateCompleteSudoku shuf from rfl, hceq]
      exact hvalid
    · have hsC : Sudoku.isSolved (Sudoku.generateCompleteSudoku shuf) = true := by
        rw [hceq]
        have h2 := hvalid
        rw [Sudoku.isValidSolution, Bool.and_eq_true] at h2
        exact h2.1
      have hbase : ∃ sv, Sudoku.solveBacktracking (Sudoku.generateCompleteSudoku shuf)
          = some sv ∧ Sudoku.gridEq sv (Sudoku.generateCompleteSudoku shuf) = true :=
        ⟨Sudoku.generateCompleteSudoku shuf,
          solveBacktracking_solved _ hsC, gridEq_refl _⟩
      exact carve_inv (Sudoku.generateCompleteSudoku shuf) d
        (Sudoku.targetClues d) positions 81 (Sudoku.generateCompleteSudoku shuf) hbase

/-- C9 witness: the round-trip theorem instantiated with the identity
shuffle oracle and an empty carving-position list at difficulty 3. -/
theorem generate_puzzle_roundtrip_witness :
    Sudoku.isValidSolution (Sudoku.generatePuzzle (fun _ l => l) [] 3).2 = true ∧
    ∃ sv : Sudoku.Board,
      Sudoku.solveBacktracking (Sudoku.generatePuzzle (fun _ l => l) [] 3).1 = some sv ∧
      Sudoku.gridEq sv (Sudoku.generatePuzzle (fun _ l => l) [] 3).2 = true :=
  generate_puzzle_roundtrip (fun _ l => l) (fun _ => List.Perm.refl Sudoku.nums) [] 3
